import Mathlib

/-!
# Reporting and aggregation layer of the task manager

A shallow embedding of the statistics functions of
`src/services/databaseService.js`: the functions are modelled on the rows the
row store hands back, and the JavaScript built-ins they rely on (numbers,
`Math.round`, `Date.prototype.toISOString`, plain objects used as dictionaries,
`Array.prototype.sort`) are modelled next to them.
-/

namespace TaskManage

/-! ## JavaScript numbers

Every number the statistics code divides or multiplies is an array length or
the constant `100`, so only non-negative finite doubles occur.  A double is
kept as an exact fraction; each arithmetic operation computes the exact
result and rounds it to the nearest value with a 53-bit significand, ties to
even, as IEEE 754 binary64 does.  The exponent is unbounded here: overflow and
subnormal numbers need operands that no array length (below `2^32`) reaches.
-/

/-- Nearest natural number to `a / d`, a tie going to the even neighbour. -/
def roundHalfEven (a d : Nat) : Nat :=
  let q := a / d
  let r := a % d
  if 2 * r < d then q
  else if d < 2 * r then q + 1
  else if q % 2 = 0 then q else q + 1

/-- A non-negative finite JavaScript number, as the exact fraction `num / den`. -/
structure Dbl where
  num : Nat
  den : Nat
deriving DecidableEq, Repr

/-- Number of doublings that bring `n / d` up to at least `2^52`. -/
def scaleUp : Nat → Nat → Nat → Nat
  | 0, _, _ => 0
  | fuel + 1, n, d => if 2 ^ 52 * d ≤ n then 0 else scaleUp fuel (2 * n) d + 1

/-- Number of halvings that bring `n / d` below `2^53`. -/
def scaleDown : Nat → Nat → Nat → Nat
  | 0, _, _ => 0
  | fuel + 1, n, d => if n < 2 ^ 53 * d then 0 else scaleDown fuel n (2 * d) + 1

/-- The double nearest to the exact fraction `n / d` (`d` positive): the
fraction is scaled by a power of two into `[2^52, 2^53)`, rounded to an
integer significand, and scaled back. -/
def Dbl.round (n d : Nat) : Dbl :=
  if n = 0 then ⟨0, 1⟩
  else if 2 ^ 52 * d ≤ n then
    let j := scaleDown n n d
    ⟨roundHalfEven n (d * 2 ^ j) * 2 ^ j, 1⟩
  else
    let i := scaleUp (53 + d) n d
    ⟨roundHalfEven (n * 2 ^ i) d, 2 ^ i⟩

/-- An array length or small integer literal as a number (exact below `2^53`). -/
def Dbl.ofNat (n : Nat) : Dbl := ⟨n, 1⟩

/-- JavaScript `x / y` for a non-zero `y`. -/
def Dbl.div (x y : Dbl) : Dbl := Dbl.round (x.num * y.den) (x.den * y.num)

/-- JavaScript `x * y`. -/
def Dbl.mul (x y : Dbl) : Dbl := Dbl.round (x.num * y.num) (x.den * y.den)

/-- `Math.round(x)` for a non-negative `x`: the integer `⌊x + 1/2⌋`. -/
def mathRound (x : Dbl) : Nat := (2 * x.num + x.den) / (2 * x.den)

/-- The expression `total > 0 ? Math.round((completed / total) * 100) : 0`. -/
def completionRate (completed total : Nat) : Nat :=
  if total > 0 then
    mathRound (Dbl.mul (Dbl.div (Dbl.ofNat completed) (Dbl.ofNat total)) (Dbl.ofNat 100))
  else 0

/-! ## Results and rows -/

/-- What ends up in the `error` slot of a result: the error object the row
store reported, an exception caught by a function's own `catch` block, an
object literal `{ message }` built by the function itself, or a plain string. -/
inductive Failure where
  | store (message : String)
  | thrown (message : String)
  | own (message : String)
  | text (message : String)
deriving DecidableEq, Repr

/-- The two-field value `{ data, error }`, returned by the row store and by
the exported functions; `none` stands for `null`. -/
structure Response (α : Type) where
  data : Option α
  error : Option Failure
deriving DecidableEq, Repr

/-- The exception raised by reading a property of a `null` row array. -/
def nullRows : Failure := Failure.thrown "TypeError: Cannot read properties of null"

/-- A row of `tasks`, with the columns the statistics queries select.
Timestamps are the time values of `new Date(column)`, in milliseconds since
the epoch: the columns are timestamps, so each denotes a valid `Date` and the
`RangeError` of `toISOString` on an invalid one does not arise.  Identifiers
are the integer keys of the tables, `none` for `null`.  `status` and `priority`
are text; only comparisons `===` with string literals read them, for which a
`null` behaves as any unrecognised string.  `assigned_user` is the `username`
of the joined assignee row, `none` when the join is `null`. -/
structure TaskRow where
  status : String
  priority : String
  created_at : Int
  due_date : Option Int
  category_id : Option Nat
  assignee_id : Option Nat
  assigned_user : Option String
deriving DecidableEq, Repr

/-- A row of `users`, with the columns `role, created_at`. -/
structure UserRow where
  role : String
  created_at : Int
deriving DecidableEq, Repr

/-- A row of `categories`, with the columns `category_id, name, color`. -/
structure CategoryRow where
  category_id : Nat
  name : String
  color : String
deriving DecidableEq, Repr

/-- Truthiness of a nullable integer identifier: `null` and `0` are falsy. -/
def truthyId : Option Nat → Bool
  | none => false
  | some n => n != 0

/-! ## Plain objects used as dictionaries, and sorting

An object literal `{}` filled by `obj[key] = ...` is a list of its own
properties in creation order.  The keys used here are date strings, month
strings and decimal identifiers, none of which names a property inherited
from `Object.prototype`, so `!obj[key]` tests for an own property. -/

/-- Whether `obj[key]` is an own property. -/
def hasKey {κ α : Type} [DecidableEq κ] (key : κ) (obj : List (κ × α)) : Bool :=
  obj.any (fun p => p.1 = key)

/-- The value of `obj[key]`, `none` for `undefined`. -/
def getKey {κ α : Type} [DecidableEq κ] (key : κ) : List (κ × α) → Option α
  | [] => none
  | p :: rest => if p.1 = key then some p.2 else getKey key rest

/-- The assignment `obj[key] = value`: an existing property keeps its place, a
new one is created last. -/
def setKey {κ α : Type} [DecidableEq κ] (key : κ) (value : α) : List (κ × α) → List (κ × α)
  | [] => [(key, value)]
  | p :: rest => if p.1 = key then (key, value) :: rest else p :: setKey key value rest

/-- An in-place update of the value held at `obj[key]`, such as `obj[key].n++`. -/
def modifyKey {κ α : Type} [DecidableEq κ] (key : κ) (f : α → α) : List (κ × α) → List (κ × α)
  | [] => []
  | p :: rest => if p.1 = key then (p.1, f p.2) :: rest else p :: modifyKey key f rest

/-- `Object.keys(obj)` for string keys that are not array indices: creation order. -/
def objectKeys {α : Type} (obj : List (String × α)) : List String := obj.map Prod.fst

/-- The UTF-16 code units of one character. -/
def charUnits (c : Char) : List Nat :=
  if c.toNat < 65536 then [c.toNat]
  else [55296 + (c.toNat - 65536) / 1024, 56320 + (c.toNat - 65536) % 1024]

/-- The UTF-16 code units of a string, which is what JavaScript compares. -/
def codeUnits : List Char → List Nat
  | [] => []
  | c :: cs => charUnits c ++ codeUnits cs

/-- Lexicographic `≤` on sequences of code units. -/
def lexLe : List Nat → List Nat → Bool
  | [], _ => true
  | _ :: _, [] => false
  | a :: as, b :: bs => decide (a < b) || (decide (a = b) && lexLe as bs)

/-- The order `a <= b` of JavaScript strings. -/
def jsLe (a b : String) : Prop := lexLe (codeUnits a.toList) (codeUnits b.toList) = true

/-- The order `a < b` of JavaScript strings. -/
def jsLt (a b : String) : Prop := lexLe (codeUnits b.toList) (codeUnits a.toList) = false

instance jsLe.decidable : DecidableRel jsLe := fun a b =>
  inferInstanceAs (Decidable (lexLe (codeUnits a.toList) (codeUnits b.toList) = true))

instance jsLt.decidable : DecidableRel jsLt := fun a b =>
  inferInstanceAs (Decidable (lexLe (codeUnits b.toList) (codeUnits a.toList) = false))

/-- `Array.prototype.sort()` without a comparator, on an array of strings:
ascending order of the code unit sequences.  The result is the same for every
sorting algorithm, equal strings being indistinguishable. -/
def jsSort (keys : List String) : List String := keys.insertionSort jsLe

/-- Whether a decimal key is an array index, which `Object.values` lists first. -/
def isArrayIndex (key : Nat) : Bool := decide (key < 2 ^ 32 - 1)

/-- `Object.values(obj)` for keys that are decimal integers: the properties
whose key is an array index in ascending numeric order, then the others in
creation order. -/
def objectValues {α : Type} (obj : List (Nat × α)) : List α :=
  (((obj.filter (fun p => isArrayIndex p.1)).insertionSort (fun a b => a.1 ≤ b.1)).map Prod.snd)
    ++ ((obj.filter (fun p => !isArrayIndex p.1)).map Prod.snd)

/-! ## Dates -/

/-- Decimal digits of `n`, least significant last, padded with zeros to `width`. -/
def padDigits : Nat → Nat → List Char
  | 0, _ => []
  | width + 1, n => padDigits width (n / 10) ++ [Char.ofNat (48 + n % 10)]

/-- Year, month and day of the UTC calendar date that is `z` days after
1970-01-01 (proleptic Gregorian calendar). -/
def civilFromDays (z : Int) : Int × Nat × Nat :=
  let s := z + 719468
  let era := s / 146097
  let doe := (s - era * 146097).toNat
  let yoe := (doe - doe / 1460 + doe / 36524 - doe / 146096) / 365
  let doy := doe - (365 * yoe + yoe / 4 - yoe / 100)
  let mp := (5 * doy + 2) / 153
  let d := doy - (153 * mp + 2) / 5 + 1
  let m := if mp < 10 then mp + 3 else mp - 9
  let y : Int := (yoe : Int) + era * 400
  (if m ≤ 2 then y + 1 else y, m, d)

/-- The expression `new Date(t).toISOString().split('T')[0]` for the time value
`t`: the UTC calendar date as `YYYY-MM-DD`, the year written with a sign and
six digits outside `0..9999`. -/
def isoDate (t : Int) : String :=
  let (y, m, d) := civilFromDays (t / 86400000)
  let year : List Char :=
    if 0 ≤ y ∧ y ≤ 9999 then padDigits 4 y.toNat
    else if 0 ≤ y then '+' :: padDigits 6 y.toNat
    else '-' :: padDigits 6 (-y).toNat
  String.mk (year ++ ['-'] ++ padDigits 2 m ++ ['-'] ++ padDigits 2 d)

/-! ## `getTaskStatistics` and `getUserStatistics` -/

/-- The object `byStatus`, keys `待领取`, `进行中`, `已完成`, `已逾期` in this order. -/
structure StatusCounts where
  pending : Nat
  inProgress : Nat
  completed : Nat
  overdue : Nat
deriving DecidableEq, Repr

/-- The object `byPriority`. -/
structure PriorityCounts where
  low : Nat
  medium : Nat
  high : Nat
deriving DecidableEq, Repr

/-- The `statistics` object of `getTaskStatistics`. -/
structure TaskStatistics where
  total : Nat
  byStatus : StatusCounts
  byPriority : PriorityCounts
deriving DecidableEq, Repr

/-- The function `getTaskStatistics`, on the store's answer to its query. -/
def getTaskStatistics (fetched : Response (List TaskRow)) : Response TaskStatistics :=
  match fetched.error with
  | some e => { data := none, error := some e }
  | none =>
    match fetched.data with
    | none => { data := none, error := some nullRows }
    | some tasks =>
      { data := some
          { total := tasks.length
            byStatus :=
              { pending := (tasks.filter (fun t => t.status = "待领取")).length
                inProgress := (tasks.filter (fun t => t.status = "进行中")).length
                completed := (tasks.filter (fun t => t.status = "已完成")).length
                overdue := (tasks.filter (fun t => t.status = "已逾期")).length }
            byPriority :=
              { low := (tasks.filter (fun t => t.priority = "low")).length
                medium := (tasks.filter (fun t => t.priority = "medium")).length
                high := (tasks.filter (fun t => t.priority = "high")).length } }
        error := none }

/-- One element of the registration trend. -/
structure MonthCount where
  month : String
  count : Nat
deriving DecidableEq, Repr

/-- One iteration of the `forEach` of `getRegistrationTrend`. -/
def registrationStep (monthKey : Int → String) (monthlyStats : List (String × Nat))
    (user : UserRow) : List (String × Nat) :=
  let key := monthKey user.created_at
  let started :=
    match getKey key monthlyStats with
    | none => setKey key 0 monthlyStats
    | some 0 => setKey key 0 monthlyStats
    | some _ => monthlyStats
  modifyKey key (fun n => n + 1) started

/-- The helper `getRegistrationTrend`.  `monthKey` gives the key `YYYY-MM` of a
time value in the time zone of the browser.  A key listed by `Object.keys` is
an own property, so the default of the last lookup is never used. -/
def getRegistrationTrend (monthKey : Int → String) (users : List UserRow) : List MonthCount :=
  let monthlyStats := users.foldl (registrationStep monthKey) []
  (jsSort (objectKeys monthlyStats)).map
    (fun month => { month := month, count := (getKey month monthlyStats).getD 0 })

/-- The object `byRole`. -/
structure RoleCounts where
  admin : Nat
  user : Nat
deriving DecidableEq, Repr

/-- The `statistics` object of `getUserStatistics`. -/
structure UserStatistics where
  total : Nat
  byRole : RoleCounts
  registrationTrend : List MonthCount
deriving DecidableEq, Repr

/-- The function `getUserStatistics`, on the store's answer to its query. -/
def getUserStatistics (monthKey : Int → String) (fetched : Response (List UserRow)) :
    Response UserStatistics :=
  match fetched.error with
  | some e => { data := none, error := some e }
  | none =>
    match fetched.data with
    | none => { data := none, error := some nullRows }
    | some users =>
      { data := some
          { total := users.length
            byRole :=
              { admin := (users.filter (fun u => u.role = "admin")).length
                user := (users.filter (fun u => u.role = "user")).length }
            registrationTrend := getRegistrationTrend monthKey users }
        error := none }

/-! ## `getCategoryStatistics` -/

/-- An element of `categoryStats`: the category's own fields and `taskCount`. -/
structure CategoryStat extends CategoryRow where
  taskCount : Nat
deriving DecidableEq, Repr

/-- The `statistics` object of `getCategoryStatistics`. -/
structure CategoryStatistics where
  total : Nat
  categoryDistribution : List CategoryStat
  mostUsedCategory : Option CategoryStat
deriving DecidableEq, Repr

/-- The callback of `categories.map`. -/
def categoryStat (tasks : List TaskRow) (category : CategoryRow) : CategoryStat :=
  { toCategoryRow := category
    taskCount := (tasks.filter (fun task => task.category_id = some category.category_id)).length }

/-- The callback of `categoryStats.reduce`.  The accumulator is `null` only
when the array is empty, and then the callback is never called. -/
def pickMax (max : Option CategoryStat) (current : CategoryStat) : Option CategoryStat :=
  match max with
  | none => none
  | some m => if current.taskCount > m.taskCount then some current else some m

/-- The function `getCategoryStatistics`, on the store's answers to its two
queries; the second query is sent only when the first one succeeded.  With no
category the callback of `categories.map` never runs, so a `null` task array
is not read. -/
def getCategoryStatistics (fetchedCategories : Response (List CategoryRow))
    (fetchedTasks : Response (List TaskRow)) : Response CategoryStatistics :=
  match fetchedCategories.error with
  | some e => { data := none, error := some e }
  | none =>
    match fetchedTasks.error with
    | some e => { data := none, error := some e }
    | none =>
      match fetchedCategories.data with
      | none => { data := none, error := some nullRows }
      | some categories =>
        match fetchedTasks.data with
        | some tasks =>
          let categoryStats := categories.map (categoryStat tasks)
          { data := some
              { total := categories.length
                categoryDistribution := categoryStats
                mostUsedCategory := categoryStats.foldl pickMax categoryStats.head? }
            error := none }
        | none =>
          if categories.isEmpty then
            { data := some { total := 0, categoryDistribution := [], mostUsedCategory := none }
              error := none }
          else { data := none, error := some nullRows }

/-! ## `getTaskTrends` -/

/-- A value of the dictionary `dailyStats`. -/
structure DayStat where
  created : Nat
  completed : Nat
deriving DecidableEq, Repr

/-- An element of `dailyTrends`. -/
structure TrendEntry where
  date : String
  created : Nat
  completed : Nat
deriving DecidableEq, Repr

/-- The object `summary` of the trend statistics. -/
structure TrendSummary where
  totalCreated : Nat
  totalCompleted : Nat
  completionRate : Nat
deriving DecidableEq, Repr

/-- The `statistics` object of `getTaskTrends`. -/
structure TrendStatistics where
  period : String
  dailyTrends : List TrendEntry
  summary : TrendSummary
deriving DecidableEq, Repr

/-- One iteration of `tasks.forEach` in `getTaskTrends`. -/
def trendStep (dailyStats : List (String × DayStat)) (task : TaskRow) : List (String × DayStat) :=
  let date := isoDate task.created_at
  let started :=
    if !hasKey date dailyStats then setKey date { created := 0, completed := 0 } dailyStats
    else dailyStats
  let counted := modifyKey date (fun s => { s with created := s.created + 1 }) started
  if task.status = "已完成" then
    modifyKey date (fun s => { s with completed := s.completed + 1 }) counted
  else counted

/-- The array `trendData` built from `dailyStats`.  A key listed by
`Object.keys` is an own property, so the default of the lookup is never used. -/
def trendData (dailyStats : List (String × DayStat)) : List TrendEntry :=
  (jsSort (objectKeys dailyStats)).map
    (fun date =>
      { date := date
        created := ((getKey date dailyStats).getD { created := 0, completed := 0 }).created
        completed := ((getKey date dailyStats).getD { created := 0, completed := 0 }).completed })

/-- The function `getTaskTrends`, on its argument `days` and the store's answer
to the query for the tasks created in the window. -/
def getTaskTrends (days : Nat) (fetched : Response (List TaskRow)) : Response TrendStatistics :=
  match fetched.error with
  | some e => { data := none, error := some e }
  | none =>
    match fetched.data with
    | none => { data := none, error := some nullRows }
    | some tasks =>
      let dailyStats := tasks.foldl trendStep []
      { data := some
          { period := toString days ++ "天"
            dailyTrends := trendData dailyStats
            summary :=
              { totalCreated := tasks.length
                totalCompleted := (tasks.filter (fun t => t.status = "已完成")).length
                completionRate :=
                  completionRate (tasks.filter (fun t => t.status = "已完成")).length tasks.length } }
        error := none }

/-! ## `getUserWorkloadStatistics` -/

/-- A value of the dictionary `userWorkload`. -/
structure UserWorkload where
  userId : Nat
  username : String
  total : Nat
  completed : Nat
  inProgress : Nat
  pending : Nat
  overdue : Nat
  highPriority : Nat
deriving DecidableEq, Repr

/-- An element of `userWorkloads`: the accumulated record and its rate. -/
structure WorkloadRecord extends UserWorkload where
  completionRate : Nat
deriving DecidableEq, Repr

/-- The object `summary` of the workload statistics. -/
structure WorkloadSummary where
  totalAssignedTasks : Nat
  unassignedTasks : Nat
  averageTasksPerUser : Nat
deriving DecidableEq, Repr

/-- The `statistics` object of `getUserWorkloadStatistics`. -/
structure WorkloadStatistics where
  userWorkloads : List WorkloadRecord
  summary : WorkloadSummary
deriving DecidableEq, Repr

/-- The expression `task.assigned_user?.username || '未知用户'`. -/
def displayName (assigned_user : Option String) : String :=
  match assigned_user with
  | none => "未知用户"
  | some name => if name = "" then "未知用户" else name

/-- The `switch (task.status)` of the workload loop. -/
def countStatus (status : String) (user : UserWorkload) : UserWorkload :=
  if status = "已完成" then { user with completed := user.completed + 1 }
  else if status = "进行中" then { user with inProgress := user.inProgress + 1 }
  else if status = "待领取" then { user with pending := user.pending + 1 }
  else if status = "已逾期" then { user with overdue := user.overdue + 1 }
  else user

/-- The record created for an assignee met for the first time. -/
def newUserWorkload (id : Nat) (task : TaskRow) : UserWorkload :=
  { userId := id, username := displayName task.assigned_user, total := 0
    completed := 0, inProgress := 0, pending := 0, overdue := 0, highPriority := 0 }

/-- One iteration of `tasks.forEach` in `getUserWorkloadStatistics`. -/
def workloadStep (userWorkload : List (Nat × UserWorkload)) (task : TaskRow) :
    List (Nat × UserWorkload) :=
  match task.assignee_id with
  | none => userWorkload
  | some id =>
    if id = 0 then userWorkload
    else
      let started :=
        if !hasKey id userWorkload then setKey id (newUserWorkload id task) userWorkload
        else userWorkload
      let totalled := modifyKey id (fun u => { u with total := u.total + 1 }) started
      let switched := modifyKey id (countStatus task.status) totalled
      if task.priority = "high" then
        modifyKey id (fun u => { u with highPriority := u.highPriority + 1 }) switched
      else switched

/-- What one iteration does to the record of the task's assignee: the three
updates `user.total++`, the `switch` and the `highPriority` test, in order. -/
def countTask (task : TaskRow) (user : UserWorkload) : UserWorkload :=
  let switched := countStatus task.status { user with total := user.total + 1 }
  if task.priority = "high" then { switched with highPriority := switched.highPriority + 1 }
  else switched

/-- The callback of `Object.values(userWorkload).map`. -/
def withRate (user : UserWorkload) : WorkloadRecord :=
  { toUserWorkload := user, completionRate := completionRate user.completed user.total }

/-- The function `getUserWorkloadStatistics`, on the store's answer to its query. -/
def getUserWorkloadStatistics (fetched : Response (List TaskRow)) : Response WorkloadStatistics :=
  match fetched.error with
  | some e => { data := none, error := some e }
  | none =>
    match fetched.data with
    | none => { data := none, error := some nullRows }
    | some tasks =>
      let userWorkload := tasks.foldl workloadStep []
      let workloadStats := (objectValues userWorkload).map withRate
      { data := some
          { userWorkloads := workloadStats
            summary :=
              { totalAssignedTasks := (tasks.filter (fun t => truthyId t.assignee_id)).length
                unassignedTasks := (tasks.filter (fun t => !truthyId t.assignee_id)).length
                averageTasksPerUser :=
                  if workloadStats.length > 0 then
                    mathRound (Dbl.div
                      (Dbl.ofNat (tasks.filter (fun t => truthyId t.assignee_id)).length)
                      (Dbl.ofNat workloadStats.length))
                  else 0 } }
        error := none }

/-! ## `getUserPersonalStats` -/

/-- The object `assignedStats`. -/
structure AssignedStats where
  total : Nat
  completed : Nat
  inProgress : Nat
  pending : Nat
  overdue : Nat
  highPriority : Nat
  completionRate : Nat
deriving DecidableEq, Repr

/-- The object `createdStats`. -/
structure CreatedStats where
  total : Nat
  completed : Nat
  inProgress : Nat
  pending : Nat
  completionRate : Nat
deriving DecidableEq, Repr

/-- The object `recentActivity`. -/
structure RecentActivity where
  assignedLast30Days : Nat
  completedLast30Days : Nat
deriving DecidableEq, Repr

/-- The object `personalStats`. -/
structure PersonalStats where
  assigned : AssignedStats
  created : CreatedStats
  recentActivity : RecentActivity
deriving DecidableEq, Repr

/-- The predicate `t.due_date && new Date(t.due_date) < now && t.status !== '已完成'`. -/
def isOverdueAt (now : Int) (t : TaskRow) : Bool :=
  match t.due_date with
  | none => false
  | some due => decide (due < now) && decide (t.status ≠ "已完成")

/-- The function `getUserPersonalStats`, on the two clock readings it takes and
the store's answers to its two queries (the second query is sent only when the
first one succeeded).  `now` is the time value of the first `new Date()`;
`thirtyDaysAgo` is the time value of the second one after
`setDate(getDate() - 30)`, a shift of thirty calendar days in local time. -/
def getUserPersonalStats (now thirtyDaysAgo : Int) (fetchedAssigned fetchedCreated :
    Response (List TaskRow)) : Response PersonalStats :=
  match fetchedAssigned.error with
  | some e => { data := none, error := some e }
  | none =>
    match fetchedCreated.error with
    | some e => { data := none, error := some e }
    | none =>
      match fetchedAssigned.data, fetchedCreated.data with
      | some assignedTasks, some createdTasks =>
        let assignedCompleted := (assignedTasks.filter (fun t => t.status = "已完成")).length
        let createdCompleted := (createdTasks.filter (fun t => t.status = "已完成")).length
        { data := some
            { assigned :=
                { total := assignedTasks.length
                  completed := assignedCompleted
                  inProgress := (assignedTasks.filter (fun t => t.status = "进行中")).length
                  pending := (assignedTasks.filter (fun t => t.status = "待领取")).length
                  overdue := (assignedTasks.filter (isOverdueAt now)).length
                  highPriority := (assignedTasks.filter (fun t => t.priority = "high")).length
                  completionRate := completionRate assignedCompleted assignedTasks.length }
              created :=
                { total := createdTasks.length
                  completed := createdCompleted
                  inProgress := (createdTasks.filter (fun t => t.status = "进行中")).length
                  pending := (createdTasks.filter (fun t => t.status = "待领取")).length
                  completionRate := completionRate createdCompleted createdTasks.length }
              recentActivity :=
                { assignedLast30Days :=
                    (assignedTasks.filter (fun t => decide (thirtyDaysAgo ≤ t.created_at))).length
                  completedLast30Days :=
                    (assignedTasks.filter
                      (fun t => decide (t.status = "已完成") && decide (thirtyDaysAgo ≤ t.created_at))).length } }
          error := none }
      | _, _ => { data := none, error := some nullRows }

/-- The time value left by `d = new Date(); d.setDate(d.getDate() - 30)` when the
clock reads `clock`.  `tza t isUTC` is the offset `LocalTZA(t, isUTC)` of the
browser's time zone in milliseconds.  `setDate` works on the local time value:
it keeps the time within the day, and `MakeDay` takes a day of the month
outside the month as an offset in days, so the local time value moves back by
thirty days of 86 400 000 ms and is then converted back to UTC. -/
def thirtyDaysBefore (tza : Int → Bool → Int) (clock : Int) : Int :=
  let localTime := clock + tza clock true
  let shifted := localTime - 30 * 86400000
  shifted - tza shifted false

/-! ## The specification's rounding -/

/-- The rate as the specification words it, `round(100 × completed / total)`:
the integer nearest to the exact quotient, a tie going up as `Math.round`
rounds, and `0` when `total` is `0`. -/
def specCompletionRate (completed total : Nat) : Nat :=
  if total = 0 then 0 else (2 * (100 * completed) + total) / (2 * total)

/-- The average as the specification words it,
`round(totalAssignedTasks / distinctAssigneeCount)`: the integer nearest to the
exact quotient, a tie going up as `Math.round` rounds, and `0` when there is no
assignee. -/
def specAverage (assigned assignees : Nat) : Nat :=
  if assignees = 0 then 0 else (2 * assigned + assignees) / (2 * assignees)

/-! ## The client of the row store

The client is a query builder: `supabase.from(table)` followed by one of
`select`, `insert`, `update`, `delete`, by filters and by modifiers; awaiting
the chain gives the store's answer `{ data, error }`, or raises. -/

/-- The property `message` of an error, as `error.message` reads it. -/
def Failure.message : Failure → String
  | .store message => message
  | .thrown message => message
  | .own message => message
  | .text message => message

/-- A scalar JavaScript value: a column of a row, an argument, a property of an
object literal. -/
inductive Val where
  | null
  | bool (b : Bool)
  | num (n : Int)
  | str (s : String)
deriving DecidableEq, Repr

/-- A flat object, as the list of its properties: a row of scalar columns, the
data of an insert or update, the `filters` argument.  A property that is not
listed is `undefined`. -/
abbrev Obj := List (String × Val)

/-- Truthiness of a property that may be `undefined`. -/
def truthy : Option Val → Bool
  | none => false
  | some Val.null => false
  | some (Val.bool b) => b
  | some (Val.num n) => n != 0
  | some (Val.str s) => s != ""

/-- A filter of the query builder: `.eq`, `.neq` and `.or`. -/
inductive Filter where
  | eq (column : String) (value : Val)
  | neq (column : String) (value : Val)
  | or (conditions : String)
deriving DecidableEq, Repr

/-- The operation chosen after `from(table)`. -/
inductive Verb where
  | select (columns : String)
  | insert (rows : List Obj)
  | update (values : Obj)
  | delete
deriving DecidableEq, Repr

/-- A finished chain of the query builder.  `returning` is the `.select(...)`
that follows a write (`*` when it has no argument), `sortBy` the column of
`.order` and whether it ascends, `maxRows` the count of `.limit`, `oneRow`
whether `.single()` was called.  Column lists are written without the white
space of the source, which the client removes before it sends them. -/
structure Query where
  table : String
  verb : Verb
  filters : List Filter
  returning : Option String
  sortBy : Option (String × Bool)
  maxRows : Option Nat
  oneRow : Bool
deriving DecidableEq, Repr

/-- The chain `supabase.from(table).select(...)`, `.insert(...)`, `.update(...)`
or `.delete()`. -/
def fromTable (table : String) (verb : Verb) : Query :=
  { table := table, verb := verb, filters := [], returning := none, sortBy := none
    maxRows := none, oneRow := false }

/-- The filter `.eq(column, value)`. -/
def Query.eq (q : Query) (column : String) (value : Val) : Query :=
  { q with filters := q.filters ++ [Filter.eq column value] }

/-- The filter `.neq(column, value)`. -/
def Query.neq (q : Query) (column : String) (value : Val) : Query :=
  { q with filters := q.filters ++ [Filter.neq column value] }

/-- The filter `.or(conditions)`. -/
def Query.or (q : Query) (conditions : String) : Query :=
  { q with filters := q.filters ++ [Filter.or conditions] }

/-- The modifier `.select(columns)` after a write. -/
def Query.select (q : Query) (columns : String) : Query :=
  { q with returning := some columns }

/-- The modifier `.order(column, { ascending })`. -/
def Query.order (q : Query) (column : String) (ascending : Bool) : Query :=
  { q with sortBy := some (column, ascending) }

/-- The modifier `.limit(count)`. -/
def Query.limit (q : Query) (count : Nat) : Query :=
  { q with maxRows := some count }

/-- The modifier `.single()`. -/
def Query.single (q : Query) : Query :=
  { q with oneRow := true }

/-- What `await` gives for a chain: the store's answer, or an exception. -/
inductive Awaited (ρ : Type) where
  | resolved (reply : Response ρ)
  | rejected (reason : Failure)

/-- The row store as the client sees it; `ρ` is what the answers carry as
`data`. -/
abbrev Store (ρ : Type) := Query → Awaited ρ

/-- The body shared by the CRUD functions:
`try { const { data, error } = await ...; return { data, error } }
catch (err) { return { data: null, error: err } }`. -/
def passThrough {ρ : Type} (answer : Awaited ρ) : Response ρ :=
  match answer with
  | Awaited.resolved reply => { data := reply.data, error := reply.error }
  | Awaited.rejected err => { data := none, error := some err }

/-! ## Users -/

/-- The query of `getAllUsers`. -/
def getAllUsersQuery : Query :=
  (fromTable "users" (Verb.select "user_id,username,role,created_at")).order "created_at" false

/-- The function `getAllUsers`. -/
def getAllUsers {ρ : Type} (store : Store ρ) : Response ρ :=
  passThrough (store getAllUsersQuery)

/-- The query of `getUserById`. -/
def getUserByIdQuery (userId : Val) : Query :=
  ((fromTable "users" (Verb.select "user_id,username,role,created_at")).eq "user_id" userId).single

/-- The function `getUserById`. -/
def getUserById {ρ : Type} (store : Store ρ) (userId : Val) : Response ρ :=
  passThrough (store (getUserByIdQuery userId))

/-- The query of `createUser`. -/
def createUserQuery (userData : Obj) : Query :=
  ((fromTable "users" (Verb.insert [userData])).select "*").single

/-- The function `createUser`. -/
def createUser {ρ : Type} (store : Store ρ) (userData : Obj) : Response ρ :=
  passThrough (store (createUserQuery userData))

/-- The query of `updateUser`. -/
def updateUserQuery (userId : Val) (updateData : Obj) : Query :=
  (((fromTable "users" (Verb.update updateData)).eq "user_id" userId).select "*").single

/-- The function `updateUser`. -/
def updateUser {ρ : Type} (store : Store ρ) (userId : Val) (updateData : Obj) : Response ρ :=
  passThrough (store (updateUserQuery userId updateData))

/-- The query of `deleteUser`. -/
def deleteUserQuery (userId : Val) : Query :=
  ((fromTable "users" Verb.delete).eq "user_id" userId).select "*"

/-- The function `deleteUser`. -/
def deleteUser {ρ : Type} (store : Store ρ) (userId : Val) : Response ρ :=
  passThrough (store (deleteUserQuery userId))

/-- The result of `authenticateUser`: `{ data, error, success }`. -/
structure AuthResult where
  data : Option Obj
  error : Option Failure
  success : Bool
deriving DecidableEq, Repr

/-- The result `{ data: null, error: '用户名或密码错误', success: false }`. -/
def wrongCredentials : AuthResult :=
  { data := none, error := some (Failure.text "用户名或密码错误"), success := false }

/-- The destructuring `const { password: _, ...userInfo } = user`. -/
def withoutPassword (user : Obj) : Obj :=
  user.filter (fun p => p.1 != "password")

/-- The query of `authenticateUser`. -/
def authenticateUserQuery (username : String) : Query :=
  ((fromTable "users" (Verb.select "user_id,username,password,role,created_at")).eq
    "username" (Val.str username)).single

/-- The function `authenticateUser`. -/
def authenticateUser (store : Store Obj) (username password : String) : AuthResult :=
  match store (authenticateUserQuery username) with
  | Awaited.rejected _ =>
    { data := none, error := some (Failure.text "登录验证失败，请稍后重试"), success := false }
  | Awaited.resolved reply =>
    match reply.error with
    | some _ => wrongCredentials
    | none =>
      match reply.data with
      | none => wrongCredentials
      | some user =>
        if getKey "password" user = some (Val.str password) then
          { data := some (withoutPassword user), error := none, success := true }
        else wrongCredentials

/-! ## Categories -/

/-- The column list of the category queries. -/
def categoryColumns : String :=
  "category_id,name,description,color,created_at,creator_id,users!categories_creator_id_fkey(username)"

/-- The query of `getAllCategories`. -/
def getAllCategoriesQuery : Query :=
  (fromTable "categories" (Verb.select categoryColumns)).order "created_at" false

/-- The function `getAllCategories`. -/
def getAllCategories {ρ : Type} (store : Store ρ) : Response ρ :=
  passThrough (store getAllCategoriesQuery)

/-- The query of `getCategoryById`. -/
def getCategoryByIdQuery (categoryId : Val) : Query :=
  ((fromTable "categories" (Verb.select categoryColumns)).eq "category_id" categoryId).single

/-- The function `getCategoryById`. -/
def getCategoryById {ρ : Type} (store : Store ρ) (categoryId : Val) : Response ρ :=
  passThrough (store (getCategoryByIdQuery categoryId))

/-- The query of `createCategory`. -/
def createCategoryQuery (categoryData : Obj) : Query :=
  ((fromTable "categories" (Verb.insert [categoryData])).select "*").single

/-- The function `createCategory`. -/
def createCategory {ρ : Type} (store : Store ρ) (categoryData : Obj) : Response ρ :=
  passThrough (store (createCategoryQuery categoryData))

/-- The query of `updateCategory`. -/
def updateCategoryQuery (categoryId : Val) (updateData : Obj) : Query :=
  (((fromTable "categories" (Verb.update updateData)).eq "category_id" categoryId).select
    "*").single

/-- The function `updateCategory`. -/
def updateCategory {ρ : Type} (store : Store ρ) (categoryId : Val) (updateData : Obj) :
    Response ρ :=
  passThrough (store (updateCategoryQuery categoryId updateData))

/-- The query of `deleteCategory`. -/
def deleteCategoryQuery (categoryId : Val) : Query :=
  ((fromTable "categories" Verb.delete).eq "category_id" categoryId).select "*"

/-- The function `deleteCategory`. -/
def deleteCategory {ρ : Type} (store : Store ρ) (categoryId : Val) : Response ρ :=
  passThrough (store (deleteCategoryQuery categoryId))

/-! ## Tasks -/

/-- The column list of the task queries. -/
def taskColumns : String :=
  "task_id,title,description,status,priority,due_date,created_at,updated_at,category_id,"
    ++ "assignee_id,creator_id,categories(category_id,name,color),"
    ++ "assigned_user:users!tasks_assignee_id_fkey(user_id,username),"
    ++ "creator:users!tasks_creator_id_fkey(user_id,username)"

/-- White space and line terminators, which `String.prototype.trim` removes. -/
def isJsSpace (c : Char) : Bool :=
  let n := c.toNat
  n == 9 || n == 10 || n == 11 || n == 12 || n == 13 || n == 32 || n == 160 || n == 5760
    || (8192 ≤ n && n ≤ 8202) || n == 8232 || n == 8233 || n == 8239 || n == 8287
    || n == 12288 || n == 65279

/-- The method `String.prototype.trim`. -/
def jsTrim (s : String) : String :=
  String.mk (((s.toList.dropWhile isJsSpace).reverse.dropWhile isJsSpace).reverse)

/-- The statement `if (filters[key]) query = query.eq(key, filters[key])`. -/
def eqIfTruthy (key : String) (filters : Obj) (q : Query) : Query :=
  match getKey key filters with
  | some value => if truthy (some value) then q.eq key value else q
  | none => q

/-- The search clause of `getAllTasks`: `filters.search && filters.search.trim()`
guards an `.or(...)` over `title` and `description`.  A truthy `search` that is
not a string has no method `trim`, and the call raises. -/
def searchClause (filters : Obj) (q : Query) : Except Failure Query :=
  match getKey "search" filters with
  | some (Val.str s) =>
    if s != "" && jsTrim s != "" then
      Except.ok
        (q.or ("title.ilike.%" ++ jsTrim s ++ "%,description.ilike.%" ++ jsTrim s ++ "%"))
    else Except.ok q
  | some value =>
    if truthy (some value) then
      Except.error (Failure.thrown "TypeError: filters.search.trim is not a function")
    else Except.ok q
  | none => Except.ok q

/-- The query that `getAllTasks` builds from its `filters`. -/
def getAllTasksQuery (filters : Obj) : Except Failure Query :=
  match searchClause filters
      (eqIfTruthy "assignee_id" filters
        (eqIfTruthy "category_id" filters
          (eqIfTruthy "priority" filters
            (eqIfTruthy "status" filters (fromTable "tasks" (Verb.select taskColumns)))))) with
  | Except.ok q => Except.ok (q.order "created_at" false)
  | Except.error err => Except.error err

/-- The function `getAllTasks`. -/
def getAllTasks {ρ : Type} (store : Store ρ) (filters : Obj) : Response ρ :=
  match getAllTasksQuery filters with
  | Except.ok q => passThrough (store q)
  | Except.error err => { data := none, error := some err }

/-- The query of `getTaskById`. -/
def getTaskByIdQuery (taskId : Val) : Query :=
  ((fromTable "tasks" (Verb.select taskColumns)).eq "task_id" taskId).single

/-- The function `getTaskById`. -/
def getTaskById {ρ : Type} (store : Store ρ) (taskId : Val) : Response ρ :=
  passThrough (store (getTaskByIdQuery taskId))

/-- The query of `createTask`. -/
def createTaskQuery (taskData : Obj) : Query :=
  ((fromTable "tasks" (Verb.insert [taskData])).select taskColumns).single

/-- The function `createTask`. -/
def createTask {ρ : Type} (store : Store ρ) (taskData : Obj) : Response ρ :=
  passThrough (store (createTaskQuery taskData))

/-- The query of `updateTask`. -/
def updateTaskQuery (taskId : Val) (updateData : Obj) : Query :=
  (((fromTable "tasks" (Verb.update updateData)).eq "task_id" taskId).select taskColumns).single

/-- The function `updateTask`. -/
def updateTask {ρ : Type} (store : Store ρ) (taskId : Val) (updateData : Obj) : Response ρ :=
  passThrough (store (updateTaskQuery taskId updateData))

/-- The query of `deleteTask`. -/
def deleteTaskQuery (taskId : Val) : Query :=
  ((fromTable "tasks" Verb.delete).eq "task_id" taskId).select "*"

/-- The function `deleteTask`. -/
def deleteTask {ρ : Type} (store : Store ρ) (taskId : Val) : Response ρ :=
  passThrough (store (deleteTaskQuery taskId))

/-- A call of one of the fifteen CRUD functions, with its arguments. -/
inductive CrudCall where
  | getAllUsers
  | getUserById (userId : Val)
  | createUser (userData : Obj)
  | updateUser (userId : Val) (updateData : Obj)
  | deleteUser (userId : Val)
  | getAllCategories
  | getCategoryById (categoryId : Val)
  | createCategory (categoryData : Obj)
  | updateCategory (categoryId : Val) (updateData : Obj)
  | deleteCategory (categoryId : Val)
  | getAllTasks (filters : Obj)
  | getTaskById (taskId : Val)
  | createTask (taskData : Obj)
  | updateTask (taskId : Val) (updateData : Obj)
  | deleteTask (taskId : Val)

/-- The result of a call. -/
def CrudCall.run {ρ : Type} (store : Store ρ) : CrudCall → Response ρ
  | .getAllUsers => TaskManage.getAllUsers store
  | .getUserById userId => TaskManage.getUserById store userId
  | .createUser userData => TaskManage.createUser store userData
  | .updateUser userId updateData => TaskManage.updateUser store userId updateData
  | .deleteUser userId => TaskManage.deleteUser store userId
  | .getAllCategories => TaskManage.getAllCategories store
  | .getCategoryById categoryId => TaskManage.getCategoryById store categoryId
  | .createCategory categoryData => TaskManage.createCategory store categoryData
  | .updateCategory categoryId updateData => TaskManage.updateCategory store categoryId updateData
  | .deleteCategory categoryId => TaskManage.deleteCategory store categoryId
  | .getAllTasks filters => TaskManage.getAllTasks store filters
  | .getTaskById taskId => TaskManage.getTaskById store taskId
  | .createTask taskData => TaskManage.createTask store taskData
  | .updateTask taskId updateData => TaskManage.updateTask store taskId updateData
  | .deleteTask taskId => TaskManage.deleteTask store taskId

/-- The query that a call sends to the store, or the exception it raises before
it sends one. -/
def CrudCall.query : CrudCall → Except Failure Query
  | .getAllUsers => Except.ok getAllUsersQuery
  | .getUserById userId => Except.ok (getUserByIdQuery userId)
  | .createUser userData => Except.ok (createUserQuery userData)
  | .updateUser userId updateData => Except.ok (updateUserQuery userId updateData)
  | .deleteUser userId => Except.ok (deleteUserQuery userId)
  | .getAllCategories => Except.ok getAllCategoriesQuery
  | .getCategoryById categoryId => Except.ok (getCategoryByIdQuery categoryId)
  | .createCategory categoryData => Except.ok (createCategoryQuery categoryData)
  | .updateCategory categoryId updateData => Except.ok (updateCategoryQuery categoryId updateData)
  | .deleteCategory categoryId => Except.ok (deleteCategoryQuery categoryId)
  | .getAllTasks filters => getAllTasksQuery filters
  | .getTaskById taskId => Except.ok (getTaskByIdQuery taskId)
  | .createTask taskData => Except.ok (createTaskQuery taskData)
  | .updateTask taskId updateData => Except.ok (updateTaskQuery taskId updateData)
  | .deleteTask taskId => Except.ok (deleteTaskQuery taskId)

/-! ## Overview, connection test and personal settings -/

/-- The method `Date.prototype.toISOString` for the time value `t`. -/
def toISOString (t : Int) : String :=
  let ms := (t % 86400000).toNat
  isoDate t ++ String.mk
    (['T'] ++ padDigits 2 (ms / 3600000) ++ [':'] ++ padDigits 2 (ms / 60000 % 60) ++ [':']
      ++ padDigits 2 (ms / 1000 % 60) ++ ['.'] ++ padDigits 3 (ms % 1000) ++ ['Z'])

/-- The object `overview` of `getSystemOverview`. -/
structure SystemOverview where
  users : Option UserStatistics
  tasks : Option TaskStatistics
  categories : Option CategoryStatistics
  lastUpdated : String
deriving DecidableEq, Repr

/-- The function `getSystemOverview`, on the clock reading and the store's
answers to the queries of the three statistics functions it calls. -/
def getSystemOverview (monthKey : Int → String) (clock : Int)
    (fetchedUsers : Response (List UserRow)) (fetchedTasks : Response (List TaskRow))
    (fetchedCategories : Response (List CategoryRow))
    (fetchedCategoryTasks : Response (List TaskRow)) : Response SystemOverview :=
  let userStats := getUserStatistics monthKey fetchedUsers
  let taskStats := getTaskStatistics fetchedTasks
  let categoryStats := getCategoryStatistics fetchedCategories fetchedCategoryTasks
  match userStats.error <|> taskStats.error <|> categoryStats.error with
  | some err => { data := none, error := some err }
  | none =>
    { data := some
        { users := userStats.data, tasks := taskStats.data, categories := categoryStats.data
          lastUpdated := toISOString clock }
      error := none }

/-- The result of `testDatabaseConnection`: `{ success, error }`. -/
structure ConnectionTest where
  success : Bool
  error : Option Failure
deriving DecidableEq, Repr

/-- The query of `testDatabaseConnection`. -/
def testDatabaseConnectionQuery : Query :=
  (fromTable "users" (Verb.select "count")).limit 1

/-- The function `testDatabaseConnection`. -/
def testDatabaseConnection {ρ : Type} (store : Store ρ) : ConnectionTest :=
  match store testDatabaseConnectionQuery with
  | Awaited.rejected err => { success := false, error := some err }
  | Awaited.resolved reply =>
    match reply.error with
    | some e => { success := false, error := some e }
    | none => { success := true, error := none }

/-- The query of `getUserProfile`. -/
def getUserProfileQuery (userId : Val) : Query :=
  ((fromTable "users" (Verb.select "user_id,username,role,created_at")).eq "user_id" userId).single

/-- The function `getUserProfile`. -/
def getUserProfile {ρ : Type} (store : Store ρ) (userId : Val) : Response ρ :=
  passThrough (store (getUserProfileQuery userId))

/-- The object `updateData = { username: profileData.username }`; a property
whose value is `undefined` is left out when the object is sent. -/
def profileUpdateData (profileData : Obj) : Obj :=
  match getKey "username" profileData with
  | some username => [("username", username)]
  | none => []

/-- The query of `updateUserProfile`. -/
def updateUserProfileQuery (userId : Val) (profileData : Obj) : Query :=
  (((fromTable "users" (Verb.update (profileUpdateData profileData))).eq "user_id" userId).select
    "user_id,username,role,created_at").single

/-- The function `updateUserProfile`. -/
def updateUserProfile {ρ : Type} (store : Store ρ) (userId : Val) (profileData : Obj) :
    Response ρ :=
  passThrough (store (updateUserProfileQuery userId profileData))

/-- The first query of `changeUserPassword`. -/
def currentPasswordQuery (userId : Val) : Query :=
  ((fromTable "users" (Verb.select "password,username")).eq "user_id" userId).single

/-- The second query of `changeUserPassword`. -/
def newPasswordQuery (userId : Val) (newPassword : String) : Query :=
  (((fromTable "users" (Verb.update [("password", Val.str newPassword)])).eq "user_id"
    userId).select "user_id,username").single

/-- The function `changeUserPassword`. -/
def changeUserPassword (store : Store Obj) (userId : Val) (currentPassword newPassword : String) :
    Response Obj :=
  match store (currentPasswordQuery userId) with
  | Awaited.rejected err => { data := none, error := some err }
  | Awaited.resolved reply =>
    match reply.error with
    | some getUserError => { data := none, error := some getUserError }
    | none =>
      match reply.data with
      | none => { data := none, error := some nullRows }
      | some user =>
        if getKey "password" user ≠ some (Val.str currentPassword) then
          { data := none, error := some (Failure.own "当前密码不正确") }
        else passThrough (store (newPasswordQuery userId newPassword))

/-- The object `{ available, message }` of `checkUsernameAvailability`. -/
structure Availability where
  available : Bool
  message : String
deriving DecidableEq, Repr

/-- The query of `checkUsernameAvailability`. -/
def checkUsernameAvailabilityQuery (username : String) (currentUserId : Val) : Query :=
  ((fromTable "users" (Verb.select "user_id")).eq "username" (Val.str username)).neq
    "user_id" currentUserId

/-- The function `checkUsernameAvailability`. -/
def checkUsernameAvailability (store : Store (List Obj)) (username : String)
    (currentUserId : Val) : Response Availability :=
  match store (checkUsernameAvailabilityQuery username currentUserId) with
  | Awaited.rejected err => { data := none, error := some err }
  | Awaited.resolved reply =>
    match reply.error with
    | some e => { data := none, error := some e }
    | none =>
      match reply.data with
      | none => { data := none, error := some nullRows }
      | some rows =>
        let isAvailable := decide (rows.length = 0)
        { data := some
            { available := isAvailable
              message := if isAvailable then "用户名可用" else "用户名已被使用" }
          error := none }

/-! ## The row store behind the client -/

/-- The names of a column list separated by commas. -/
def splitCommas : List Char → List (List Char)
  | [] => [[]]
  | c :: cs =>
    match splitCommas cs with
    | [] => [[c]]
    | name :: names => if c = ',' then [] :: name :: names else (c :: name) :: names

/-- The projection of a row on a column list; `*` keeps the row.  Embedded
resources are not columns of the row and are left out. -/
def project (columns : String) (row : Obj) : Obj :=
  if columns = "*" then row
  else (splitCommas columns.toList).filterMap
    (fun name => (getKey (String.mk name) row).map (fun value => (String.mk name, value)))

/-- Modelled from the spec: the filter predicates of the row store, equality
and not-equality, with the comparison of the database, in which a `null` is
neither equal nor unequal to anything; the operand has the type of the column.
The conditions of an `.or(...)` are left to `orHolds`. -/
def Filter.holds (orHolds : String → Obj → Bool) (row : Obj) : Filter → Bool
  | Filter.eq column value =>
    match getKey column row with
    | some stored => stored != Val.null && value != Val.null && stored == value
    | none => false
  | Filter.neq column value =>
    match getKey column row with
    | some stored => stored != Val.null && value != Val.null && stored != value
    | none => false
  | Filter.or conditions => orHolds conditions row

/-- The rows of a table that a query selects, projected on its columns. -/
def selectedRows (orHolds : String → Obj → Bool) (table : List Obj) (q : Query) (columns : String) :
    List Obj :=
  (table.filter (fun row => q.filters.all (Filter.holds orHolds row))).map (project columns)

/-- Modelled from the spec: `fetch(table, filters) -> rows | error` for a table
that can be read but not written: a `select` is answered with the rows that
satisfy every filter, a write with an error. -/
def fetchRows (orHolds : String → Obj → Bool) (table : List Obj) : Store (List Obj) :=
  fun q =>
    match q.verb with
    | Verb.select columns =>
      Awaited.resolved
        { data := some (selectedRows orHolds table q columns), error := none }
    | _ => Awaited.resolved { data := none, error := some (Failure.store "permission denied") }

/-- Modelled from the spec: `fetchOne(table, filter) -> row | error`, which
errors if zero or multiple rows match. -/
def fetchOne (orHolds : String → Obj → Bool) (table : List Obj) : Store Obj :=
  fun q =>
    match q.verb with
    | Verb.select columns =>
      match selectedRows orHolds table q columns with
      | [row] => Awaited.resolved { data := some row, error := none }
      | _ =>
        Awaited.resolved
          { data := none
            error := some
              (Failure.store "JSON object requested, multiple (or no) rows returned") }
    | _ => Awaited.resolved { data := none, error := some (Failure.store "permission denied") }

/-- A row of the table `users`. -/
structure UserRecord where
  user_id : Nat
  username : String
  password : String
  role : String
  created_at : String
deriving DecidableEq, Repr

/-- The row as the store holds it. -/
def UserRecord.toObj (u : UserRecord) : Obj :=
  [("user_id", Val.num u.user_id), ("username", Val.str u.username),
    ("password", Val.str u.password), ("role", Val.str u.role),
    ("created_at", Val.str u.created_at)]

/-! ## The component `TaskList` -/

/-- A task of the state `tasks`: the properties the handlers read or write, and
the others, which they copy. -/
structure UiTask where
  task_id : Nat
  status : String
  assignee_id : Option Nat
  assigned_user : Option Obj
  others : Obj
deriving DecidableEq, Repr

/-- The property `currentUser`. -/
structure CurrentUser where
  user_id : Nat
  username : String
deriving DecidableEq, Repr

/-- The state of the component that the handlers change. -/
structure TaskListState where
  tasks : List UiTask
  error : String
deriving DecidableEq, Repr

/-- What a handler leaves behind: the state, the queries it sent to the store,
and whether it ended with an uncaught exception. -/
structure Handled where
  state : TaskListState
  sent : List Query
  uncaught : Bool
deriving DecidableEq, Repr

/-- The handler `handleStatusUpdate`.  Reading `assignee_id` of a task that
`find` did not find raises outside the `try`. -/
def handleStatusUpdate {ρ : Type} (store : Store ρ) (currentUser : CurrentUser)
    (s : TaskListState) (taskId : Nat) (newStatus : String) : Handled :=
  match s.tasks.find? (fun t => t.task_id = taskId) with
  | none => { state := s, sent := [], uncaught := true }
  | some task =>
    if task.assignee_id ≠ some currentUser.user_id then
      { state := { s with error := "您只能更新分配给自己的任务状态" }, sent := [], uncaught := false }
    else
      match (updateTask store (Val.num taskId) [("status", Val.str newStatus)]).error with
      | some error =>
        { state := { s with error := "更新任务状态失败: " ++ error.message }
          sent := [updateTaskQuery (Val.num taskId) [("status", Val.str newStatus)]]
          uncaught := false }
      | none =>
        { state :=
            { tasks := s.tasks.map
                (fun task => if task.task_id = taskId then { task with status := newStatus }
                  else task)
              error := "" }
          sent := [updateTaskQuery (Val.num taskId) [("status", Val.str newStatus)]]
          uncaught := false }

/-- The data of the update that `handleClaimTask` sends. -/
def claimData (currentUser : CurrentUser) : Obj :=
  [("assignee_id", Val.num currentUser.user_id), ("status", Val.str "进行中")]

/-- The handler `handleClaimTask`. -/
def handleClaimTask {ρ : Type} (store : Store ρ) (currentUser : CurrentUser)
    (s : TaskListState) (taskId : Nat) : Handled :=
  match s.tasks.find? (fun t => t.task_id = taskId) with
  | none => { state := s, sent := [], uncaught := true }
  | some task =>
    if truthyId task.assignee_id then
      { state := { s with error := "该任务已被分配给其他用户" }, sent := [], uncaught := false }
    else
      match (updateTask store (Val.num taskId) (claimData currentUser)).error with
      | some error =>
        { state := { s with error := "领取任务失败: " ++ error.message }
          sent := [updateTaskQuery (Val.num taskId) (claimData currentUser)]
          uncaught := false }
      | none =>
        { state :=
            { tasks := s.tasks.map
                (fun task =>
                  if task.task_id = taskId then
                    { task with
                      assignee_id := some currentUser.user_id
                      status := "进行中"
                      assigned_user := some [("username", Val.str currentUser.username)] }
                  else task)
              error := "" }
          sent := [updateTaskQuery (Val.num taskId) (claimData currentUser)]
          uncaught := false }

/-! ## The shape of results -/

/-- Exactly one of `data` and `error` is not `null`. -/
def Response.exactlyOne {α : Type} (r : Response α) : Prop :=
  (r.data ≠ none ∧ r.error = none) ∨ (r.data = none ∧ r.error ≠ none)

/-- The contract of the store's answers: exactly one of `data` and `error` is
not `null`. -/
def Store.wellFormed {ρ : Type} (store : Store ρ) : Prop :=
  ∀ q reply, store q = Awaited.resolved reply → reply.exactlyOne

/-! ## Sample data -/

/-- A store that accepts every request and answers with no rows. -/
def acceptingStore : Store (List Obj) :=
  fun _ => Awaited.resolved { data := some [], error := none }

/-- A store that is out of reach. -/
def failingStore : Store (List Obj) :=
  fun _ => Awaited.resolved { data := none, error := some (Failure.store "connection refused") }

/-- The user with id 5. -/
def sampleUser : CurrentUser := { user_id := 5, username := "bob" }

/-- An unclaimed task that is marked completed. -/
def unclaimedTask : UiTask :=
  { task_id := 1, status := "已完成", assignee_id := none, assigned_user := none
    others := [("title", Val.str "write report")] }

/-- A task of user 5. -/
def ownTask : UiTask :=
  { task_id := 2, status := "进行中", assignee_id := some 5
    assigned_user := some [("user_id", Val.num 5), ("username", Val.str "bob")]
    others := [("title", Val.str "review")] }

/-- A task list with the unclaimed task and the task of user 5. -/
def sampleTasks : TaskListState :=
  { tasks := [unclaimedTask, ownTask], error := "" }

/-- A store of single rows that is out of reach. -/
def unreachableStore : Store Obj :=
  fun _ => Awaited.resolved { data := none, error := some (Failure.store "connection refused") }

/-- A table `categories` with one row. -/
def sampleCategories : List Obj :=
  [[("category_id", Val.num 1), ("name", Val.str "Work"), ("description", Val.null),
    ("color", Val.str "#000000"), ("created_at", Val.str "2024-01-01T00:00:00+00:00"),
    ("creator_id", Val.num 1)]]

/-! ## The predicates of `getAllTasks` -/

/-- The four filters that `getAllTasks` turns into equality predicates, in the
order of its `if` statements. -/
def equalityFilters : List String := ["status", "priority", "category_id", "assignee_id"]

/-- The equality predicate that one filter calls for: `.eq(key, filters[key])`
when `filters[key]` is truthy, nothing otherwise. -/
def equalityPredicate (filters : Obj) (key : String) : List Filter :=
  match getKey key filters with
  | some value => if truthy (some value) then [Filter.eq key value] else []
  | none => []

/-- The condition string of the search: `title` or `description` matches
`%term%` under `ilike`. -/
def searchConditions (term : String) : String :=
  "title.ilike.%" ++ term ++ "%,description.ilike.%" ++ term ++ "%"

/-- The search predicate that `filters.search` calls for: the `.or(...)` over
`title` and `description` with the trimmed term when the term is a string that
is not blank, nothing otherwise. -/
def searchPredicate (filters : Obj) : List Filter :=
  match getKey "search" filters with
  | some (Val.str s) => if jsTrim s ≠ "" then [Filter.or (searchConditions (jsTrim s))] else []
  | _ => []

/-- A table `tasks` with a task of user 5 and a task of user 7. -/
def sampleTaskTable : List Obj :=
  [[("task_id", Val.num 1), ("title", Val.str "write report"), ("status", Val.str "进行中"),
    ("assignee_id", Val.num 5)],
   [("task_id", Val.num 2), ("title", Val.str "review"), ("status", Val.str "进行中"),
    ("assignee_id", Val.num 7)]]

/-! ## The component `UserSettings` and the queries of `changeUserPassword` -/

/-- The property `length` of a string: the number of its UTF-16 code units. -/
def jsLength (s : String) : Nat := (codeUnits s.toList).length

/-- A result together with the queries that were sent to the store to get it,
in the order they were sent. -/
structure Traced (α : Type) where
  result : α
  sent : List Query

/-- The function `changeUserPassword`, with the queries it sends. -/
def changeUserPasswordTraced (store : Store Obj) (userId : Val)
    (currentPassword newPassword : String) : Traced (Response Obj) :=
  match store (currentPasswordQuery userId) with
  | Awaited.rejected err =>
    { result := { data := none, error := some err }, sent := [currentPasswordQuery userId] }
  | Awaited.resolved reply =>
    match reply.error with
    | some getUserError =>
      { result := { data := none, error := some getUserError }
        sent := [currentPasswordQuery userId] }
    | none =>
      match reply.data with
      | none =>
        { result := { data := none, error := some nullRows }
          sent := [currentPasswordQuery userId] }
      | some user =>
        if getKey "password" user ≠ some (Val.str currentPassword) then
          { result := { data := none, error := some (Failure.own "当前密码不正确") }
            sent := [currentPasswordQuery userId] }
        else
          { result := passThrough (store (newPasswordQuery userId newPassword))
            sent := [currentPasswordQuery userId, newPasswordQuery userId newPassword] }

/-- The state `passwordForm`. -/
structure PasswordForm where
  currentPassword : String
  newPassword : String
  confirmPassword : String
  showPasswords : Bool
deriving DecidableEq, Repr

/-- The state of `UserSettings` that `handlePasswordSubmit` reads or writes. -/
structure SettingsState where
  passwordForm : PasswordForm
  error : String
  success : String
  isSubmitting : Bool
deriving DecidableEq, Repr

/-- The arguments of a call of `changeUserPassword`. -/
structure PasswordCall where
  userId : Val
  currentPassword : String
  newPassword : String
deriving DecidableEq, Repr

/-- What `handlePasswordSubmit` leaves behind: the state, the calls of
`changeUserPassword` it made and the queries that reached the store. -/
structure Submitted where
  state : SettingsState
  calls : List PasswordCall
  sent : List Query
deriving DecidableEq, Repr

/-- The handler `handlePasswordSubmit`. -/
def handlePasswordSubmit (store : Store Obj) (currentUser : CurrentUser) (s : SettingsState) :
    Submitted :=
  if s.passwordForm.currentPassword = "" then
    { state := { s with error := "请输入当前密码" }, calls := [], sent := [] }
  else if s.passwordForm.newPassword = "" then
    { state := { s with error := "请输入新密码" }, calls := [], sent := [] }
  else if jsLength s.passwordForm.newPassword < 6 then
    { state := { s with error := "新密码长度至少6位" }, calls := [], sent := [] }
  else if s.passwordForm.newPassword ≠ s.passwordForm.confirmPassword then
    { state := { s with error := "两次输入的新密码不一致" }, calls := [], sent := [] }
  else if s.passwordForm.currentPassword = s.passwordForm.newPassword then
    { state := { s with error := "新密码不能与当前密码相同" }, calls := [], sent := [] }
  else
    let changed := changeUserPasswordTraced store (Val.num currentUser.user_id)
      s.passwordForm.currentPassword s.passwordForm.newPassword
    let call : PasswordCall :=
      { userId := Val.num currentUser.user_id
        currentPassword := s.passwordForm.currentPassword
        newPassword := s.passwordForm.newPassword }
    match changed.result.error with
    | some error =>
      { state :=
          { s with error := "修改密码失败: " ++ error.message, success := "", isSubmitting := false }
        calls := [call], sent := changed.sent }
    | none =>
      { state :=
          { passwordForm :=
              { currentPassword := "", newPassword := "", confirmPassword := ""
                showPasswords := false }
            error := "", success := "密码修改成功！", isSubmitting := false }
        calls := [call], sent := changed.sent }

/-! ## Writes to a table -/

/-- The row after an update with the given values: the columns named are
overwritten, the others kept. -/
def patchRow (values : Obj) (row : Obj) : Obj :=
  values.foldl (fun patched p => setKey p.1 p.2 patched) row

/-- Modelled from the spec: `update(table, id, partial)`, `insert` and `delete`
of the row store, as what a query leaves of the table it addresses: an update
overwrites the columns of its values in the rows that satisfy every filter, an
insert adds its rows, a delete removes the rows that satisfy every filter, a
select leaves the table as it is. -/
def tableAfter (orHolds : String → Obj → Bool) (table : List Obj) (q : Query) : List Obj :=
  match q.verb with
  | Verb.select _ => table
  | Verb.insert rows => table ++ rows
  | Verb.update values =>
    table.map
      (fun row => if q.filters.all (Filter.holds orHolds row) then patchRow values row else row)
  | Verb.delete => table.filter (fun row => !q.filters.all (Filter.holds orHolds row))

/-- A table `users` with an administrator and two users. -/
def sampleUsers : List UserRecord :=
  [⟨1, "admin", "admin123", "admin", "2024-01-01T00:00:00+00:00"⟩,
   ⟨5, "bob", "secret5", "user", "2024-01-02T00:00:00+00:00"⟩,
   ⟨7, "carol", "secret7", "user", "2024-01-03T00:00:00+00:00"⟩]

/-- Three assigned rows whose due date is before the clock reading `1000`: one
in progress, one pending, one completed. -/
def lateRows : List TaskRow :=
  [⟨"进行中", "low", 0, some 500, none, some 5, some "bob"⟩,
   ⟨"待领取", "low", 0, some 500, none, some 5, some "bob"⟩,
   ⟨"已完成", "low", 0, some 500, none, some 5, some "bob"⟩]

/-- An assigned row stored as `已逾期` that has no due date. -/
def staleRows : List TaskRow :=
  [⟨"已逾期", "low", 0, none, none, some 5, some "bob"⟩,
   ⟨"已完成", "low", 0, none, none, some 5, some "bob"⟩]

/-! ## Counting lemmas -/

/-- Two filters that never accept the same row count, together, the rows
accepted by either. -/
theorem length_filter_or {α : Type} (p q : α → Bool)
    (h : ∀ r, p r = true → q r = true → False) (rows : List α) :
    (rows.filter p).length + (rows.filter q).length
      = (rows.filter (fun r => p r || q r)).length := by
  induction rows with
  | nil => rfl
  | cons r rs ih =>
    simp only [List.filter_cons]
    cases hp : p r <;> cases hq : q r
    · simpa using ih
    · simp only [Bool.false_or, if_true, List.length_cons, Bool.false_eq_true, if_false]; omega
    · simp only [Bool.true_or, if_true, List.length_cons, Bool.false_eq_true, if_false]; omega
    · exact (h r hp hq).elim

/-- A filter and its negation split the rows. -/
theorem length_filter_not {α : Type} (p : α → Bool) (rows : List α) :
    (rows.filter p).length + (rows.filter (fun r => !p r)).length = rows.length := by
  induction rows with
  | nil => rfl
  | cons r rs ih =>
    simp only [List.filter_cons]
    cases hp : p r
    · simp only [Bool.false_eq_true, if_false, Bool.not_false, if_true, List.length_cons]; omega
    · simp only [if_true, Bool.not_true, Bool.false_eq_true, if_false, List.length_cons]; omega

/-- Buckets for two different values of a field. -/
theorem two_buckets {α : Type} (f : α → String) (a b : String) (hab : a ≠ b) (rows : List α) :
    (rows.filter (fun r => f r = a)).length + (rows.filter (fun r => f r = b)).length
        ≤ rows.length ∧
    ((rows.filter (fun r => f r = a)).length + (rows.filter (fun r => f r = b)).length
        = rows.length ↔ ∀ r ∈ rows, f r = a ∨ f r = b) := by
  rw [length_filter_or (fun r => decide (f r = a)) (fun r => decide (f r = b))
    (fun r h1 h2 => hab ((of_decide_eq_true h1).symm.trans (of_decide_eq_true h2)))]
  refine ⟨List.length_filter_le _ _, ?_⟩
  rw [List.filter_length_eq_length]
  simp

/-- Buckets for three pairwise different values of a field. -/
theorem three_buckets {α : Type} (f : α → String) (a b c : String)
    (hab : a ≠ b) (hac : a ≠ c) (hbc : b ≠ c) (rows : List α) :
    (rows.filter (fun r => f r = a)).length + (rows.filter (fun r => f r = b)).length
        + (rows.filter (fun r => f r = c)).length ≤ rows.length ∧
    ((rows.filter (fun r => f r = a)).length + (rows.filter (fun r => f r = b)).length
        + (rows.filter (fun r => f r = c)).length = rows.length
      ↔ ∀ r ∈ rows, f r = a ∨ f r = b ∨ f r = c) := by
  rw [length_filter_or (fun r => decide (f r = a)) (fun r => decide (f r = b))
    (fun r h1 h2 => hab ((of_decide_eq_true h1).symm.trans (of_decide_eq_true h2)))]
  rw [length_filter_or (fun r => decide (f r = a) || decide (f r = b)) (fun r => decide (f r = c))
    (fun r h1 h2 => by
      have h3 := of_decide_eq_true h2
      rcases Bool.or_eq_true _ _ ▸ h1 with h | h
      · exact hac ((of_decide_eq_true h).symm.trans h3)
      · exact hbc ((of_decide_eq_true h).symm.trans h3))]
  refine ⟨List.length_filter_le _ _, ?_⟩
  rw [List.filter_length_eq_length]
  simp [or_assoc]

/-- Buckets for four pairwise different values of a field. -/
theorem four_buckets {α : Type} (f : α → String) (a b c d : String)
    (hab : a ≠ b) (hac : a ≠ c) (had : a ≠ d) (hbc : b ≠ c) (hbd : b ≠ d) (hcd : c ≠ d)
    (rows : List α) :
    (rows.filter (fun r => f r = a)).length + (rows.filter (fun r => f r = b)).length
        + (rows.filter (fun r => f r = c)).length + (rows.filter (fun r => f r = d)).length
      ≤ rows.length ∧
    ((rows.filter (fun r => f r = a)).length + (rows.filter (fun r => f r = b)).length
        + (rows.filter (fun r => f r = c)).length + (rows.filter (fun r => f r = d)).length
      = rows.length ↔ ∀ r ∈ rows, f r = a ∨ f r = b ∨ f r = c ∨ f r = d) := by
  rw [length_filter_or (fun r => decide (f r = a)) (fun r => decide (f r = b))
    (fun r h1 h2 => hab ((of_decide_eq_true h1).symm.trans (of_decide_eq_true h2)))]
  rw [length_filter_or (fun r => decide (f r = a) || decide (f r = b)) (fun r => decide (f r = c))
    (fun r h1 h2 => by
      have h3 := of_decide_eq_true h2
      rcases Bool.or_eq_true _ _ ▸ h1 with h | h
      · exact hac ((of_decide_eq_true h).symm.trans h3)
      · exact hbc ((of_decide_eq_true h).symm.trans h3))]
  rw [length_filter_or (fun r => (decide (f r = a) || decide (f r = b)) || decide (f r = c))
    (fun r => decide (f r = d))
    (fun r h1 h2 => by
      have h3 := of_decide_eq_true h2
      rcases Bool.or_eq_true _ _ ▸ h1 with h | h
      · rcases Bool.or_eq_true _ _ ▸ h with h | h
        · exact had ((of_decide_eq_true h).symm.trans h3)
        · exact hbd ((of_decide_eq_true h).symm.trans h3)
      · exact hcd ((of_decide_eq_true h).symm.trans h3))]
  refine ⟨List.length_filter_le _ _, ?_⟩
  rw [List.filter_length_eq_length]
  simp [or_assoc]

/-! ## Histograms -/

/-- C1: in the three histograms (`byStatus` over the four statuses,
`byPriority` over low/medium/high, `byRole` over admin/user) the bucket counts
sum to at most `total`, and to exactly `total` if and only if every row holds
one of the recognised values. -/
theorem histogram_sum_le_total (monthKey : Int → String) (tasks : List TaskRow)
    (users : List UserRow) :
    (∃ s, getTaskStatistics { data := some tasks, error := none }
          = { data := some s, error := none } ∧
        s.total = tasks.length ∧
        s.byStatus.pending + s.byStatus.inProgress + s.byStatus.completed + s.byStatus.overdue
          ≤ s.total ∧
        (s.byStatus.pending + s.byStatus.inProgress + s.byStatus.completed + s.byStatus.overdue
            = s.total
          ↔ ∀ t ∈ tasks, t.status = "待领取" ∨ t.status = "进行中" ∨ t.status = "已完成"
              ∨ t.status = "已逾期") ∧
        s.byPriority.low + s.byPriority.medium + s.byPriority.high ≤ s.total ∧
        (s.byPriority.low + s.byPriority.medium + s.byPriority.high = s.total
          ↔ ∀ t ∈ tasks, t.priority = "low" ∨ t.priority = "medium" ∨ t.priority = "high")) ∧
    (∃ u, getUserStatistics monthKey { data := some users, error := none }
          = { data := some u, error := none } ∧
        u.total = users.length ∧
        u.byRole.admin + u.byRole.user ≤ u.total ∧
        (u.byRole.admin + u.byRole.user = u.total
          ↔ ∀ r ∈ users, r.role = "admin" ∨ r.role = "user")) := by
  refine ⟨⟨_, rfl, rfl, ?_, ?_, ?_, ?_⟩, ⟨_, rfl, rfl, ?_, ?_⟩⟩
  · exact (four_buckets TaskRow.status "待领取" "进行中" "已完成" "已逾期"
      (by decide) (by decide) (by decide) (by decide) (by decide) (by decide) tasks).1
  · exact (four_buckets TaskRow.status "待领取" "进行中" "已完成" "已逾期"
      (by decide) (by decide) (by decide) (by decide) (by decide) (by decide) tasks).2
  · exact (three_buckets TaskRow.priority "low" "medium" "high"
      (by decide) (by decide) (by decide) tasks).1
  · exact (three_buckets TaskRow.priority "low" "medium" "high"
      (by decide) (by decide) (by decide) tasks).2
  · exact (two_buckets UserRow.role "admin" "user" (by decide) users).1
  · exact (two_buckets UserRow.role "admin" "user" (by decide) users).2

/-! ## The order of JavaScript strings -/

theorem lexLe_total : ∀ a b : List Nat, lexLe a b = true ∨ lexLe b a = true
  | [], _ => Or.inl (by simp [lexLe])
  | _ :: _, [] => Or.inr (by simp [lexLe])
  | x :: xs, y :: ys => by
    simp only [lexLe, Bool.or_eq_true, Bool.and_eq_true, decide_eq_true_eq]
    rcases Nat.lt_trichotomy x y with h | h | h
    · exact Or.inl (Or.inl h)
    · rcases lexLe_total xs ys with h2 | h2
      · exact Or.inl (Or.inr ⟨h, h2⟩)
      · exact Or.inr (Or.inr ⟨h.symm, h2⟩)
    · exact Or.inr (Or.inl h)

theorem lexLe_trans : ∀ a b c : List Nat,
    lexLe a b = true → lexLe b c = true → lexLe a c = true
  | [], _, _ => fun _ _ => by simp [lexLe]
  | _ :: _, [], _ => fun h _ => by simp [lexLe] at h
  | _ :: _, _ :: _, [] => fun _ h => by simp [lexLe] at h
  | x :: xs, y :: ys, z :: zs => by
    simp only [lexLe, Bool.or_eq_true, Bool.and_eq_true, decide_eq_true_eq]
    intro h1 h2
    rcases h1 with h1 | ⟨h1, h1t⟩ <;> rcases h2 with h2 | ⟨h2, h2t⟩
    · exact Or.inl (by omega)
    · exact Or.inl (by omega)
    · exact Or.inl (by omega)
    · exact Or.inr ⟨by omega, lexLe_trans xs ys zs h1t h2t⟩

theorem lexLe_antisymm : ∀ a b : List Nat,
    lexLe a b = true → lexLe b a = true → a = b
  | [], [] => fun _ _ => rfl
  | [], _ :: _ => fun _ h => by simp [lexLe] at h
  | _ :: _, [] => fun h _ => by simp [lexLe] at h
  | x :: xs, y :: ys => by
    simp only [lexLe, Bool.or_eq_true, Bool.and_eq_true, decide_eq_true_eq]
    intro h1 h2
    rcases h1 with h1 | ⟨h1, h1t⟩ <;> rcases h2 with h2 | ⟨h2, h2t⟩
    · omega
    · omega
    · omega
    · rw [h1, lexLe_antisymm xs ys h1t h2t]

/-- A character is not a surrogate, so its code units determine it. -/
theorem charUnits_append_inj (c d : Char) (u v : List Nat)
    (h : charUnits c ++ u = charUnits d ++ v) : c = d ∧ u = v := by
  have hc := c.valid
  have hd := d.valid
  have hcn : c.toNat = c.val.toNat := rfl
  have hdn : d.toNat = d.val.toNat := rfl
  have key : c.toNat = d.toNat → c = d := fun e =>
    Char.ext (UInt32.ext e)
  simp only [UInt32.isValidChar, Nat.isValidChar] at hc hd
  unfold charUnits at h
  split_ifs at h with h1 h2 h2
  · simp only [List.cons_append, List.nil_append, List.cons.injEq] at h
    exact ⟨key h.1, h.2⟩
  · simp only [List.cons_append, List.nil_append, List.cons.injEq] at h
    omega
  · simp only [List.cons_append, List.nil_append, List.cons.injEq] at h
    omega
  · simp only [List.cons_append, List.nil_append, List.cons.injEq] at h
    obtain ⟨e1, e2, e3⟩ := h
    exact ⟨key (by omega), e3⟩

theorem codeUnits_inj : ∀ a b : List Char, codeUnits a = codeUnits b → a = b
  | [], [] => fun _ => rfl
  | [], d :: ds => fun h => by
    unfold codeUnits charUnits at h
    split_ifs at h <;> simp at h
  | c :: cs, [] => fun h => by
    unfold codeUnits charUnits at h
    split_ifs at h <;> simp at h
  | c :: cs, d :: ds => fun h => by
    obtain ⟨e1, e2⟩ := charUnits_append_inj c d (codeUnits cs) (codeUnits ds) h
    rw [e1, codeUnits_inj cs ds e2]

theorem jsLe_total (a b : String) : jsLe a b ∨ jsLe b a := lexLe_total _ _

theorem jsLe_trans {a b c : String} (h1 : jsLe a b) (h2 : jsLe b c) : jsLe a c :=
  lexLe_trans _ _ _ h1 h2

theorem jsLe_antisymm {a b : String} (h1 : jsLe a b) (h2 : jsLe b a) : a = b :=
  String.ext (codeUnits_inj _ _ (lexLe_antisymm _ _ h1 h2))

theorem jsLt_iff {a b : String} : jsLt a b ↔ jsLe a b ∧ a ≠ b := by
  constructor
  · intro h
    have hn : ¬ jsLe b a := by
      intro h2
      unfold jsLt at h
      unfold jsLe at h2
      rw [h] at h2
      exact Bool.false_ne_true h2
    refine ⟨(jsLe_total a b).resolve_right hn, ?_⟩
    rintro rfl
    exact hn ((jsLe_total a a).elim id id)
  · rintro ⟨h1, h2⟩
    unfold jsLt
    cases h : lexLe (codeUnits b.toList) (codeUnits a.toList)
    · rfl
    · exact (h2 (jsLe_antisymm h1 h)).elim

/-- Sorting keeps the strings and puts them in ascending order. -/
theorem jsSort_perm (keys : List String) : (jsSort keys).Perm keys :=
  List.perm_insertionSort jsLe keys

theorem jsSort_sorted (keys : List String) : (jsSort keys).Pairwise jsLe :=
  haveI : IsTotal String jsLe := ⟨jsLe_total⟩
  haveI : IsTrans String jsLe := ⟨fun _ _ _ => jsLe_trans⟩
  List.sorted_insertionSort jsLe keys

/-- Sorting pairwise different strings puts them in strictly ascending order. -/
theorem jsSort_strict (keys : List String) (h : keys.Nodup) : (jsSort keys).Pairwise jsLt := by
  have hs := jsSort_sorted keys
  have hn : (jsSort keys).Nodup := (jsSort_perm keys).nodup_iff.mpr h
  have hboth := hs.and hn
  exact hboth.imp (fun ⟨h1, h2⟩ => jsLt_iff.mpr ⟨h1, h2⟩)

/-- Permuted key lists sort to the same list. -/
theorem jsSort_eq_of_perm {k1 k2 : List String} (h : k1.Perm k2) : jsSort k1 = jsSort k2 :=
  haveI : IsAntisymm String jsLe := ⟨fun _ _ => jsLe_antisymm⟩
  List.eq_of_perm_of_sorted ((jsSort_perm k1).trans (h.trans (jsSort_perm k2).symm))
    (jsSort_sorted k1) (jsSort_sorted k2)

/-! ## Dictionaries -/

section Dictionary

variable {κ α : Type} [DecidableEq κ]

theorem hasKey_iff_mem (key : κ) (obj : List (κ × α)) :
    hasKey key obj = true ↔ key ∈ obj.map Prod.fst := by
  unfold hasKey
  simp only [List.any_eq_true, decide_eq_true_eq, List.mem_map]

theorem getKey_eq_none_iff (key : κ) (obj : List (κ × α)) :
    getKey key obj = none ↔ key ∉ obj.map Prod.fst := by
  induction obj with
  | nil => simp [getKey]
  | cons p rest ih =>
    unfold getKey
    by_cases h : p.1 = key
    · simp [h]
    · simp only [h, if_false, ih, List.map_cons, List.mem_cons, not_or]
      exact ⟨fun h2 => ⟨fun e => h e.symm, h2⟩, fun h2 => h2.2⟩

theorem keys_modifyKey (key : κ) (f : α → α) (obj : List (κ × α)) :
    (modifyKey key f obj).map Prod.fst = obj.map Prod.fst := by
  induction obj with
  | nil => rfl
  | cons p rest ih =>
    unfold modifyKey
    by_cases h : p.1 = key
    · simp [h]
    · simp [h, ih]

theorem keys_setKey (key : κ) (value : α) (obj : List (κ × α)) :
    (setKey key value obj).map Prod.fst
      = if key ∈ obj.map Prod.fst then obj.map Prod.fst else obj.map Prod.fst ++ [key] := by
  induction obj with
  | nil => simp [setKey]
  | cons p rest ih =>
    unfold setKey
    by_cases h : p.1 = key
    · simp [h]
    · have h2 : ¬ key = p.1 := fun e => h e.symm
      simp only [h, if_false, List.map_cons, ih, List.mem_cons, h2, false_or]
      split_ifs <;> simp

theorem getKey_modifyKey (key k : κ) (f : α → α) (obj : List (κ × α)) :
    getKey k (modifyKey key f obj)
      = if k = key then (getKey k obj).map f else getKey k obj := by
  induction obj with
  | nil => simp [getKey, modifyKey]
  | cons p rest ih =>
    unfold modifyKey
    by_cases h : p.1 = key
    · by_cases hk : k = key
      · simp [h, hk, getKey]
      · have : ¬ key = k := fun e => hk e.symm
        simp [h, hk, getKey, this]
    · by_cases hk : k = key
      · subst hk
        simp only [h, if_false, getKey, ih, if_true]
      · simp only [h, if_false, getKey, ih, hk]

theorem getKey_setKey (key k : κ) (value : α) (obj : List (κ × α)) :
    getKey k (setKey key value obj) = if k = key then some value else getKey k obj := by
  induction obj with
  | nil =>
    by_cases hk : k = key
    · simp [getKey, setKey, hk]
    · have : ¬ key = k := fun e => hk e.symm
      simp [getKey, setKey, hk, this]
  | cons p rest ih =>
    unfold setKey
    by_cases h : p.1 = key
    · by_cases hk : k = key
      · simp [h, hk, getKey]
      · have : ¬ key = k := fun e => hk e.symm
        simp [h, hk, getKey, this]
    · by_cases hk : k = key
      · subst hk
        simp only [h, if_false, getKey, ih, if_true]
      · simp only [h, if_false, getKey, ih, hk]

/-- With pairwise different keys, looking every key up lists the values. -/
theorem map_getKey_keys (d : α) (obj : List (κ × α)) (h : (obj.map Prod.fst).Nodup) :
    (obj.map Prod.fst).map (fun k => (getKey k obj).getD d) = obj.map Prod.snd := by
  induction obj with
  | nil => rfl
  | cons p rest ih =>
    rw [List.map_cons, List.nodup_cons] at h
    simp only [List.map_cons, List.map_map, getKey, if_true, Option.getD_some, List.cons.injEq,
      true_and]
    rw [← ih h.2, List.map_map]
    apply List.map_congr_left
    intro q hq
    have : p.1 ≠ q.1 := fun e => h.1 (e ▸ List.mem_map_of_mem Prod.fst hq)
    simp [Function.comp, this]

end Dictionary

/-- Counting the rows of each key of a duplicate-free key list counts the rows
whose key is listed. -/
theorem sum_filter_by_key {κ ρ : Type} [DecidableEq κ] (g : ρ → κ) (p : ρ → Bool)
    (rows : List ρ) : ∀ keys : List κ, keys.Nodup →
    (keys.map (fun k => (rows.filter (fun r => decide (g r = k) && p r)).length)).sum
      = (rows.filter (fun r => decide (g r ∈ keys) && p r)).length
  | [], _ => by simp
  | k :: ks, h => by
    rw [List.nodup_cons] at h
    rw [List.map_cons, List.sum_cons, sum_filter_by_key g p rows ks h.2,
      length_filter_or (fun r => decide (g r = k) && p r) (fun r => decide (g r ∈ ks) && p r)
        (fun r h1 h2 => by
          simp only [Bool.and_eq_true, decide_eq_true_eq] at h1 h2
          exact h.1 (h1.1 ▸ h2.1))]
    congr 1
    apply List.filter_congr
    intro r _
    by_cases e : g r = k <;> by_cases m : g r ∈ ks <;> cases p r <;> simp [e, m]

/-- When every row's key is listed, the per-key counts add up to the count. -/
theorem sum_filter_by_key_all {κ ρ : Type} [DecidableEq κ] (g : ρ → κ) (p : ρ → Bool)
    (rows : List ρ) (keys : List κ) (hn : keys.Nodup) (hall : ∀ r ∈ rows, g r ∈ keys) :
    (keys.map (fun k => (rows.filter (fun r => decide (g r = k) && p r)).length)).sum
      = (rows.filter p).length := by
  rw [sum_filter_by_key g p rows keys hn]
  congr 1
  apply List.filter_congr
  intro r hr
  simp [hall r hr]

/-! ## The dictionary `dailyStats` -/

theorem keys_trendStep (obj : List (String × DayStat)) (t : TaskRow) :
    (trendStep obj t).map Prod.fst
      = if isoDate t.created_at ∈ obj.map Prod.fst then obj.map Prod.fst
        else obj.map Prod.fst ++ [isoDate t.created_at] := by
  unfold trendStep
  by_cases h : isoDate t.created_at ∈ obj.map Prod.fst
  · have hk : hasKey (isoDate t.created_at) obj = true := (hasKey_iff_mem _ _).mpr h
    by_cases hs : t.status = "已完成" <;> simp [hk, hs, h, keys_modifyKey]
  · have hk : hasKey (isoDate t.created_at) obj = false := by
      cases e : hasKey (isoDate t.created_at) obj
      · rfl
      · exact (h ((hasKey_iff_mem _ _).mp e)).elim
    by_cases hs : t.status = "已完成" <;> simp [hk, hs, h, keys_modifyKey, keys_setKey]

theorem getKey_trendStep (obj : List (String × DayStat)) (t : TaskRow) (date : String) :
    (getKey date (trendStep obj t)).getD { created := 0, completed := 0 }
      = if date = isoDate t.created_at then
          { created := ((getKey date obj).getD { created := 0, completed := 0 }).created + 1
            completed := ((getKey date obj).getD { created := 0, completed := 0 }).completed
              + if t.status = "已完成" then 1 else 0 }
        else (getKey date obj).getD { created := 0, completed := 0 } := by
  unfold trendStep
  by_cases hd : date = isoDate t.created_at
  · subst hd
    by_cases h : isoDate t.created_at ∈ obj.map Prod.fst
    · have hk : hasKey (isoDate t.created_at) obj = true := (hasKey_iff_mem _ _).mpr h
      have hsome : ∃ v, getKey (isoDate t.created_at) obj = some v := by
        cases e : getKey (isoDate t.created_at) obj with
        | none => exact ((getKey_eq_none_iff _ _).mp e h).elim
        | some v => exact ⟨v, rfl⟩
      obtain ⟨v, hv⟩ := hsome
      by_cases hs : t.status = "已完成" <;>
        simp [hk, hs, getKey_modifyKey, hv]
    · have hk : hasKey (isoDate t.created_at) obj = false := by
        cases e : hasKey (isoDate t.created_at) obj
        · rfl
        · exact (h ((hasKey_iff_mem _ _).mp e)).elim
      have hv : getKey (isoDate t.created_at) obj = none := (getKey_eq_none_iff _ _).mpr h
      by_cases hs : t.status = "已完成" <;>
        simp [hk, hs, getKey_modifyKey, getKey_setKey, hv]
  · by_cases hk : hasKey (isoDate t.created_at) obj <;> by_cases hs : t.status = "已完成" <;>
      simp [hk, hs, getKey_modifyKey, getKey_setKey, hd]

theorem keys_nodup_trend (tasks : List TaskRow) : ∀ obj : List (String × DayStat),
    (obj.map Prod.fst).Nodup → ((tasks.foldl trendStep obj).map Prod.fst).Nodup := by
  induction tasks with
  | nil => intro obj h; exact h
  | cons t ts ih =>
    intro obj h
    rw [List.foldl_cons]
    apply ih
    rw [keys_trendStep]
    split_ifs with hm
    · exact h
    · exact List.Nodup.append h (List.nodup_singleton _) (by simpa using hm)

theorem keys_mem_trend (tasks : List TaskRow) (date : String) :
    ∀ obj : List (String × DayStat),
    date ∈ (tasks.foldl trendStep obj).map Prod.fst
      ↔ date ∈ obj.map Prod.fst ∨ ∃ t ∈ tasks, isoDate t.created_at = date := by
  induction tasks with
  | nil => intro obj; simp
  | cons t ts ih =>
    intro obj
    rw [List.foldl_cons, ih, keys_trendStep]
    split_ifs with hm
    · constructor
      · rintro (h | ⟨u, hu, e⟩)
        · exact Or.inl h
        · exact Or.inr ⟨u, List.mem_cons_of_mem _ hu, e⟩
      · rintro (h | ⟨u, hu, e⟩)
        · exact Or.inl h
        · rcases List.mem_cons.mp hu with rfl | hu
          · exact Or.inl (e ▸ hm)
          · exact Or.inr ⟨u, hu, e⟩
    · constructor
      · rintro (h | ⟨u, hu, e⟩)
        · rcases List.mem_append.mp h with h | h
          · exact Or.inl h
          · exact Or.inr ⟨t, List.mem_cons_self _ _, (List.mem_singleton.mp h).symm⟩
        · exact Or.inr ⟨u, List.mem_cons_of_mem _ hu, e⟩
      · rintro (h | ⟨u, hu, e⟩)
        · exact Or.inl (List.mem_append_left _ h)
        · rcases List.mem_cons.mp hu with rfl | hu
          · exact Or.inl (List.mem_append_right _ (List.mem_singleton.mpr e.symm))
          · exact Or.inr ⟨u, hu, e⟩

theorem getKey_trend (tasks : List TaskRow) (date : String) :
    ∀ obj : List (String × DayStat),
    (getKey date (tasks.foldl trendStep obj)).getD { created := 0, completed := 0 }
      = { created := ((getKey date obj).getD { created := 0, completed := 0 }).created
            + (tasks.filter (fun t => decide (isoDate t.created_at = date) && true)).length
          completed := ((getKey date obj).getD { created := 0, completed := 0 }).completed
            + (tasks.filter
                (fun t => decide (isoDate t.created_at = date)
                  && decide (t.status = "已完成"))).length } := by
  induction tasks with
  | nil => intro obj; simp
  | cons t ts ih =>
    intro obj
    rw [List.foldl_cons, ih, getKey_trendStep]
    by_cases hd : date = isoDate t.created_at
    · subst hd
      by_cases hs : t.status = "已完成"
      · simp [List.filter_cons, hs]; omega
      · simp [List.filter_cons, hs]; omega
    · have hd2 : ¬ isoDate t.created_at = date := fun e => hd e.symm
      simp [List.filter_cons, hd, hd2]

/-! ## `getTaskTrends` -/

theorem dates_trendData (obj : List (String × DayStat)) :
    (trendData obj).map TrendEntry.date = jsSort (obj.map Prod.fst) := by
  unfold trendData objectKeys
  rw [List.map_map]
  exact List.map_id _

theorem getTaskTrends_ok (days : Nat) (tasks : List TaskRow) :
    getTaskTrends days { data := some tasks, error := none }
      = { data := some
            { period := toString days ++ "天"
              dailyTrends := trendData (tasks.foldl trendStep [])
              summary :=
                { totalCreated := tasks.length
                  totalCompleted := (tasks.filter (fun t => t.status = "已完成")).length
                  completionRate :=
                    completionRate (tasks.filter (fun t => t.status = "已完成")).length
                      tasks.length } }
          error := none } := rfl

/-- The dates of the trend are the distinct dates of the rows. -/
theorem mem_dates_trend (tasks : List TaskRow) (date : String) :
    date ∈ (trendData (tasks.foldl trendStep [])).map TrendEntry.date
      ↔ ∃ t ∈ tasks, isoDate t.created_at = date := by
  rw [dates_trendData, (jsSort_perm _).mem_iff, keys_mem_trend]
  simp

theorem nodup_dates_trend (tasks : List TaskRow) :
    ((trendData (tasks.foldl trendStep [])).map TrendEntry.date).Nodup := by
  rw [dates_trendData]
  exact (jsSort_perm _).nodup_iff.mpr (keys_nodup_trend tasks [] List.nodup_nil)

/-- Each entry of the trend counts the rows of its date. -/
theorem entry_trend (tasks : List TaskRow) (e : TrendEntry)
    (he : e ∈ trendData (tasks.foldl trendStep [])) :
    e.created = (tasks.filter (fun t => decide (isoDate t.created_at = e.date) && true)).length ∧
    e.completed = (tasks.filter (fun t => decide (isoDate t.created_at = e.date)
        && decide (t.status = "已完成"))).length := by
  unfold trendData at he
  obtain ⟨date, _, rfl⟩ := List.mem_map.mp he
  have h := getKey_trend tasks date []
  simp only [getKey, Option.getD_none, Nat.zero_add] at h
  constructor
  · show ((getKey date (tasks.foldl trendStep [])).getD { created := 0, completed := 0 }).created = _
    rw [h]
  · show ((getKey date (tasks.foldl trendStep [])).getD { created := 0, completed := 0 }).completed
      = _
    rw [h]

theorem trendData_eq_map (tasks : List TaskRow) :
    trendData (tasks.foldl trendStep [])
      = (jsSort ((tasks.foldl trendStep []).map Prod.fst)).map (fun date =>
          { date := date
            created := (tasks.filter
              (fun t => decide (isoDate t.created_at = date) && true)).length
            completed := (tasks.filter (fun t => decide (isoDate t.created_at = date)
              && decide (t.status = "已完成"))).length }) := by
  unfold trendData objectKeys
  apply List.map_congr_left
  intro date _
  have h := getKey_trend tasks date []
  simp only [getKey, Option.getD_none, Nat.zero_add] at h
  rw [h]

/-- C2: the date keys of `dailyTrends` are strictly ascending in the order of
JavaScript strings, hence without a duplicate, whatever the order of the rows. -/
theorem dailyTrends_dates_ascending (days : Nat) (tasks : List TaskRow) :
    ∃ s, getTaskTrends days { data := some tasks, error := none }
        = { data := some s, error := none } ∧
      (s.dailyTrends.map TrendEntry.date).Pairwise jsLt ∧
      (s.dailyTrends.map TrendEntry.date).Nodup := by
  refine ⟨_, getTaskTrends_ok days tasks, ?_, nodup_dates_trend tasks⟩
  show ((trendData (tasks.foldl trendStep [])).map TrendEntry.date).Pairwise jsLt
  rw [dates_trendData]
  exact jsSort_strict _ (keys_nodup_trend tasks [] List.nodup_nil)

/-- C3: the `created` counts of `dailyTrends` add up to `summary.totalCreated`
and the `completed` counts to `summary.totalCompleted`. -/
theorem dailyTrends_sums (days : Nat) (tasks : List TaskRow) :
    ∃ s, getTaskTrends days { data := some tasks, error := none }
        = { data := some s, error := none } ∧
      (s.dailyTrends.map TrendEntry.created).sum = s.summary.totalCreated ∧
      (s.dailyTrends.map TrendEntry.completed).sum = s.summary.totalCompleted := by
  have hn := keys_nodup_trend tasks [] List.nodup_nil
  have hall : ∀ t ∈ tasks, isoDate t.created_at ∈ (tasks.foldl trendStep []).map Prod.fst :=
    fun t ht => (keys_mem_trend tasks _ []).mpr (Or.inr ⟨t, ht, rfl⟩)
  have hperm := jsSort_perm ((tasks.foldl trendStep []).map Prod.fst)
  refine ⟨_, getTaskTrends_ok days tasks, ?_, ?_⟩
  · show ((trendData (tasks.foldl trendStep [])).map TrendEntry.created).sum = tasks.length
    rw [trendData_eq_map, List.map_map]
    rw [(hperm.map _).sum_eq]
    have h := sum_filter_by_key_all (fun t : TaskRow => isoDate t.created_at) (fun _ => true)
      tasks _ hn hall
    simp only [List.filter_true] at h
    exact h
  · show ((trendData (tasks.foldl trendStep [])).map TrendEntry.completed).sum
      = (tasks.filter (fun t => t.status = "已完成")).length
    rw [trendData_eq_map, List.map_map]
    rw [(hperm.map _).sum_eq]
    exact sum_filter_by_key_all (fun t : TaskRow => isoDate t.created_at)
      (fun t => decide (t.status = "已完成")) tasks _ hn hall

/-- C4: `dailyTrends` has exactly one entry for each calendar date (the UTC
date that `toISOString` writes for `created_at`) occurring among the rows and
no other entry; the entry's `created` is the number of rows of that date and
its `completed` the number of those whose status is `已完成`.  An empty row
list gives an empty `dailyTrends`, a summary of zeros and no error. -/
theorem dailyTrends_one_entry_per_date (days : Nat) (tasks : List TaskRow) :
    (∃ s, getTaskTrends days { data := some tasks, error := none }
        = { data := some s, error := none } ∧
      (s.dailyTrends.map TrendEntry.date).Nodup ∧
      (∀ date, date ∈ s.dailyTrends.map TrendEntry.date
        ↔ ∃ t ∈ tasks, isoDate t.created_at = date) ∧
      (∀ e ∈ s.dailyTrends,
        e.created = (tasks.filter (fun t => isoDate t.created_at = e.date)).length ∧
        e.completed = (tasks.filter
          (fun t => decide (isoDate t.created_at = e.date)
            && decide (t.status = "已完成"))).length)) ∧
    getTaskTrends days { data := some [], error := none }
      = { data := some
            { period := toString days ++ "天"
              dailyTrends := []
              summary := { totalCreated := 0, totalCompleted := 0, completionRate := 0 } }
          error := none } := by
  refine ⟨⟨_, getTaskTrends_ok days tasks, nodup_dates_trend tasks, mem_dates_trend tasks, ?_⟩,
    rfl⟩
  intro e he
  have h := entry_trend tasks e he
  simpa using h

/-! ## Rounding -/

/-- Rounding a quotient that is at most the integer `m` gives at most `m`. -/
theorem roundHalfEven_le (a d m : Nat) (hd : 0 < d) (h : a ≤ m * d) :
    roundHalfEven a d ≤ m := by
  have hq : a / d ≤ m := Nat.div_le_of_le_mul (by rw [Nat.mul_comm]; exact h)
  have hdm := Nat.div_add_mod a d
  unfold roundHalfEven
  by_cases hlt : a / d < m
  · simp only []
    split_ifs <;> omega
  · have heq : a / d = m := by omega
    have hr : a % d = 0 := by
      rw [heq, Nat.mul_comm] at hdm
      omega
    simp only [hr, heq]
    rw [if_pos (by omega)]

/-- Rounding to a double keeps a value that is at most a small integer `m`
at most `m`. -/
theorem Dbl.round_le (n d m : Nat) (hd : 0 < d) (h : n ≤ m * d) (hm : m < 2 ^ 52) :
    (Dbl.round n d).num ≤ m * (Dbl.round n d).den ∧ 0 < (Dbl.round n d).den := by
  unfold Dbl.round
  split_ifs with h0 h1
  · exact ⟨Nat.zero_le _, Nat.one_pos⟩
  · exfalso
    have : m * d < 2 ^ 52 * d := Nat.mul_lt_mul_of_pos_right hm hd
    omega
  · refine ⟨?_, Nat.pos_pow_of_pos _ (by decide)⟩
    apply roundHalfEven_le _ _ _ hd
    calc n * 2 ^ scaleUp (53 + d) n d ≤ m * d * 2 ^ scaleUp (53 + d) n d :=
          Nat.mul_le_mul_right _ h
      _ = m * 2 ^ scaleUp (53 + d) n d * d := by ring

/-- `Math.round` of a value that is at most the integer `m` is at most `m`. -/
theorem mathRound_le (x : Dbl) (m : Nat) (hd : 0 < x.den) (h : x.num ≤ m * x.den) :
    mathRound x ≤ m := by
  unfold mathRound
  have : (2 * x.num + x.den) / (2 * x.den) < m + 1 := by
    rw [Nat.div_lt_iff_lt_mul (by omega)]
    have : (m + 1) * (2 * x.den) = 2 * (m * x.den) + 2 * x.den := by ring
    omega
  omega

/-- A completion rate is a percentage. -/
theorem completionRate_le (completed total : Nat) (h : completed ≤ total) :
    completionRate completed total ≤ 100 := by
  unfold completionRate
  split_ifs with ht
  · have hdiv : Dbl.div (Dbl.ofNat completed) (Dbl.ofNat total)
        = Dbl.round (completed * 1) (1 * total) := rfl
    have hq := Dbl.round_le (completed * 1) (1 * total) 1 (by omega) (by omega) (by decide)
    rw [← hdiv] at hq
    have hp := Dbl.round_le
      ((Dbl.div (Dbl.ofNat completed) (Dbl.ofNat total)).num * 100)
      ((Dbl.div (Dbl.ofNat completed) (Dbl.ofNat total)).den * 1) 100
      (by omega) (by omega) (by decide)
    exact mathRound_le _ 100 hp.2 hp.1
  · exact Nat.zero_le _

theorem completionRate_zero (completed : Nat) : completionRate completed 0 = 0 := rfl

/-! ## Soundness of the number model -/

/-- With enough fuel the scaled numerator lands in `[2^52 d, 2^53 d)`. -/
theorem scaleUp_spec (d : Nat) : ∀ fuel n : Nat, 2 ^ 52 * d ≤ n * 2 ^ fuel → n < 2 ^ 53 * d →
    2 ^ 52 * d ≤ n * 2 ^ scaleUp fuel n d ∧ n * 2 ^ scaleUp fuel n d < 2 ^ 53 * d
  | 0, n, h1, h2 => by
    simp only [scaleUp, Nat.pow_zero, Nat.mul_one] at *
    exact ⟨h1, h2⟩
  | fuel + 1, n, h1, h2 => by
    unfold scaleUp
    split_ifs with h
    · simp only [Nat.pow_zero, Nat.mul_one]
      exact ⟨h, h2⟩
    · have hrec := scaleUp_spec d fuel (2 * n)
        (by rw [Nat.pow_succ] at h1; calc 2 ^ 52 * d ≤ n * (2 ^ fuel * 2) := h1
              _ = 2 * n * 2 ^ fuel := by ring)
        (by omega)
      have e : n * 2 ^ (scaleUp fuel (2 * n) d + 1) = 2 * n * 2 ^ scaleUp fuel (2 * n) d := by
        rw [Nat.pow_succ]; ring
      rw [e]
      exact hrec

/-- The fuel `53 + d` of `Dbl.round` is enough: the significand of a quotient
below `2^52` is the rounding of a number in `[2^52, 2^53)`. -/
theorem scaleUp_normal (n d : Nat) (hn : 0 < n) (h : n < 2 ^ 52 * d) :
    2 ^ 52 * d ≤ n * 2 ^ scaleUp (53 + d) n d ∧ n * 2 ^ scaleUp (53 + d) n d < 2 ^ 53 * d := by
  apply scaleUp_spec
  · have h1 : d < 2 ^ d := Nat.lt_two_pow d
    calc 2 ^ 52 * d ≤ 2 ^ 53 * 2 ^ d := Nat.mul_le_mul (by decide) h1.le
      _ = 1 * 2 ^ (53 + d) := by rw [Nat.pow_add, Nat.one_mul]
      _ ≤ n * 2 ^ (53 + d) := Nat.mul_le_mul_right _ hn
  · omega

/-- With enough fuel the scaled denominator brings the quotient into
`[2^52, 2^53)`. -/
theorem scaleDown_spec (n : Nat) : ∀ fuel d : Nat, n < 2 ^ 53 * (d * 2 ^ fuel) → 2 ^ 52 * d ≤ n →
    2 ^ 52 * (d * 2 ^ scaleDown fuel n d) ≤ n ∧ n < 2 ^ 53 * (d * 2 ^ scaleDown fuel n d)
  | 0, d, h1, h2 => by
    simp only [scaleDown, Nat.pow_zero, Nat.mul_one] at *
    exact ⟨h2, h1⟩
  | fuel + 1, d, h1, h2 => by
    unfold scaleDown
    split_ifs with h
    · simp only [Nat.pow_zero, Nat.mul_one]
      exact ⟨h2, h⟩
    · have hrec := scaleDown_spec n fuel (2 * d)
        (by rw [Nat.pow_succ] at h1; calc n < 2 ^ 53 * (d * (2 ^ fuel * 2)) := h1
              _ = 2 ^ 53 * (2 * d * 2 ^ fuel) := by ring)
        (by omega)
      have e : d * 2 ^ (scaleDown fuel n (2 * d) + 1) = 2 * d * 2 ^ scaleDown fuel n (2 * d) := by
        rw [Nat.pow_succ]; ring
      rw [e]
      exact hrec

/-- The fuel `n` of `Dbl.round` is enough for a quotient of at least `2^52`. -/
theorem scaleDown_normal (n d : Nat) (hd : 0 < d) (h : 2 ^ 52 * d ≤ n) :
    2 ^ 52 * (d * 2 ^ scaleDown n n d) ≤ n ∧ n < 2 ^ 53 * (d * 2 ^ scaleDown n n d) := by
  apply scaleDown_spec _ _ _ _ h
  have h1 : n < 2 ^ n := Nat.lt_two_pow n
  calc n < 2 ^ n := h1
    _ = 1 * (1 * 2 ^ n) := by ring
    _ ≤ 2 ^ 53 * (d * 2 ^ n) := Nat.mul_le_mul (by decide) (Nat.mul_le_mul_right _ hd)

/-- The rounded significand is within one half of the exact quotient. -/
theorem roundHalfEven_near (a d : Nat) (hd : 0 < d) :
    2 * (roundHalfEven a d * d) ≤ 2 * a + d ∧ 2 * a ≤ 2 * (roundHalfEven a d * d) + d := by
  have hdm := Nat.div_add_mod a d
  have hlt := Nat.mod_lt a hd
  have e1 : (a / d + 1) * d = d * (a / d) + d := by ring
  have e2 : a / d * d = d * (a / d) := by ring
  unfold roundHalfEven
  simp only []
  split_ifs <;> simp only [e1, e2] <;> omega


/-- The shape of `Dbl.round` on a positive quotient below `2^52`. -/
theorem Dbl.round_small (n d : Nat) (hn : 0 < n) (h : n < 2 ^ 52 * d) :
    Dbl.round n d
      = ⟨roundHalfEven (n * 2 ^ scaleUp (53 + d) n d) d, 2 ^ scaleUp (53 + d) n d⟩ := by
  unfold Dbl.round
  rw [if_neg (by omega), if_neg (by omega)]

/-- Rounding a positive quotient below `2^52` to a double changes it by at most
the fraction `2^-53` of its value. -/
theorem Dbl.round_rel (n d : Nat) (hn : 0 < n) (h : n < 2 ^ 52 * d) :
    0 < (Dbl.round n d).den ∧
    |((Dbl.round n d).num : ℚ) / (Dbl.round n d).den - (n : ℚ) / d| ≤ (n : ℚ) / d / 2 ^ 53 := by
  have hd : 0 < d := by
    rcases Nat.eq_zero_or_pos d with h0 | h0
    · subst h0; omega
    · exact h0
  rw [Dbl.round_small n d hn h]
  obtain ⟨hlo, _⟩ := scaleUp_normal n d hn h
  obtain ⟨h1, h2⟩ := roundHalfEven_near (n * 2 ^ scaleUp (53 + d) n d) d hd
  generalize scaleUp (53 + d) n d = i at *
  generalize roundHalfEven (n * 2 ^ i) d = m at *
  have hp : 0 < 2 ^ i := Nat.pos_pow_of_pos _ (by decide)
  refine ⟨hp, ?_⟩
  have hdq : (0 : ℚ) < d := by exact_mod_cast hd
  have hpq : (0 : ℚ) < ((2 ^ i : ℕ) : ℚ) := by exact_mod_cast hp
  have hloq : (2 : ℚ) ^ 52 * d ≤ n * ((2 ^ i : ℕ) : ℚ) := by exact_mod_cast hlo
  have h1q : 2 * ((m : ℚ) * d) ≤ 2 * (n * ((2 ^ i : ℕ) : ℚ)) + d := by exact_mod_cast h1
  have h2q : 2 * ((n : ℚ) * ((2 ^ i : ℕ) : ℚ)) ≤ 2 * (m * d) + d := by exact_mod_cast h2
  show |(m : ℚ) / ((2 ^ i : ℕ) : ℚ) - (n : ℚ) / d| ≤ (n : ℚ) / d / 2 ^ 53
  generalize ((2 ^ i : ℕ) : ℚ) = P at *
  have e : (m : ℚ) / P - n / d = (m * d - n * P) / (P * d) := by
    field_simp
    ring
  have hb : (1 : ℚ) / (2 * P) ≤ (n : ℚ) / d / 2 ^ 53 := by
    rw [div_div, div_le_div_iff₀ (by positivity) (by positivity)]
    nlinarith
  rw [e, abs_le]
  constructor
  · rw [le_div_iff₀ (by positivity)]
    have : -((n : ℚ) / d / 2 ^ 53) * (P * d) ≤ -(1 / (2 * P)) * (P * d) := by
      have hpd : (0 : ℚ) < P * d := by positivity
      nlinarith
    have e2 : -(1 / (2 * P)) * (P * d) = -(d / 2) := by
      field_simp
      ring
    linarith
  · rw [div_le_iff₀ (by positivity)]
    have : (1 / (2 * P)) * (P * d) ≤ ((n : ℚ) / d / 2 ^ 53) * (P * d) := by
      have hpd : (0 : ℚ) < P * d := by positivity
      nlinarith
    have e2 : (1 / (2 * P)) * (P * d) = d / 2 := by
      field_simp
      ring
    linarith


theorem completionRate_zero_completed (total : Nat) : completionRate 0 total = 0 := by
  unfold completionRate
  split_ifs
  · simp [Dbl.div, Dbl.mul, Dbl.ofNat, Dbl.round, mathRound]
  · rfl

/-- For every array length the rate is an integer nearest to the exact
percentage `100 × completed / total`: it differs from it by at most one half. -/
theorem completionRate_near (completed total : Nat) (hct : completed ≤ total)
    (ht : total < 2 ^ 32) :
    2 * (completionRate completed total * total) ≤ 200 * completed + total ∧
    200 * completed ≤ 2 * (completionRate completed total * total) + total := by
  rcases Nat.eq_zero_or_pos completed with hc0 | hc
  · subst hc0
    rw [completionRate_zero_completed]
    omega
  have htpos : 0 < total := by omega
  have hrate : completionRate completed total
      = mathRound (Dbl.round ((Dbl.round (completed * 1) (1 * total)).num * 100)
          ((Dbl.round (completed * 1) (1 * total)).den * 1)) := by
    unfold completionRate
    rw [if_pos htpos]
    rfl
  obtain ⟨hqden, hqerr⟩ := Dbl.round_rel (completed * 1) (1 * total) (by omega) (by omega)
  obtain ⟨hqle, _⟩ := Dbl.round_le (completed * 1) (1 * total) 1 (by omega) (by omega)
    (by decide)
  generalize Dbl.round (completed * 1) (1 * total) = q at *
  -- the quotient as a rational number
  have hT : (0 : ℚ) < total := by exact_mod_cast htpos
  have hC : (0 : ℚ) < completed := by exact_mod_cast hc
  have hCT : (completed : ℚ) ≤ total := by exact_mod_cast hct
  have hTlt : (total : ℚ) < 2 ^ 32 := by exact_mod_cast ht
  have hX : (0 : ℚ) < (completed : ℚ) / total := div_pos hC hT
  have hX1 : (completed : ℚ) / total ≤ 1 := (div_le_one hT).mpr hCT
  have hqd : (0 : ℚ) < q.den := by exact_mod_cast hqden
  have e1 : ((completed * 1 : ℕ) : ℚ) / ((1 * total : ℕ) : ℚ) = (completed : ℚ) / total := by
    simp
  rw [e1, abs_le] at hqerr
  have hQpos : (0 : ℚ) < (q.num : ℚ) / q.den := by
    have : (0 : ℚ) < (completed : ℚ) / total - (completed : ℚ) / total / 2 ^ 53 := by
      have : (completed : ℚ) / total / 2 ^ 53 < (completed : ℚ) / total := by
        apply div_lt_self hX
        norm_num
      linarith
    linarith [hqerr.1]
  have hqnum : 0 < q.num := by
    rcases Nat.eq_zero_or_pos q.num with h0 | h0
    · rw [h0] at hQpos
      simp at hQpos
    · exact h0
  obtain ⟨hpden, hperr⟩ := Dbl.round_rel (q.num * 100) (q.den * 1) (by omega) (by omega)
  rw [hrate]
  generalize Dbl.round (q.num * 100) (q.den * 1) = p at *
  have hpd : (0 : ℚ) < p.den := by exact_mod_cast hpden
  have e2 : ((q.num * 100 : ℕ) : ℚ) / ((q.den * 1 : ℕ) : ℚ) = 100 * ((q.num : ℚ) / q.den) := by
    push_cast
    field_simp
    ring
  rw [e2, abs_le] at hperr
  -- `Math.round` is the floor of the value plus one half
  have hfloor1 : mathRound p * (2 * p.den) ≤ 2 * p.num + p.den := Nat.div_mul_le_self _ _
  have hfloor2 : 2 * p.num + p.den < (mathRound p + 1) * (2 * p.den) := by
    have hdm := Nat.div_add_mod (2 * p.num + p.den) (2 * p.den)
    have hml := Nat.mod_lt (2 * p.num + p.den) (by omega : 0 < 2 * p.den)
    unfold mathRound
    rw [Nat.add_mul, Nat.one_mul, Nat.mul_comm ((2 * p.num + p.den) / (2 * p.den)) (2 * p.den)]
    omega
  generalize mathRound p = r at *
  have hf1 : (r : ℚ) - 1 / 2 ≤ (p.num : ℚ) / p.den := by
    rw [le_div_iff₀ hpd]
    have : ((r * (2 * p.den) : ℕ) : ℚ) ≤ ((2 * p.num + p.den : ℕ) : ℚ) := by
      exact_mod_cast hfloor1
    push_cast at this
    linarith
  have hf2 : (p.num : ℚ) / p.den < (r : ℚ) + 1 / 2 := by
    rw [div_lt_iff₀ hpd]
    have : ((2 * p.num + p.den : ℕ) : ℚ) < (((r + 1) * (2 * p.den) : ℕ) : ℚ) := by
      exact_mod_cast hfloor2
    push_cast at this
    linarith
  set X : ℚ := (completed : ℚ) / total with hXdef
  set Q : ℚ := (q.num : ℚ) / q.den with hQdef
  set P : ℚ := (p.num : ℚ) / p.den with hPdef
  have hXT : X * total = completed := div_mul_cancel₀ _ (ne_of_gt hT)
  have hup : (r : ℚ) ≤ 100 * X * (1 + 1 / 2 ^ 53) * (1 + 1 / 2 ^ 53) + 1 / 2 := by
    have a1 : Q ≤ X * (1 + 1 / 2 ^ 53) := by linarith [hqerr.2]
    have a2 : P ≤ 100 * Q * (1 + 1 / 2 ^ 53) := by linarith [hperr.2]
    have a3 : 100 * Q * (1 + 1 / 2 ^ 53) ≤ 100 * (X * (1 + 1 / 2 ^ 53)) * (1 + 1 / 2 ^ 53) := by
      apply mul_le_mul_of_nonneg_right _ (by norm_num)
      linarith
    linarith
  have hlo : 100 * X * (1 - 1 / 2 ^ 53) * (1 - 1 / 2 ^ 53) - 1 / 2 < (r : ℚ) := by
    have a1 : X * (1 - 1 / 2 ^ 53) ≤ Q := by linarith [hqerr.1]
    have a2 : 100 * Q * (1 - 1 / 2 ^ 53) ≤ P := by linarith [hperr.1]
    have a3 : 100 * (X * (1 - 1 / 2 ^ 53)) * (1 - 1 / 2 ^ 53) ≤ 100 * Q * (1 - 1 / 2 ^ 53) := by
      apply mul_le_mul_of_nonneg_right _ (by norm_num)
      linarith
    linarith
  constructor
  · by_contra hneg
    have hn : 200 * completed + total + 1 ≤ 2 * (r * total) := by omega
    have hnq : 200 * (completed : ℚ) + total + 1 ≤ 2 * (r * total) := by exact_mod_cast hn
    have hmul := mul_le_mul_of_nonneg_right hup (le_of_lt hT)
    have e : (100 * X * (1 + 1 / 2 ^ 53) * (1 + 1 / 2 ^ 53) + 1 / 2) * (total : ℚ)
        = 100 * (X * total) * (1 + 1 / 2 ^ 53) * (1 + 1 / 2 ^ 53) + total / 2 := by ring
    rw [e, hXT] at hmul
    norm_num at hmul
    linarith
  · by_contra hneg
    have hn : 2 * (r * total) + total + 1 ≤ 200 * completed := by omega
    have hnq : 2 * ((r : ℚ) * total) + total + 1 ≤ 200 * completed := by exact_mod_cast hn
    have hmul := mul_lt_mul_of_pos_right hlo hT
    have e : (100 * X * (1 - 1 / 2 ^ 53) * (1 - 1 / 2 ^ 53) - 1 / 2) * (total : ℚ)
        = 100 * (X * total) * (1 - 1 / 2 ^ 53) * (1 - 1 / 2 ^ 53) - total / 2 := by ring
    rw [e, hXT] at hmul
    norm_num at hmul
    linarith


/-- For every array length the rate is the specification's rounding, except
possibly at an exact tie, where it may be the integer below. -/
theorem completionRate_eq_spec_or_tie (completed total : Nat) (hct : completed ≤ total)
    (ht : total < 2 ^ 32) :
    completionRate completed total = specCompletionRate completed total ∨
    (200 * completed + total = 2 * total * specCompletionRate completed total ∧
      completionRate completed total + 1 = specCompletionRate completed total) := by
  rcases Nat.eq_zero_or_pos total with h0 | htpos
  · subst h0
    exact Or.inl rfl
  obtain ⟨h1, h2⟩ := completionRate_near completed total hct ht
  have hs : specCompletionRate completed total = (200 * completed + total) / (2 * total) := by
    unfold specCompletionRate
    rw [if_neg (by omega)]
    congr 1
    omega
  have hdm := Nat.div_add_mod (200 * completed + total) (2 * total)
  have hml := Nat.mod_lt (200 * completed + total) (by omega : 0 < 2 * total)
  rw [← hs] at hdm
  generalize specCompletionRate completed total = s at *
  generalize completionRate completed total = r at *
  have hrs : r ≤ s := by
    by_contra hlt
    have : (s + 1) * total ≤ r * total := Nat.mul_le_mul_right _ (by omega)
    have e : (s + 1) * total = s * total + total := by ring
    have e2 : 2 * total * s = 2 * (s * total) := by ring
    omega
  have hsr : s ≤ r + 1 := by
    by_contra hlt
    have : (r + 2) * total ≤ s * total := Nat.mul_le_mul_right _ (by omega)
    have e : (r + 2) * total = r * total + 2 * total := by ring
    have e2 : 2 * total * s = 2 * (s * total) := by ring
    omega
  rcases Nat.lt_or_ge r s with hlt | hge
  · right
    have hsr1 : s = r + 1 := by omega
    subst hsr1
    have e2 : 2 * total * (r + 1) = 2 * (r * total) + 2 * total := by ring
    refine ⟨?_, rfl⟩
    omega
  · left
    omega


/-! ## The dictionary `userWorkload` -/

theorem mem_getKey {κ α : Type} [DecidableEq κ] (obj : List (κ × α))
    (h : (obj.map Prod.fst).Nodup) (p : κ × α) (hp : p ∈ obj) : getKey p.1 obj = some p.2 := by
  induction obj with
  | nil => cases hp
  | cons q rest ih =>
    rw [List.map_cons, List.nodup_cons] at h
    rcases List.mem_cons.mp hp with rfl | hp
    · simp [getKey]
    · have hne : q.1 ≠ p.1 := fun e => h.1 (e ▸ List.mem_map_of_mem Prod.fst hp)
      simp only [getKey, hne, if_false]
      exact ih h.2 hp

theorem getKey_mem {κ α : Type} [DecidableEq κ] (obj : List (κ × α)) (k : κ) (v : α)
    (h : getKey k obj = some v) : (k, v) ∈ obj := by
  induction obj with
  | nil => simp [getKey] at h
  | cons q rest ih =>
    unfold getKey at h
    split_ifs at h with hq
    · cases h
      subst hq
      exact List.mem_cons_self _ _
    · exact List.mem_cons_of_mem _ (ih h)

theorem mem_objectValues {α : Type} (obj : List (Nat × α)) (v : α) :
    v ∈ objectValues obj ↔ ∃ p ∈ obj, p.2 = v := by
  unfold objectValues
  rw [List.mem_append, List.mem_map, List.mem_map]
  constructor
  · rintro (⟨p, hp, rfl⟩ | ⟨p, hp, rfl⟩)
    · rw [(List.perm_insertionSort _ _).mem_iff] at hp
      exact ⟨p, (List.mem_filter.mp hp).1, rfl⟩
    · exact ⟨p, (List.mem_filter.mp hp).1, rfl⟩
  · rintro ⟨p, hp, rfl⟩
    cases h : isArrayIndex p.1
    · exact Or.inr ⟨p, List.mem_filter.mpr ⟨hp, by simp [h]⟩, rfl⟩
    · refine Or.inl ⟨p, ?_, rfl⟩
      rw [(List.perm_insertionSort _ _).mem_iff]
      exact List.mem_filter.mpr ⟨hp, h⟩

theorem workloadStep_skip (obj : List (Nat × UserWorkload)) (t : TaskRow)
    (h : truthyId t.assignee_id = false) : workloadStep obj t = obj := by
  unfold workloadStep
  cases ha : t.assignee_id with
  | none => rfl
  | some id =>
    have : id = 0 := by simpa [truthyId, ha] using h
    simp [this]

theorem keys_workloadStep (obj : List (Nat × UserWorkload)) (t : TaskRow) (id : Nat)
    (ha : t.assignee_id = some id) (h0 : id ≠ 0) :
    (workloadStep obj t).map Prod.fst
      = if id ∈ obj.map Prod.fst then obj.map Prod.fst else obj.map Prod.fst ++ [id] := by
  unfold workloadStep
  simp only [ha, h0, if_false]
  by_cases h : id ∈ obj.map Prod.fst
  · have hk : hasKey id obj = true := (hasKey_iff_mem _ _).mpr h
    by_cases hp : t.priority = "high" <;> simp [hk, hp, h, keys_modifyKey]
  · have hk : hasKey id obj = false := by
      cases e : hasKey id obj
      · rfl
      · exact (h ((hasKey_iff_mem _ _).mp e)).elim
    by_cases hp : t.priority = "high" <;> simp [hk, hp, h, keys_modifyKey, keys_setKey]

theorem getKey_workloadStep (obj : List (Nat × UserWorkload)) (t : TaskRow) (id k : Nat)
    (ha : t.assignee_id = some id) (h0 : id ≠ 0) :
    getKey k (workloadStep obj t)
      = if k = id then some (countTask t ((getKey id obj).getD (newUserWorkload id t)))
        else getKey k obj := by
  unfold workloadStep
  simp only [ha, h0, if_false]
  by_cases hd : k = id
  · subst hd
    by_cases h : k ∈ obj.map Prod.fst
    · have hk : hasKey k obj = true := (hasKey_iff_mem _ _).mpr h
      have hsome : ∃ v, getKey k obj = some v := by
        cases e : getKey k obj with
        | none => exact ((getKey_eq_none_iff _ _).mp e h).elim
        | some v => exact ⟨v, rfl⟩
      obtain ⟨v, hv⟩ := hsome
      by_cases hp : t.priority = "high" <;>
        simp [hk, hp, getKey_modifyKey, hv, countTask]
    · have hk : hasKey k obj = false := by
        cases e : hasKey k obj
        · rfl
        · exact (h ((hasKey_iff_mem _ _).mp e)).elim
      have hv : getKey k obj = none := (getKey_eq_none_iff _ _).mpr h
      by_cases hp : t.priority = "high" <;>
        simp [hk, hp, getKey_modifyKey, getKey_setKey, hv, countTask]
  · by_cases hk : hasKey id obj <;> by_cases hp : t.priority = "high" <;>
      simp [hk, hp, getKey_modifyKey, getKey_setKey, hd]

theorem truthyId_eq_true_iff (a : Option Nat) :
    truthyId a = true ↔ ∃ id, a = some id ∧ id ≠ 0 := by
  cases a with
  | none => simp [truthyId]
  | some n => simp [truthyId]

theorem keys_nodup_workload (tasks : List TaskRow) : ∀ obj : List (Nat × UserWorkload),
    (obj.map Prod.fst).Nodup → ((tasks.foldl workloadStep obj).map Prod.fst).Nodup := by
  induction tasks with
  | nil => intro obj h; exact h
  | cons t ts ih =>
    intro obj h
    rw [List.foldl_cons]
    apply ih
    cases htr : truthyId t.assignee_id
    · rw [workloadStep_skip obj t htr]; exact h
    · obtain ⟨id, ha, h0⟩ := (truthyId_eq_true_iff _).mp htr
      rw [keys_workloadStep obj t id ha h0]
      split_ifs with hm
      · exact h
      · exact List.Nodup.append h (List.nodup_singleton _) (by simpa using hm)

theorem keys_mem_workload (tasks : List TaskRow) (k : Nat) :
    ∀ obj : List (Nat × UserWorkload),
    k ∈ (tasks.foldl workloadStep obj).map Prod.fst
      ↔ k ∈ obj.map Prod.fst ∨ (k ≠ 0 ∧ ∃ t ∈ tasks, t.assignee_id = some k) := by
  induction tasks with
  | nil => intro obj; simp
  | cons t ts ih =>
    intro obj
    rw [List.foldl_cons, ih]
    cases htr : truthyId t.assignee_id
    · rw [workloadStep_skip obj t htr]
      constructor
      · rintro (h | ⟨h0, u, hu, e⟩)
        · exact Or.inl h
        · exact Or.inr ⟨h0, u, List.mem_cons_of_mem _ hu, e⟩
      · rintro (h | ⟨h0, u, hu, e⟩)
        · exact Or.inl h
        · rcases List.mem_cons.mp hu with rfl | hu
          · exfalso
            have : truthyId u.assignee_id = true := (truthyId_eq_true_iff _).mpr ⟨k, e, h0⟩
            rw [htr] at this
            exact Bool.false_ne_true this
          · exact Or.inr ⟨h0, u, hu, e⟩
    · obtain ⟨id, ha, h0⟩ := (truthyId_eq_true_iff _).mp htr
      rw [keys_workloadStep obj t id ha h0]
      split_ifs with hm
      · constructor
        · rintro (h | ⟨hk, u, hu, e⟩)
          · exact Or.inl h
          · exact Or.inr ⟨hk, u, List.mem_cons_of_mem _ hu, e⟩
        · rintro (h | ⟨hk, u, hu, e⟩)
          · exact Or.inl h
          · rcases List.mem_cons.mp hu with rfl | hu
            · rw [ha] at e
              cases e
              exact Or.inl hm
            · exact Or.inr ⟨hk, u, hu, e⟩
      · constructor
        · rintro (h | ⟨hk, u, hu, e⟩)
          · rcases List.mem_append.mp h with h | h
            · exact Or.inl h
            · rw [List.mem_singleton] at h
              subst h
              exact Or.inr ⟨h0, t, List.mem_cons_self _ _, ha⟩
          · exact Or.inr ⟨hk, u, List.mem_cons_of_mem _ hu, e⟩
        · rintro (h | ⟨hk, u, hu, e⟩)
          · exact Or.inl (List.mem_append_left _ h)
          · rcases List.mem_cons.mp hu with rfl | hu
            · rw [ha] at e
              cases e
              exact Or.inl (List.mem_append_right _ (List.mem_singleton.mpr rfl))
            · exact Or.inr ⟨hk, u, hu, e⟩

/-- Every record of `userWorkload` carries its own key as `userId`. -/
theorem userId_workload (tasks : List TaskRow) : ∀ obj : List (Nat × UserWorkload),
    (∀ k v, getKey k obj = some v → v.userId = k) →
    ∀ k v, getKey k (tasks.foldl workloadStep obj) = some v → v.userId = k := by
  induction tasks with
  | nil => intro obj h; exact h
  | cons t ts ih =>
    intro obj h
    rw [List.foldl_cons]
    apply ih
    intro k v hv
    cases htr : truthyId t.assignee_id
    · rw [workloadStep_skip obj t htr] at hv; exact h k v hv
    · obtain ⟨id, ha, h0⟩ := (truthyId_eq_true_iff _).mp htr
      rw [getKey_workloadStep obj t id k ha h0] at hv
      split_ifs at hv with hk
      · subst hk
        cases hv
        have hx : ((getKey k obj).getD (newUserWorkload k t)).userId = k := by
          cases e : getKey k obj with
          | none => rfl
          | some x => exact h k x e
        unfold countTask countStatus
        split_ifs <;> exact hx
      · exact h k v hv

/-- A counter of the record of assignee `a` counts the rows of `a` that the
loop counts under it. -/
theorem counter_workload (f : UserWorkload → Nat) (p : TaskRow → Bool)
    (hf : ∀ t u, f (countTask t u) = f u + if p t = true then 1 else 0)
    (hnew : ∀ id t, f (newUserWorkload id t) = 0)
    (a : Nat) (ha0 : a ≠ 0) (tasks : List TaskRow) :
    ∀ obj : List (Nat × UserWorkload),
    ((getKey a (tasks.foldl workloadStep obj)).map f).getD 0
      = ((getKey a obj).map f).getD 0
        + (tasks.filter (fun t => decide (t.assignee_id = some a) && p t)).length := by
  induction tasks with
  | nil => intro obj; simp
  | cons t ts ih =>
    intro obj
    rw [List.foldl_cons, ih]
    cases htr : truthyId t.assignee_id
    · rw [workloadStep_skip obj t htr]
      have hne : t.assignee_id ≠ some a := fun e => by
        have : truthyId t.assignee_id = true := (truthyId_eq_true_iff _).mpr ⟨a, e, ha0⟩
        rw [htr] at this
        exact Bool.false_ne_true this
      simp [List.filter_cons, hne]
    · obtain ⟨id, ha, h0⟩ := (truthyId_eq_true_iff _).mp htr
      rw [getKey_workloadStep obj t id a ha h0]
      by_cases hk : a = id
      · subst hk
        have hx : f ((getKey a obj).getD (newUserWorkload a t))
            = ((getKey a obj).map f).getD 0 := by
          cases e : getKey a obj with
          | none => simpa using hnew a t
          | some x => rfl
        simp only [if_true, Option.map_some', Option.getD_some, hf, hx, List.filter_cons, ha,
          decide_True, Bool.true_and]
        cases p t
        · simp
        · simp; omega
      · have hne : t.assignee_id ≠ some a := fun e => by
          rw [ha] at e
          cases e
          exact hk rfl
        simp [List.filter_cons, hne, hk]

theorem countTask_total (t : TaskRow) (u : UserWorkload) :
    (countTask t u).total = u.total + if (fun _ : TaskRow => true) t = true then 1 else 0 := by
  unfold countTask countStatus
  split_ifs <;> simp_all

theorem countTask_completed (t : TaskRow) (u : UserWorkload) :
    (countTask t u).completed
      = u.completed + if (fun t : TaskRow => decide (t.status = "已完成")) t = true then 1 else 0 := by
  unfold countTask countStatus
  split_ifs <;> simp_all

theorem countTask_inProgress (t : TaskRow) (u : UserWorkload) :
    (countTask t u).inProgress
      = u.inProgress + if (fun t : TaskRow => decide (t.status = "进行中")) t = true then 1 else 0 := by
  unfold countTask countStatus
  split_ifs <;> simp_all

theorem countTask_pending (t : TaskRow) (u : UserWorkload) :
    (countTask t u).pending
      = u.pending + if (fun t : TaskRow => decide (t.status = "待领取")) t = true then 1 else 0 := by
  unfold countTask countStatus
  split_ifs <;> simp_all

theorem countTask_overdue (t : TaskRow) (u : UserWorkload) :
    (countTask t u).overdue
      = u.overdue + if (fun t : TaskRow => decide (t.status = "已逾期")) t = true then 1 else 0 := by
  unfold countTask countStatus
  split_ifs <;> simp_all

theorem countTask_highPriority (t : TaskRow) (u : UserWorkload) :
    (countTask t u).highPriority
      = u.highPriority + if (fun t : TaskRow => decide (t.priority = "high")) t = true then 1 else 0 := by
  unfold countTask countStatus
  split_ifs <;> simp_all

/-- The counters of every per-user record, in terms of the rows. -/
theorem record_workload (tasks : List TaskRow) (r : WorkloadRecord)
    (hr : r ∈ (objectValues (tasks.foldl workloadStep [])).map withRate) :
    r.userId ≠ 0 ∧
    r.total = (tasks.filter (fun t => decide (t.assignee_id = some r.userId))).length ∧
    r.completed = (tasks.filter (fun t => decide (t.assignee_id = some r.userId)
      && decide (t.status = "已完成"))).length ∧
    r.inProgress = (tasks.filter (fun t => decide (t.assignee_id = some r.userId)
      && decide (t.status = "进行中"))).length ∧
    r.pending = (tasks.filter (fun t => decide (t.assignee_id = some r.userId)
      && decide (t.status = "待领取"))).length ∧
    r.overdue = (tasks.filter (fun t => decide (t.assignee_id = some r.userId)
      && decide (t.status = "已逾期"))).length ∧
    r.highPriority = (tasks.filter (fun t => decide (t.assignee_id = some r.userId)
      && decide (t.priority = "high"))).length ∧
    r.completionRate = completionRate r.completed r.total := by
  obtain ⟨u, hu, rfl⟩ := List.mem_map.mp hr
  obtain ⟨p, hp, rfl⟩ := (mem_objectValues _ _).mp hu
  have hn := keys_nodup_workload tasks [] List.nodup_nil
  have hget := mem_getKey _ hn p hp
  have hid : p.2.userId = p.1 :=
    userId_workload tasks [] (fun k v h => by simp [getKey] at h) p.1 p.2 hget
  have hk0 : p.1 ≠ 0 := by
    have := (keys_mem_workload tasks p.1 []).mp (List.mem_map_of_mem Prod.fst hp)
    simpa using this.resolve_left (by simp) |>.1
  have hc := fun f q hf hnew => counter_workload f q hf hnew p.1 hk0 tasks []
  simp only [hget, getKey, Option.map_some', Option.getD_some, Option.map_none',
    Option.getD_none, Nat.zero_add] at hc
  have htot := hc UserWorkload.total (fun _ => true) countTask_total (fun _ _ => rfl)
  simp only [Bool.and_true] at htot
  simp only [withRate, hid]
  exact ⟨hk0, htot,
    hc UserWorkload.completed _ countTask_completed (fun _ _ => rfl),
    hc UserWorkload.inProgress _ countTask_inProgress (fun _ _ => rfl),
    hc UserWorkload.pending _ countTask_pending (fun _ _ => rfl),
    hc UserWorkload.overdue _ countTask_overdue (fun _ _ => rfl),
    hc UserWorkload.highPriority _ countTask_highPriority (fun _ _ => rfl), trivial⟩

theorem getUserWorkloadStatistics_ok (tasks : List TaskRow) :
    getUserWorkloadStatistics { data := some tasks, error := none }
      = { data := some
            { userWorkloads := (objectValues (tasks.foldl workloadStep [])).map withRate
              summary :=
                { totalAssignedTasks := (tasks.filter (fun t => truthyId t.assignee_id)).length
                  unassignedTasks := (tasks.filter (fun t => !truthyId t.assignee_id)).length
                  averageTasksPerUser :=
                    if ((objectValues (tasks.foldl workloadStep [])).map withRate).length > 0 then
                      mathRound (Dbl.div
                        (Dbl.ofNat (tasks.filter (fun t => truthyId t.assignee_id)).length)
                        (Dbl.ofNat
                          ((objectValues (tasks.foldl workloadStep [])).map withRate).length))
                    else 0 } }
          error := none } := rfl

/-- Filtering by a stronger test keeps fewer rows. -/
theorem length_filter_and_le {α : Type} (p q : α → Bool) (rows : List α) :
    (rows.filter (fun r => p r && q r)).length ≤ (rows.filter p).length := by
  induction rows with
  | nil => simp
  | cons r rs ih =>
    simp only [List.filter_cons]
    cases p r <;> cases q r <;> simp <;> omega

/-! ## Completion rates -/

/-- C5: on 40 rows of one day of which 23 have status `已完成`, the summary of
`getTaskTrends` is `{totalCreated: 40, totalCompleted: 23, completionRate: 57}`,
whereas `round(100 × 23 / 40) = round(57.5)` is `58`: the quotient `23 / 40` is
rounded to a double before it is multiplied by `100`, and the product falls
just below `57.5`.  The tie `2.5` of 1 completed row in 40 is rounded up to
`3`, so the rate follows no rule for ties.  On the 10 rows of the
specification's scenario, 6 of them `已完成`, the single daily entry and the
summary are as stated. -/
theorem completionRate_23_of_40 :
    (getTaskTrends 30
        { data := some
            (List.replicate 23 ⟨"已完成", "low", 1730800000000, none, none, none, none⟩
              ++ List.replicate 17 ⟨"进行中", "low", 1730800000000, none, none, none, none⟩)
          error := none }).data.map TrendStatistics.summary
      = some { totalCreated := 40, totalCompleted := 23, completionRate := 57 } ∧
    specCompletionRate 23 40 = 58 ∧
    (getTaskTrends 30
        { data := some
            (List.replicate 1 ⟨"已完成", "low", 1730800000000, none, none, none, none⟩
              ++ List.replicate 39 ⟨"进行中", "low", 1730800000000, none, none, none, none⟩)
          error := none }).data.map TrendStatistics.summary
      = some { totalCreated := 40, totalCompleted := 1, completionRate := 3 } ∧
    specCompletionRate 1 40 = 3 ∧
    (getTaskTrends 7
        { data := some
            (List.replicate 6 ⟨"已完成", "low", 1730800000000, none, none, none, none⟩
              ++ List.replicate 4 ⟨"待领取", "low", 1730800000000, none, none, none, none⟩)
          error := none }).data.map (fun s => (s.dailyTrends, s.summary))
      = some ([{ date := "2024-11-05", created := 10, completed := 6 }],
          { totalCreated := 10, totalCompleted := 6, completionRate := 60 }) ∧
    specCompletionRate 6 10 = 60 := by
  refine ⟨by decide, by decide, by decide, by decide, by decide, by decide⟩

theorem getUserPersonalStats_ok (now thirtyDaysAgo : Int) (assignedTasks createdTasks :
    List TaskRow) :
    ∃ p, getUserPersonalStats now thirtyDaysAgo { data := some assignedTasks, error := none }
        { data := some createdTasks, error := none } = { data := some p, error := none } ∧
      p.assigned.total = assignedTasks.length ∧
      p.assigned.completed = (assignedTasks.filter (fun t => t.status = "已完成")).length ∧
      p.assigned.completionRate = completionRate p.assigned.completed p.assigned.total ∧
      p.created.total = createdTasks.length ∧
      p.created.completed = (createdTasks.filter (fun t => t.status = "已完成")).length ∧
      p.created.completionRate = completionRate p.created.completed p.created.total :=
  ⟨_, rfl, rfl, rfl, rfl, rfl, rfl, rfl⟩

/-- C6: every `completionRate` of the aggregation layer (the summary of
`getTaskTrends`, each record of `getUserWorkloadStatistics`, `assigned` and
`created` of `getUserPersonalStats`) is a whole number from 0 to 100, and it is
0 when the total it divides by is 0. -/
theorem completionRate_is_percentage (days : Nat) (now thirtyDaysAgo : Int)
    (tasks assignedTasks createdTasks : List TaskRow) :
    (∃ s, getTaskTrends days { data := some tasks, error := none }
        = { data := some s, error := none } ∧
      0 ≤ s.summary.completionRate ∧ s.summary.completionRate ≤ 100 ∧
      (s.summary.totalCreated = 0 → s.summary.completionRate = 0)) ∧
    (∃ w, getUserWorkloadStatistics { data := some tasks, error := none }
        = { data := some w, error := none } ∧
      ∀ r ∈ w.userWorkloads, 0 ≤ r.completionRate ∧ r.completionRate ≤ 100 ∧
        (r.total = 0 → r.completionRate = 0)) ∧
    (∃ p, getUserPersonalStats now thirtyDaysAgo { data := some assignedTasks, error := none }
        { data := some createdTasks, error := none } = { data := some p, error := none } ∧
      0 ≤ p.assigned.completionRate ∧ p.assigned.completionRate ≤ 100 ∧
      (p.assigned.total = 0 → p.assigned.completionRate = 0) ∧
      0 ≤ p.created.completionRate ∧ p.created.completionRate ≤ 100 ∧
      (p.created.total = 0 → p.created.completionRate = 0)) := by
  refine ⟨⟨_, getTaskTrends_ok days tasks, Nat.zero_le _, ?_, ?_⟩,
    ⟨_, getUserWorkloadStatistics_ok tasks, ?_⟩, ?_⟩
  · exact completionRate_le _ _ (List.length_filter_le _ _)
  · intro h
    show completionRate _ tasks.length = 0
    have h' : tasks.length = 0 := h
    rw [h']
    rfl
  · intro r hr
    obtain ⟨_, htot, hcomp, _, _, _, _, hrate⟩ := record_workload tasks r hr
    refine ⟨Nat.zero_le _, ?_, ?_⟩
    · rw [hrate]
      apply completionRate_le
      rw [htot, hcomp]
      exact length_filter_and_le _ _ _
    · intro h0
      rw [hrate, h0]
      rfl
  · obtain ⟨p, hp, hat, hac, har, hct, hcc, hcr⟩ :=
      getUserPersonalStats_ok now thirtyDaysAgo assignedTasks createdTasks
    refine ⟨p, hp, Nat.zero_le _, ?_, ?_, Nat.zero_le _, ?_, ?_⟩
    · rw [har]
      apply completionRate_le
      rw [hat, hac]
      exact List.length_filter_le _ _
    · intro h0
      rw [har, h0]
      rfl
    · rw [hcr]
      apply completionRate_le
      rw [hct, hcc]
      exact List.length_filter_le _ _
    · intro h0
      rw [hcr, h0]
      rfl

/-! ## `getCategoryStatistics` -/

theorem getCategoryStatistics_ok (categories : List CategoryRow) (tasks : List TaskRow) :
    getCategoryStatistics { data := some categories, error := none }
        { data := some tasks, error := none }
      = { data := some
            { total := categories.length
              categoryDistribution := categories.map (categoryStat tasks)
              mostUsedCategory :=
                (categories.map (categoryStat tasks)).foldl pickMax
                  (categories.map (categoryStat tasks)).head? }
          error := none } := rfl

/-- The reduction keeps the first element with the greatest `taskCount` among
those seen so far: `a` holds the elements before it and `b` those after it. -/
theorem foldl_pickMax (l : List CategoryStat) : ∀ (a : List CategoryStat) (m : CategoryStat)
    (b : List CategoryStat),
    (∀ c ∈ a, c.taskCount < m.taskCount) → (∀ c ∈ b, c.taskCount ≤ m.taskCount) →
    ∃ a2 m2 b2, l.foldl pickMax (some m) = some m2 ∧ a ++ m :: b ++ l = a2 ++ m2 :: b2 ∧
      (∀ c ∈ a2, c.taskCount < m2.taskCount) ∧ (∀ c ∈ b2, c.taskCount ≤ m2.taskCount) := by
  induction l with
  | nil =>
    intro a m b ha hb
    exact ⟨a, m, b, rfl, by simp, ha, hb⟩
  | cons x xs ih =>
    intro a m b ha hb
    rw [List.foldl_cons]
    by_cases hx : x.taskCount > m.taskCount
    · have hstep : pickMax (some m) x = some x := by simp [pickMax, hx]
      rw [hstep]
      obtain ⟨a2, m2, b2, h1, h2, h3, h4⟩ := ih (a ++ m :: b) x []
        (by
          intro c hc
          rcases List.mem_append.mp hc with h | h
          · exact Nat.lt_trans (ha c h) hx
          · rcases List.mem_cons.mp h with rfl | h
            · exact hx
            · exact Nat.lt_of_le_of_lt (hb c h) hx)
        (by simp)
      exact ⟨a2, m2, b2, h1, by simpa using h2, h3, h4⟩
    · have hstep : pickMax (some m) x = some m := by simp [pickMax, hx]
      rw [hstep]
      obtain ⟨a2, m2, b2, h1, h2, h3, h4⟩ := ih a m (b ++ [x]) ha
        (by
          intro c hc
          rcases List.mem_append.mp hc with h | h
          · exact hb c h
          · rw [List.mem_singleton] at h
            subst h
            omega)
      exact ⟨a2, m2, b2, h1, by simpa using h2, h3, h4⟩

/-- C7: `mostUsedCategory` is `null` exactly when there is no category;
otherwise it is the first category, in iteration order, whose `taskCount` is
maximal: every category before it has a strictly smaller `taskCount`, every
category after it has at most the same. -/
theorem mostUsedCategory_first_maximal (categories : List CategoryRow) (tasks : List TaskRow) :
    ∃ s, getCategoryStatistics { data := some categories, error := none }
        { data := some tasks, error := none } = { data := some s, error := none } ∧
      (s.mostUsedCategory = none ↔ categories = []) ∧
      (∀ m, s.mostUsedCategory = some m →
        ∃ before after, s.categoryDistribution = before ++ m :: after ∧
          (∀ c ∈ before, c.taskCount < m.taskCount) ∧
          (∀ c ∈ after, c.taskCount ≤ m.taskCount)) := by
  refine ⟨_, getCategoryStatistics_ok categories tasks, ?_, ?_⟩
  · cases categories with
    | nil => simp
    | cons c cs =>
      obtain ⟨a2, m2, b2, h1, _, _, _⟩ :=
        foldl_pickMax (cs.map (categoryStat tasks)) [] (categoryStat tasks c) []
          (by simp) (by simp)
      have hstep : pickMax (some (categoryStat tasks c)) (categoryStat tasks c)
          = some (categoryStat tasks c) := by simp [pickMax]
      simp [hstep, h1]
  · intro m hm
    cases categories with
    | nil => simp at hm
    | cons c cs =>
      obtain ⟨a2, m2, b2, h1, h2, h3, h4⟩ :=
        foldl_pickMax (cs.map (categoryStat tasks)) [] (categoryStat tasks c) []
          (by simp) (by simp)
      have hstep : pickMax (some (categoryStat tasks c)) (categoryStat tasks c)
          = some (categoryStat tasks c) := by simp [pickMax]
      simp only [List.map_cons, List.head?_cons, List.foldl_cons, hstep, h1,
        Option.some.injEq] at hm
      subst hm
      exact ⟨a2, b2, by simpa using h2, h3, h4⟩

/-- C8: `categoryDistribution` lists the categories in their order, each with
its own fields unchanged and with `taskCount` the number of task rows whose
`category_id` is the category's; `total` is the number of categories. -/
theorem categoryDistribution_counts (categories : List CategoryRow) (tasks : List TaskRow) :
    ∃ s, getCategoryStatistics { data := some categories, error := none }
        { data := some tasks, error := none } = { data := some s, error := none } ∧
      s.total = categories.length ∧
      s.categoryDistribution.map CategoryStat.toCategoryRow = categories ∧
      ∀ e ∈ s.categoryDistribution,
        e.taskCount = (tasks.filter (fun t => t.category_id = some e.category_id)).length := by
  refine ⟨_, getCategoryStatistics_ok categories tasks, rfl, ?_, ?_⟩
  · show (categories.map (categoryStat tasks)).map CategoryStat.toCategoryRow = categories
    rw [List.map_map]
    exact List.map_id _
  · intro e he
    obtain ⟨c, _, rfl⟩ := List.mem_map.mp he
    rfl

/-! ## `getUserWorkloadStatistics` -/

/-- C9: in the workload summary, `totalAssignedTasks + unassignedTasks` is the
number of task rows. -/
theorem assigned_plus_unassigned (tasks : List TaskRow) :
    ∃ s, getUserWorkloadStatistics { data := some tasks, error := none }
        = { data := some s, error := none } ∧
      s.summary.totalAssignedTasks + s.summary.unassignedTasks = tasks.length :=
  ⟨_, getUserWorkloadStatistics_ok tasks, length_filter_not _ tasks⟩

/-- C10: in every record of `userWorkloads`, `total` is the number of rows
assigned to the record's user, `completed`, `inProgress`, `pending` and
`overdue` are the numbers of those rows whose stored status is `已完成`,
`进行中`, `待领取` and `已逾期`, and `highPriority` is the number of those rows
with priority `high`; no date enters the count. -/
theorem userWorkloads_counts (tasks : List TaskRow) :
    ∃ s, getUserWorkloadStatistics { data := some tasks, error := none }
        = { data := some s, error := none } ∧
      ∀ r ∈ s.userWorkloads,
        r.total = (tasks.filter (fun t => t.assignee_id = some r.userId)).length ∧
        r.completed = (tasks.filter (fun t => decide (t.assignee_id = some r.userId)
          && decide (t.status = "已完成"))).length ∧
        r.inProgress = (tasks.filter (fun t => decide (t.assignee_id = some r.userId)
          && decide (t.status = "进行中"))).length ∧
        r.pending = (tasks.filter (fun t => decide (t.assignee_id = some r.userId)
          && decide (t.status = "待领取"))).length ∧
        r.overdue = (tasks.filter (fun t => decide (t.assignee_id = some r.userId)
          && decide (t.status = "已逾期"))).length ∧
        r.highPriority = (tasks.filter (fun t => decide (t.assignee_id = some r.userId)
          && decide (t.priority = "high"))).length := by
  refine ⟨_, getUserWorkloadStatistics_ok tasks, ?_⟩
  intro r hr
  obtain ⟨_, h1, h2, h3, h4, h5, h6, _⟩ := record_workload tasks r hr
  exact ⟨h1, h2, h3, h4, h5, h6⟩

/-! ## The average of the workload summary -/

/-- A quotient that is an integer is rounded to itself. -/
theorem roundHalfEven_exact (a d : Nat) (hd : 0 < d) (h : a % d = 0) :
    roundHalfEven a d = a / d := by
  unfold roundHalfEven
  simp only [h]
  rw [if_pos (by omega)]

/-- A quotient below `2^52` is scaled up at least once. -/
theorem scaleUp_pos (n d : Nat) (h : n < 2 ^ 52 * d) : 0 < scaleUp (53 + d) n d := by
  have e : 53 + d = (52 + d) + 1 := by omega
  rw [e]
  unfold scaleUp
  rw [if_neg (by omega)]
  omega

/-- At a tie `k + 1/2` the quotient is a double, and `Math.round` takes it up. -/
theorem mathRound_div_tie (a n k : Nat) (hn : 0 < n) (ha : a < 2 ^ 52)
    (htie : 2 * a = (2 * k + 1) * n) :
    mathRound (Dbl.div (Dbl.ofNat a) (Dbl.ofNat n)) = k + 1 := by
  have hdiv : Dbl.div (Dbl.ofNat a) (Dbl.ofNat n) = Dbl.round (a * 1) (1 * n) := rfl
  have hapos : 0 < a := by
    rcases Nat.eq_zero_or_pos a with h0 | h0
    · subst h0
      have : 0 < (2 * k + 1) * n := Nat.mul_pos (by omega) hn
      omega
    · exact h0
  have hsmall : a * 1 < 2 ^ 52 * (1 * n) := by
    have : 2 ^ 52 * 1 ≤ 2 ^ 52 * n := Nat.mul_le_mul_left _ hn
    omega
  rw [hdiv, Dbl.round_small (a * 1) (1 * n) (by omega) hsmall]
  have hi := scaleUp_pos (a * 1) (1 * n) hsmall
  generalize scaleUp (53 + 1 * n) (a * 1) (1 * n) = i at *
  obtain ⟨j, rfl⟩ : ∃ j, i = j + 1 := ⟨i - 1, by omega⟩
  have hA : a * 1 * 2 ^ (j + 1) = ((2 * k + 1) * 2 ^ j) * (1 * n) := by
    rw [Nat.pow_succ]
    calc a * 1 * (2 ^ j * 2) = (2 * a) * 2 ^ j := by ring
      _ = ((2 * k + 1) * n) * 2 ^ j := by rw [htie]
      _ = ((2 * k + 1) * 2 ^ j) * (1 * n) := by ring
  have hm : roundHalfEven (a * 1 * 2 ^ (j + 1)) (1 * n) = (2 * k + 1) * 2 ^ j := by
    rw [roundHalfEven_exact _ _ (by omega) (by rw [hA]; exact Nat.mul_mod_left _ _), hA]
    exact Nat.mul_div_cancel _ (by omega)
  rw [hm]
  unfold mathRound
  show (2 * ((2 * k + 1) * 2 ^ j) + 2 ^ (j + 1)) / (2 * 2 ^ (j + 1)) = k + 1
  have hp : 0 < 2 ^ j := Nat.pos_pow_of_pos _ (by decide)
  have e : 2 * ((2 * k + 1) * 2 ^ j) + 2 ^ (j + 1) = (k + 1) * (2 * 2 ^ (j + 1)) := by
    rw [Nat.pow_succ]; ring
  rw [e]
  exact Nat.mul_div_cancel _ (by rw [Nat.pow_succ]; omega)

/-- `Math.round` of a value: the bracket that defines it. -/
theorem mathRound_bracket (p : Dbl) (hp : 0 < p.den) :
    (mathRound p : ℚ) - 1 / 2 ≤ (p.num : ℚ) / p.den ∧
    (p.num : ℚ) / p.den < (mathRound p : ℚ) + 1 / 2 := by
  have hpd : (0 : ℚ) < p.den := by exact_mod_cast hp
  have hfloor1 : mathRound p * (2 * p.den) ≤ 2 * p.num + p.den := Nat.div_mul_le_self _ _
  have hfloor2 : 2 * p.num + p.den < (mathRound p + 1) * (2 * p.den) := by
    have hdm := Nat.div_add_mod (2 * p.num + p.den) (2 * p.den)
    have hml := Nat.mod_lt (2 * p.num + p.den) (by omega : 0 < 2 * p.den)
    unfold mathRound
    rw [Nat.add_mul, Nat.one_mul, Nat.mul_comm ((2 * p.num + p.den) / (2 * p.den)) (2 * p.den)]
    omega
  generalize mathRound p = r at *
  constructor
  · rw [le_div_iff₀ hpd]
    have : ((r * (2 * p.den) : ℕ) : ℚ) ≤ ((2 * p.num + p.den : ℕ) : ℚ) := by
      exact_mod_cast hfloor1
    push_cast at this
    linarith
  · rw [div_lt_iff₀ hpd]
    have : ((2 * p.num + p.den : ℕ) : ℚ) < (((r + 1) * (2 * p.den) : ℕ) : ℚ) := by
      exact_mod_cast hfloor2
    push_cast at this
    linarith

/-- Away from a tie, rounding the quotient to a double does not move it across
a half-integer. -/
theorem mathRound_div_no_tie (a n : Nat) (hn : 0 < n) (ha0 : 0 < a) (ha : a < 2 ^ 52)
    (hnt : ∀ k, 2 * a ≠ (2 * k + 1) * n) :
    mathRound (Dbl.div (Dbl.ofNat a) (Dbl.ofNat n)) = (2 * a + n) / (2 * n) := by
  have hdiv : Dbl.div (Dbl.ofNat a) (Dbl.ofNat n) = Dbl.round (a * 1) (1 * n) := rfl
  have hsmall : a * 1 < 2 ^ 52 * (1 * n) := by
    have : 2 ^ 52 * 1 ≤ 2 ^ 52 * n := Nat.mul_le_mul_left _ hn
    omega
  obtain ⟨hden, herr⟩ := Dbl.round_rel (a * 1) (1 * n) (by omega) hsmall
  rw [hdiv]
  obtain ⟨hb1, hb2⟩ := mathRound_bracket (Dbl.round (a * 1) (1 * n)) hden
  generalize Dbl.round (a * 1) (1 * n) = q at *
  generalize mathRound q = r at *
  have hN : (0 : ℚ) < n := by exact_mod_cast hn
  have hA : (a : ℚ) < 4503599627370496 := by
    have : a < 4503599627370496 := by norm_num at ha; exact ha
    exact_mod_cast this
  have e1 : ((a * 1 : ℕ) : ℚ) / ((1 * n : ℕ) : ℚ) = (a : ℚ) / n := by simp
  rw [e1, abs_le] at herr
  have hXN : (a : ℚ) / n * n = a := div_mul_cancel₀ _ (ne_of_gt hN)
  symm
  apply Nat.div_eq_of_lt_le
  · by_contra hneg
    have hlt : 2 * a + n + 1 ≤ r * (2 * n) := by omega
    have hq : 2 * (a : ℚ) + n + 1 ≤ 2 * ((r : ℚ) * n) := by
      rw [show 2 * ((r : ℚ) * n) = r * (2 * n) by ring]
      exact_mod_cast hlt
    have h1 : (r : ℚ) - 1 / 2 ≤ (a : ℚ) / n + (a : ℚ) / n / 9007199254740992 := by
      have := herr.2
      norm_num at this
      linarith
    have h2 := mul_le_mul_of_nonneg_right h1 (le_of_lt hN)
    have e : ((a : ℚ) / n + (a : ℚ) / n / 9007199254740992) * n
        = (a : ℚ) / n * n + (a : ℚ) / n * n / 9007199254740992 := by ring
    have e3 : ((r : ℚ) - 1 / 2) * n = r * n - n / 2 := by ring
    rw [e, hXN, e3] at h2
    linarith
  · by_contra hneg
    have hge : (2 * r + 1) * n ≤ 2 * a := by
      have e : (r + 1) * (2 * n) = (2 * r + 1) * n + n := by ring
      omega
    have hne := hnt r
    have hgt : (2 * r + 1) * n + 1 ≤ 2 * a := by omega
    have hq : 2 * ((r : ℚ) * n) + n + 1 ≤ 2 * a := by
      rw [show 2 * ((r : ℚ) * n) + n + 1 = (2 * (r : ℚ) + 1) * n + 1 by ring]
      exact_mod_cast hgt
    have h1 : (a : ℚ) / n - (a : ℚ) / n / 9007199254740992 < (r : ℚ) + 1 / 2 := by
      have := herr.1
      norm_num at this
      linarith
    have h2 := mul_lt_mul_of_pos_right h1 hN
    have e : ((a : ℚ) / n - (a : ℚ) / n / 9007199254740992) * n
        = (a : ℚ) / n * n - (a : ℚ) / n * n / 9007199254740992 := by ring
    have e3 : ((r : ℚ) + 1 / 2) * n = r * n + n / 2 := by ring
    rw [e, hXN, e3] at h2
    linarith

/-- For operands below `2^52`, `Math.round(a / n)` is the nearest integer to
the exact quotient, a tie going up. -/
theorem mathRound_div (a n : Nat) (hn : 0 < n) (ha : a < 2 ^ 52) :
    mathRound (Dbl.div (Dbl.ofNat a) (Dbl.ofNat n)) = (2 * a + n) / (2 * n) := by
  by_cases htie : ∃ k, 2 * a = (2 * k + 1) * n
  · obtain ⟨k, hk⟩ := htie
    rw [mathRound_div_tie a n k hn ha hk]
    symm
    apply Nat.div_eq_of_lt_le
    · have e : (k + 1) * (2 * n) = (2 * k + 1) * n + n := by ring
      omega
    · have e : (k + 1 + 1) * (2 * n) = (2 * k + 1) * n + n + 2 * n := by ring
      omega
  · rcases Nat.eq_zero_or_pos a with h0 | h0
    · subst h0
      have hz : mathRound (Dbl.div (Dbl.ofNat 0) (Dbl.ofNat n)) = 0 := by
        simp [Dbl.div, Dbl.ofNat, Dbl.round, mathRound]
      rw [hz]
      symm
      apply Nat.div_eq_of_lt
      omega
    · exact mathRound_div_no_tie a n hn h0 ha (fun k hk => htie ⟨k, hk⟩)

/-- C11: `summary.averageTasksPerUser` is `round(totalAssignedTasks /
distinctAssigneeCount)`, the nearest integer with a tie going up, where the
count of assignees is the number of per-user records, and it is 0 when there
is no assignee.  The row list is a JavaScript array, so it has fewer than
`2^32` rows. -/
theorem averageTasksPerUser_rounds (tasks : List TaskRow) (hlen : tasks.length < 2 ^ 32) :
    ∃ s, getUserWorkloadStatistics { data := some tasks, error := none }
        = { data := some s, error := none } ∧
      s.summary.averageTasksPerUser
        = specAverage s.summary.totalAssignedTasks s.userWorkloads.length ∧
      (s.userWorkloads.length = 0 → s.summary.averageTasksPerUser = 0) := by
  refine ⟨_, getUserWorkloadStatistics_ok tasks, ?_, ?_⟩
  · show (if ((objectValues (tasks.foldl workloadStep [])).map withRate).length > 0 then
        mathRound (Dbl.div
          (Dbl.ofNat (tasks.filter (fun t => truthyId t.assignee_id)).length)
          (Dbl.ofNat ((objectValues (tasks.foldl workloadStep [])).map withRate).length))
      else 0)
      = specAverage (tasks.filter (fun t => truthyId t.assignee_id)).length
          ((objectValues (tasks.foldl workloadStep [])).map withRate).length
    have hle : (tasks.filter (fun t => truthyId t.assignee_id)).length ≤ tasks.length :=
      List.length_filter_le _ _
    generalize ((objectValues (tasks.foldl workloadStep [])).map withRate).length = n
    generalize (tasks.filter (fun t => truthyId t.assignee_id)).length = a at hle
    unfold specAverage
    rcases Nat.eq_zero_or_pos n with h0 | hpos
    · subst h0
      rfl
    · rw [if_pos hpos, if_neg (by omega)]
      apply mathRound_div a n hpos
      have : (2 : Nat) ^ 32 ≤ 2 ^ 52 := by decide
      omega
  · intro h0
    have h1 : ((objectValues (tasks.foldl workloadStep [])).map withRate).length = 0 := h0
    show (if ((objectValues (tasks.foldl workloadStep [])).map withRate).length > 0 then _ else 0)
      = 0
    rw [if_neg (by omega)]

/-- Three rows for two assignees: the average `1.5` is rounded to `2`. -/
theorem averageTasksPerUser_rounds_witness :
    ∃ s, getUserWorkloadStatistics
          { data := some
              [⟨"进行中", "low", 0, none, none, some 1, some "ann"⟩,
                ⟨"进行中", "low", 0, none, none, some 1, some "ann"⟩,
                ⟨"已完成", "high", 0, none, none, some 2, some "bob"⟩]
            error := none }
        = { data := some s, error := none } ∧
      s.summary.averageTasksPerUser
        = specAverage s.summary.totalAssignedTasks s.userWorkloads.length ∧
      (s.userWorkloads.length = 0 → s.summary.averageTasksPerUser = 0) :=
  averageTasksPerUser_rounds _ (by decide)

/-! ## `getUserPersonalStats` -/

theorem isOverdueAt_iff (now : Int) (t : TaskRow) :
    isOverdueAt now t = true
      ↔ (∃ due, t.due_date = some due ∧ due < now) ∧ t.status ≠ "已完成" := by
  unfold isOverdueAt
  cases h : t.due_date with
  | none => simp
  | some due => simp

theorem getUserPersonalStats_recent (now thirtyDaysAgo : Int) (assignedTasks createdTasks :
    List TaskRow) :
    ∃ p, getUserPersonalStats now thirtyDaysAgo { data := some assignedTasks, error := none }
        { data := some createdTasks, error := none } = { data := some p, error := none } ∧
      p.assigned.total = assignedTasks.length ∧
      p.assigned.overdue = (assignedTasks.filter (isOverdueAt now)).length ∧
      p.recentActivity.assignedLast30Days
        = (assignedTasks.filter (fun t => decide (thirtyDaysAgo ≤ t.created_at))).length ∧
      p.recentActivity.completedLast30Days
        = (assignedTasks.filter (fun t => decide (t.status = "已完成")
            && decide (thirtyDaysAgo ≤ t.created_at))).length :=
  ⟨_, rfl, rfl, rfl, rfl, rfl⟩

/-- Rows that agree on `due_date` and on being completed are overdue together. -/
theorem isOverdueAt_relabel (now : Int) (relabel : String → String)
    (h : ∀ s, relabel s = "已完成" ↔ s = "已完成") (t : TaskRow) :
    isOverdueAt now { t with status := relabel t.status } = isOverdueAt now t := by
  unfold isOverdueAt
  cases hd : t.due_date with
  | none => simp [hd]
  | some due =>
    simp only [hd]
    by_cases hs : t.status = "已完成"
    · have := (h t.status).mpr hs
      rw [hs] at this
      simp [hs, this]
    · have : ¬ relabel t.status = "已完成" := fun e => hs ((h t.status).mp e)
      simp [hs, this]

/-- C12: `assigned.overdue` is the number of assigned rows whose `due_date` is
set and earlier than `now` and whose status is not `已完成`.  The stored status
`已逾期` plays no part: renaming the statuses other than `已完成` leaves the count
as it is, and when every row is completed or has no `due_date` the count is 0
whatever the statuses say. -/
theorem overdue_is_derived_from_due_date (now thirtyDaysAgo : Int)
    (assignedTasks createdTasks : List TaskRow) :
    ∃ p, getUserPersonalStats now thirtyDaysAgo { data := some assignedTasks, error := none }
        { data := some createdTasks, error := none } = { data := some p, error := none } ∧
      p.assigned.overdue = (assignedTasks.filter (isOverdueAt now)).length ∧
      (∀ t, isOverdueAt now t = true
        ↔ (∃ due, t.due_date = some due ∧ due < now) ∧ t.status ≠ "已完成") ∧
      (∀ relabel : String → String, (∀ s, relabel s = "已完成" ↔ s = "已完成") →
        ∃ q, getUserPersonalStats now thirtyDaysAgo
            { data := some (assignedTasks.map (fun t => { t with status := relabel t.status }))
              error := none }
            { data := some createdTasks, error := none } = { data := some q, error := none } ∧
          q.assigned.overdue = p.assigned.overdue) ∧
      ((∀ t ∈ assignedTasks, t.due_date = none ∨ t.status = "已完成") →
        p.assigned.overdue = 0) := by
  obtain ⟨p, hp, _, hov, _, _⟩ :=
    getUserPersonalStats_recent now thirtyDaysAgo assignedTasks createdTasks
  refine ⟨p, hp, hov, isOverdueAt_iff now, ?_, ?_⟩
  · intro relabel hre
    obtain ⟨q, hq, _, hqov, _, _⟩ := getUserPersonalStats_recent now thirtyDaysAgo
      (assignedTasks.map (fun t => { t with status := relabel t.status })) createdTasks
    refine ⟨q, hq, ?_⟩
    rw [hqov, hov, List.filter_map, List.length_map]
    congr 1
    apply List.filter_congr
    intro t _
    exact isOverdueAt_relabel now relabel hre t
  · intro hall
    rw [hov, List.length_eq_zero, List.filter_eq_nil_iff]
    intro t ht hover
    obtain ⟨⟨due, hdue, _⟩, hst⟩ := (isOverdueAt_iff now t).mp hover
    rcases hall t ht with h | h
    · rw [h] at hdue
      cases hdue
    · exact hst h

/-- C13: `recentActivity.assignedLast30Days` is the number of assigned rows
whose `created_at` is at or after the instant thirty days before the clock
reading, `completedLast30Days` is the number of those same rows whose status is
`已完成`, and `completedLast30Days <= assignedLast30Days <= assigned.total`.  The
instant is the same local time thirty calendar days earlier; where the zone
offset is the same at both ends it is the clock reading minus
2 592 000 000 ms. -/
theorem recentActivity_counts (tza : Int → Bool → Int) (now clock : Int)
    (assignedTasks createdTasks : List TaskRow) :
    ∃ p, getUserPersonalStats now (thirtyDaysBefore tza clock)
        { data := some assignedTasks, error := none }
        { data := some createdTasks, error := none } = { data := some p, error := none } ∧
      p.recentActivity.assignedLast30Days
        = (assignedTasks.filter
            (fun t => decide (thirtyDaysBefore tza clock ≤ t.created_at))).length ∧
      p.recentActivity.completedLast30Days
        = ((assignedTasks.filter
            (fun t => decide (thirtyDaysBefore tza clock ≤ t.created_at))).filter
              (fun t => t.status = "已完成")).length ∧
      p.recentActivity.completedLast30Days ≤ p.recentActivity.assignedLast30Days ∧
      p.recentActivity.assignedLast30Days ≤ p.assigned.total ∧
      (tza (clock + tza clock true - 30 * 86400000) false = tza clock true →
        thirtyDaysBefore tza clock = clock - 2592000000) := by
  obtain ⟨p, hp, htot, _, h30, hc30⟩ :=
    getUserPersonalStats_recent now (thirtyDaysBefore tza clock) assignedTasks createdTasks
  have hc : p.recentActivity.completedLast30Days
      = ((assignedTasks.filter
          (fun t => decide (thirtyDaysBefore tza clock ≤ t.created_at))).filter
            (fun t => t.status = "已完成")).length := by
    rw [hc30, List.filter_filter]
  refine ⟨p, hp, h30, hc, ?_, ?_, ?_⟩
  · rw [hc, h30]
    exact List.length_filter_le _ _
  · rw [h30, htot]
    exact List.length_filter_le _ _
  · intro h
    unfold thirtyDaysBefore
    simp only []
    rw [h]
    omega

/-! ## `authenticateUser` -/

theorem getKey_withoutPassword (key : String) (user : Obj) :
    getKey key (withoutPassword user) = if key = "password" then none else getKey key user := by
  unfold withoutPassword
  induction user with
  | nil => simp [getKey]
  | cons p rest ih =>
    by_cases hp : p.1 = "password"
    · by_cases hk : key = "password"
      · simp [List.filter_cons, hp, hk] at ih ⊢
        exact ih
      · have hne : ¬ "password" = key := fun e => hk e.symm
        simp [List.filter_cons, hp, hk, getKey, hne] at ih ⊢
        exact ih
    · by_cases hk : key = "password"
      · have hne : ¬ p.1 = key := fun e => hp (e.trans hk)
        simp [List.filter_cons, hp, hk, getKey] at ih ⊢
        exact ih
      · by_cases hpk : p.1 = key
        · simp [List.filter_cons, hp, hk, getKey, hpk]
        · simp [List.filter_cons, hp, hk, getKey, hpk] at ih ⊢
          exact ih

/-- The outcomes of `authenticateUser`, by the store's answer. -/
theorem authenticateUser_cases (store : Store Obj) (username password : String) :
    (∀ reason, store (authenticateUserQuery username) = Awaited.rejected reason →
      authenticateUser store username password
        = { data := none, error := some (Failure.text "登录验证失败，请稍后重试"), success := false }) ∧
    (∀ d e, store (authenticateUserQuery username)
        = Awaited.resolved { data := d, error := some e } →
      authenticateUser store username password = wrongCredentials) ∧
    (store (authenticateUserQuery username) = Awaited.resolved { data := none, error := none } →
      authenticateUser store username password = wrongCredentials) ∧
    (∀ user, store (authenticateUserQuery username)
        = Awaited.resolved { data := some user, error := none } →
      getKey "password" user ≠ some (Val.str password) →
      authenticateUser store username password = wrongCredentials) ∧
    (∀ user, store (authenticateUserQuery username)
        = Awaited.resolved { data := some user, error := none } →
      getKey "password" user = some (Val.str password) →
      authenticateUser store username password
        = { data := some (withoutPassword user), error := none, success := true }) := by
  refine ⟨?_, ?_, ?_, ?_, ?_⟩
  · intro reason h
    unfold authenticateUser
    rw [h]
  · intro d e h
    unfold authenticateUser
    rw [h]
  · intro h
    unfold authenticateUser
    rw [h]
  · intro user h hne
    unfold authenticateUser
    rw [h]
    simp only [hne, if_false]
  · intro user h heq
    unfold authenticateUser
    rw [h]
    simp only [heq, if_true]

/-- C14: `authenticateUser` returns `success = true` exactly when the store
answers the unique-row fetch for the username with a row and no error and the
row's `password` is exactly the supplied one.  Then `error` is `null` and `data`
is the row without its `password`, every other property unchanged; in every
other case `data` is `null` and `success` is `false`. -/
theorem authenticateUser_success_iff (store : Store Obj) (username password : String) :
    ((authenticateUser store username password).success = true
      ↔ ∃ user, store (authenticateUserQuery username)
            = Awaited.resolved { data := some user, error := none } ∧
          getKey "password" user = some (Val.str password)) ∧
    (∀ user, store (authenticateUserQuery username)
        = Awaited.resolved { data := some user, error := none } →
      getKey "password" user = some (Val.str password) →
      authenticateUser store username password
          = { data := some (withoutPassword user), error := none, success := true } ∧
        withoutPassword user = user.filter (fun p => p.1 != "password") ∧
        getKey "password" (withoutPassword user) = none ∧
        ∀ key, key ≠ "password" → getKey key (withoutPassword user) = getKey key user) ∧
    ((authenticateUser store username password).success = false →
      (authenticateUser store username password).data = none ∧
      (authenticateUser store username password).error ≠ none) := by
  obtain ⟨hrej, herr, hnone, hbad, hgood⟩ := authenticateUser_cases store username password
  refine ⟨?_, ?_, ?_⟩
  · constructor
    · intro hs
      cases hst : store (authenticateUserQuery username) with
      | rejected reason => rw [hrej reason hst] at hs; cases hs
      | resolved reply =>
        obtain ⟨d, e⟩ := reply
        cases e with
        | some e => rw [herr d e hst] at hs; cases hs
        | none =>
          cases d with
          | none => rw [hnone hst] at hs; cases hs
          | some user =>
            by_cases hp : getKey "password" user = some (Val.str password)
            · exact ⟨user, rfl, hp⟩
            · rw [hbad user hst hp] at hs; cases hs
    · rintro ⟨user, hst, hp⟩
      rw [hgood user hst hp]
  · intro user hst hp
    refine ⟨hgood user hst hp, rfl, ?_, ?_⟩
    · rw [getKey_withoutPassword]; simp
    · intro key hk
      rw [getKey_withoutPassword]; simp [hk]
  · intro hs
    cases hst : store (authenticateUserQuery username) with
    | rejected reason => rw [hrej reason hst]; exact ⟨rfl, by simp⟩
    | resolved reply =>
      obtain ⟨d, e⟩ := reply
      cases e with
      | some e => rw [herr d e hst]; exact ⟨rfl, by simp [wrongCredentials]⟩
      | none =>
        cases d with
        | none => rw [hnone hst]; exact ⟨rfl, by simp [wrongCredentials]⟩
        | some user =>
          by_cases hp : getKey "password" user = some (Val.str password)
          · rw [hgood user hst hp] at hs; cases hs
          · rw [hbad user hst hp]; exact ⟨rfl, by simp [wrongCredentials]⟩

/-! ## The table `users` behind the store -/

theorem splitCommas_userColumns :
    splitCommas "user_id,username,password,role,created_at".toList
      = ["user_id".toList, "username".toList, "password".toList, "role".toList,
          "created_at".toList] := by
  decide

theorem project_user (u : UserRecord) :
    project "user_id,username,password,role,created_at" u.toObj = u.toObj := by
  unfold project
  rw [if_neg (by decide), splitCommas_userColumns]
  simp [UserRecord.toObj, getKey, List.filterMap]

theorem holds_eq_username (orHolds : String → Obj → Bool) (u : UserRecord) (username : String) :
    Filter.holds orHolds u.toObj (Filter.eq "username" (Val.str username)) = true
      ↔ u.username = username := by
  simp [Filter.holds, UserRecord.toObj, getKey]

theorem holds_neq_user_id (orHolds : String → Obj → Bool) (u : UserRecord) (uid : Nat) :
    Filter.holds orHolds u.toObj (Filter.neq "user_id" (Val.num uid)) = true
      ↔ u.user_id ≠ uid := by
  simp [Filter.holds, UserRecord.toObj, getKey]

theorem selectedRows_authenticate (orHolds : String → Obj → Bool) (users : List UserRecord)
    (username : String) :
    selectedRows orHolds (users.map UserRecord.toObj) (authenticateUserQuery username)
        "user_id,username,password,role,created_at"
      = (users.filter (fun u => u.username = username)).map UserRecord.toObj := by
  unfold selectedRows
  rw [List.filter_map, List.map_map]
  have hf : ((fun row => (authenticateUserQuery username).filters.all (Filter.holds orHolds row))
      ∘ UserRecord.toObj) = fun u : UserRecord => decide (u.username = username) := by
    funext u
    have h := holds_eq_username orHolds u username
    simp only [authenticateUserQuery, fromTable, Query.eq, Query.single, Function.comp,
      List.nil_append, List.all_cons, List.all_nil, Bool.and_true]
    by_cases hu : u.username = username
    · rw [h.mpr hu]; simp [hu]
    · have : Filter.holds orHolds u.toObj (Filter.eq "username" (Val.str username)) = false := by
        cases e : Filter.holds orHolds u.toObj (Filter.eq "username" (Val.str username))
        · rfl
        · exact (hu (h.mp e)).elim
      rw [this]; simp [hu]
  rw [hf]
  apply List.map_congr_left
  intro u _
  exact project_user u

/-- Against a table in which no row has both the username and the password,
`authenticateUser` gives the generic failure, whether the username has a row or
not. -/
theorem authenticateUser_table (orHolds : String → Obj → Bool) (users : List UserRecord)
    (username password : String)
    (h : ∀ u ∈ users, u.username = username → u.password ≠ password) :
    authenticateUser (fetchOne orHolds (users.map UserRecord.toObj)) username password
      = wrongCredentials := by
  have hsel := selectedRows_authenticate orHolds users username
  have hstore : fetchOne orHolds (users.map UserRecord.toObj) (authenticateUserQuery username)
      = match (users.filter (fun u => u.username = username)).map UserRecord.toObj with
        | [row] => Awaited.resolved { data := some row, error := none }
        | _ => Awaited.resolved
            { data := none
              error := some
                (Failure.store "JSON object requested, multiple (or no) rows returned") } := by
    rw [← hsel]
    rfl
  obtain ⟨_, herr, _, hbad, _⟩ :=
    authenticateUser_cases (fetchOne orHolds (users.map UserRecord.toObj)) username password
  cases hl : users.filter (fun u => u.username = username) with
  | nil =>
    rw [hl] at hstore
    exact herr _ _ hstore
  | cons u rest =>
    cases rest with
    | nil =>
      rw [hl] at hstore
      have hu : u ∈ users.filter (fun u => u.username = username) := by
        rw [hl]; exact List.mem_cons_self _ _
      obtain ⟨hmem, hname⟩ := List.mem_filter.mp hu
      apply hbad u.toObj hstore
      have hpw := h u hmem (of_decide_eq_true hname)
      simp [UserRecord.toObj, getKey, hpw]
    | cons v rest2 =>
      rw [hl] at hstore
      exact herr _ _ hstore

/-- C15: a password mismatch and a failure reported by the store give the same
result `{ data: null, error: '用户名或密码错误', success: false }`, so against
every users table the result for an existing user with a wrong password is the
result for a username that has no row; an exception gives a second result that
does not depend on the user either.  Against the stored password `admin123`, `admin` with `wrong`
fails like `nobody` does. -/
theorem authenticateUser_generic_failure (store : Store Obj) (username password : String) :
    (∀ d e, store (authenticateUserQuery username)
        = Awaited.resolved { data := d, error := some e } →
      authenticateUser store username password = wrongCredentials) ∧
    (∀ user, store (authenticateUserQuery username)
        = Awaited.resolved { data := some user, error := none } →
      getKey "password" user ≠ some (Val.str password) →
      authenticateUser store username password = wrongCredentials) ∧
    (∀ reason, store (authenticateUserQuery username) = Awaited.rejected reason →
      authenticateUser store username password
        = { data := none, error := some (Failure.text "登录验证失败，请稍后重试"), success := false }) ∧
    wrongCredentials.data = none ∧ wrongCredentials.success = false ∧
    (∀ (orHolds : String → Obj → Bool) (users : List UserRecord),
      (∀ u ∈ users, u.username = username → u.password ≠ password) →
      authenticateUser (fetchOne orHolds (users.map UserRecord.toObj)) username password
        = wrongCredentials) ∧
    authenticateUser
        (fetchOne (fun _ _ => false)
          [UserRecord.toObj ⟨1, "admin", "admin123", "admin", "2024-01-01T00:00:00+00:00"⟩])
        "admin" "wrong" = wrongCredentials ∧
    authenticateUser
        (fetchOne (fun _ _ => false)
          [UserRecord.toObj ⟨1, "admin", "admin123", "admin", "2024-01-01T00:00:00+00:00"⟩])
        "nobody" "wrong" = wrongCredentials := by
  obtain ⟨hrej, herr, _, hbad, _⟩ := authenticateUser_cases store username password
  exact ⟨herr, hbad, hrej, rfl, rfl,
    fun orHolds users h => authenticateUser_table orHolds users username password h,
    by decide, by decide⟩

/-! ## `checkUsernameAvailability` -/

theorem selectedRows_availability (orHolds : String → Obj → Bool) (users : List UserRecord)
    (username : String) (uid : Nat) :
    (selectedRows orHolds (users.map UserRecord.toObj)
        (checkUsernameAvailabilityQuery username (Val.num uid)) "user_id").length
      = (users.filter
          (fun u => decide (u.username = username) && decide (u.user_id ≠ uid))).length := by
  unfold selectedRows
  rw [List.length_map, List.filter_map, List.length_map]
  congr 1
  apply List.filter_congr
  intro u _
  have h1 := holds_eq_username orHolds u username
  have h2 := holds_neq_user_id orHolds u uid
  simp only [checkUsernameAvailabilityQuery, fromTable, Query.eq, Query.neq, Function.comp,
    List.nil_append, List.cons_append, List.all_cons, List.all_nil, Bool.and_true]
  cases e1 : Filter.holds orHolds u.toObj (Filter.eq "username" (Val.str username)) <;>
    cases e2 : Filter.holds orHolds u.toObj (Filter.neq "user_id" (Val.num uid)) <;>
    simp_all

/-- C16: against every users table, `checkUsernameAvailability(username,
currentUserId)` returns `error: null` and `data.available = true` exactly when
no row other than the one with `user_id = currentUserId` has that username.
With user 5 holding `bob` and nobody holding `alice`, `alice` is available to
user 5, and so is `bob`. -/
theorem checkUsernameAvailability_iff (orHolds : String → Obj → Bool)
    (users : List UserRecord) (username : String) (currentUserId : Nat) :
    (∃ a, checkUsernameAvailability (fetchRows orHolds (users.map UserRecord.toObj)) username
          (Val.num currentUserId) = { data := some a, error := none } ∧
        (a.available = true
          ↔ ∀ u ∈ users, u.user_id ≠ currentUserId → u.username ≠ username)) ∧
    checkUsernameAvailability
        (fetchRows (fun _ _ => false)
          [UserRecord.toObj ⟨5, "bob", "secret", "user", "2024-01-02T00:00:00+00:00"⟩,
            UserRecord.toObj ⟨7, "carol", "secret", "user", "2024-01-03T00:00:00+00:00"⟩])
        "alice" (Val.num 5)
      = { data := some { available := true, message := "用户名可用" }, error := none } ∧
    checkUsernameAvailability
        (fetchRows (fun _ _ => false)
          [UserRecord.toObj ⟨5, "bob", "secret", "user", "2024-01-02T00:00:00+00:00"⟩,
            UserRecord.toObj ⟨7, "carol", "secret", "user", "2024-01-03T00:00:00+00:00"⟩])
        "bob" (Val.num 5)
      = { data := some { available := true, message := "用户名可用" }, error := none } := by
  refine ⟨⟨_, rfl, ?_⟩, by decide, by decide⟩
  show decide ((selectedRows orHolds (users.map UserRecord.toObj)
      (checkUsernameAvailabilityQuery username (Val.num currentUserId)) "user_id").length = 0)
    = true ↔ _
  rw [selectedRows_availability, decide_eq_true_eq, List.length_eq_zero, List.filter_eq_nil_iff]
  constructor
  · intro h u hu hid hname
    exact h u hu (by simp [hid, hname])
  · intro h u hu hboth
    simp only [Bool.and_eq_true, decide_eq_true_eq] at hboth
    exact h u hu hboth.2 hboth.1

/-! ## The handlers of `TaskList` -/

theorem updateTask_error {ρ : Type} (store : Store ρ) (taskId : Val) (updateData : Obj) :
    (∀ d, store (updateTaskQuery taskId updateData)
        = Awaited.resolved { data := d, error := none } →
      (updateTask store taskId updateData).error = none) ∧
    (∀ d e, store (updateTaskQuery taskId updateData)
        = Awaited.resolved { data := d, error := some e } →
      (updateTask store taskId updateData).error = some e) ∧
    (∀ reason, store (updateTaskQuery taskId updateData) = Awaited.rejected reason →
      (updateTask store taskId updateData).error = some reason) := by
  refine ⟨?_, ?_, ?_⟩
  · intro d h
    unfold updateTask
    rw [h]
    rfl
  · intro d e h
    unfold updateTask
    rw [h]
    rfl
  · intro reason h
    unfold updateTask
    rw [h]
    rfl

/-- C17: for the task of the list that `handleClaimTask` finds under the given
id, if its `assignee_id` is unset (`null`, or the falsy id 0) the handler sends
one update, with `assignee_id` the current user's id and `status` `进行中`,
whatever the task's status was; when the store accepts it, that task gets
`assignee_id` the current user's id, `status` `进行中` and the user's name, and
every task with another id is unchanged; when the store refuses, the list is
unchanged and a message is set.  If the task has an assignee, no update is sent
and the list is unchanged. -/
theorem handleClaimTask_claims {ρ : Type} (store : Store ρ) (currentUser : CurrentUser)
    (s : TaskListState) (taskId : Nat) (task : UiTask)
    (hfind : s.tasks.find? (fun t => t.task_id = taskId) = some task) :
    (truthyId task.assignee_id = false →
      (handleClaimTask store currentUser s taskId).sent
          = [updateTaskQuery (Val.num taskId)
              [("assignee_id", Val.num currentUser.user_id), ("status", Val.str "进行中")]] ∧
        (∀ d, store (updateTaskQuery (Val.num taskId) (claimData currentUser))
            = Awaited.resolved { data := d, error := none } →
          (handleClaimTask store currentUser s taskId).state
            = { tasks := s.tasks.map
                  (fun t =>
                    if t.task_id = taskId then
                      { t with
                        assignee_id := some currentUser.user_id
                        status := "进行中"
                        assigned_user := some [("username", Val.str currentUser.username)] }
                    else t)
                error := "" }) ∧
        ((updateTask store (Val.num taskId) (claimData currentUser)).error ≠ none →
          (handleClaimTask store currentUser s taskId).state.tasks = s.tasks ∧
          (handleClaimTask store currentUser s taskId).state.error ≠ "")) ∧
    (truthyId task.assignee_id = true →
      handleClaimTask store currentUser s taskId
        = { state := { tasks := s.tasks, error := "该任务已被分配给其他用户" }
            sent := [], uncaught := false }) := by
  constructor
  · intro hfree
    refine ⟨?_, ?_, ?_⟩
    · unfold handleClaimTask
      simp only [hfind, hfree]
      cases (updateTask store (Val.num taskId) (claimData currentUser)).error <;> rfl
    · intro d hd
      have he := (updateTask_error store (Val.num taskId) (claimData currentUser)).1 d hd
      unfold handleClaimTask
      simp only [hfind, hfree, he]
      rfl
    · intro hne
      unfold handleClaimTask
      simp only [hfind, hfree]
      cases he : (updateTask store (Val.num taskId) (claimData currentUser)).error with
      | none => exact (hne he).elim
      | some e =>
        refine ⟨rfl, ?_⟩
        show "领取任务失败: " ++ e.message ≠ ""
        intro h
        have := congrArg String.length h
        simp [String.length_append] at this
        exact absurd this.1 (by decide)
  · intro htaken
    unfold handleClaimTask
    simp only [hfind, htaken]
    rfl

/-- The amended C17 at the sample list: user 5 claims the unclaimed task 1 from
a store that accepts the update. -/
theorem handleClaimTask_claims_witness :
    sampleTasks.tasks.find? (fun t => t.task_id = 1) = some unclaimedTask ∧
    truthyId unclaimedTask.assignee_id = false ∧
    (handleClaimTask acceptingStore sampleUser sampleTasks 1).sent
      = [updateTaskQuery (Val.num 1)
          [("assignee_id", Val.num sampleUser.user_id), ("status", Val.str "进行中")]] ∧
    (handleClaimTask acceptingStore sampleUser sampleTasks 1).state
      = { tasks :=
            [{ unclaimedTask with
                assignee_id := some 5, status := "进行中"
                assigned_user := some [("username", Val.str "bob")] },
              ownTask]
          error := "" } :=
  ⟨by decide, by decide,
    ((handleClaimTask_claims acceptingStore sampleUser sampleTasks 1 unclaimedTask
      (by decide)).1 (by decide)).1,
    ((handleClaimTask_claims acceptingStore sampleUser sampleTasks 1 unclaimedTask
      (by decide)).1 (by decide)).2.1 (some []) rfl⟩

/-- The claim C17 as it is worded fails when the store refuses the update: the
task 1 of the sample list is unclaimed and user 5 claims it, the update is
sent, but the local task keeps `assignee_id: null` and its status. -/
theorem handleClaimTask_store_refuses :
    sampleTasks.tasks.find? (fun t => t.task_id = 1) = some unclaimedTask ∧
    unclaimedTask.assignee_id = none ∧
    (handleClaimTask failingStore sampleUser sampleTasks 1).sent
      = [updateTaskQuery (Val.num 1)
          [("assignee_id", Val.num 5), ("status", Val.str "进行中")]] ∧
    (handleClaimTask failingStore sampleUser sampleTasks 1).state.tasks
      = [unclaimedTask, ownTask] ∧
    ¬ (∀ t ∈ (handleClaimTask failingStore sampleUser sampleTasks 1).state.tasks,
        t.task_id = 1 → t.assignee_id = some 5 ∧ t.status = "进行中") := by
  have htasks : (handleClaimTask failingStore sampleUser sampleTasks 1).state.tasks
      = [unclaimedTask, ownTask] := rfl
  refine ⟨by decide, rfl, rfl, htasks, ?_⟩
  intro h
  have h1 := h unclaimedTask (by rw [htasks]; exact List.mem_cons_self _ _) rfl
  exact absurd h1.1 (by decide)

/-- C18: for the task of the list that `handleStatusUpdate` finds under the
given id, if its `assignee_id` is not the current user's id the handler sets a
message, sends nothing to the store and leaves the list unchanged; if the
current user is the assignee it sends one update of `status`, and when the
store accepts it the status of the task with that id becomes the new status
while every other task and every other property is unchanged. -/
theorem handleStatusUpdate_assignee_only {ρ : Type} (store : Store ρ)
    (currentUser : CurrentUser) (s : TaskListState) (taskId : Nat) (newStatus : String)
    (task : UiTask) (hfind : s.tasks.find? (fun t => t.task_id = taskId) = some task) :
    (task.assignee_id ≠ some currentUser.user_id →
      handleStatusUpdate store currentUser s taskId newStatus
        = { state := { tasks := s.tasks, error := "您只能更新分配给自己的任务状态" }
            sent := [], uncaught := false }) ∧
    (task.assignee_id = some currentUser.user_id →
      (handleStatusUpdate store currentUser s taskId newStatus).sent
          = [updateTaskQuery (Val.num taskId) [("status", Val.str newStatus)]] ∧
        (∀ d, store (updateTaskQuery (Val.num taskId) [("status", Val.str newStatus)])
            = Awaited.resolved { data := d, error := none } →
          (handleStatusUpdate store currentUser s taskId newStatus).state
            = { tasks := s.tasks.map
                  (fun t => if t.task_id = taskId then { t with status := newStatus } else t)
                error := "" })) := by
  constructor
  · intro hother
    unfold handleStatusUpdate
    simp only [hfind]
    rw [if_pos hother]
  · intro hmine
    refine ⟨?_, ?_⟩
    · unfold handleStatusUpdate
      simp only [hfind]
      rw [if_neg (fun h => h hmine)]
      cases (updateTask store (Val.num taskId) [("status", Val.str newStatus)]).error <;> rfl
    · intro d hd
      have he := (updateTask_error store (Val.num taskId) [("status", Val.str newStatus)]).1 d hd
      unfold handleStatusUpdate
      simp only [hfind]
      rw [if_neg (fun h => h hmine)]
      simp only [he]

/-- C18 at the sample list: user 5 may not touch the unclaimed task 1, and
completes the own task 2. -/
theorem handleStatusUpdate_assignee_only_witness :
    sampleTasks.tasks.find? (fun t => t.task_id = 1) = some unclaimedTask ∧
    handleStatusUpdate acceptingStore sampleUser sampleTasks 1 "进行中"
      = { state := { tasks := sampleTasks.tasks, error := "您只能更新分配给自己的任务状态" }
          sent := [], uncaught := false } ∧
    sampleTasks.tasks.find? (fun t => t.task_id = 2) = some ownTask ∧
    (handleStatusUpdate acceptingStore sampleUser sampleTasks 2 "已完成").state
      = { tasks := [unclaimedTask, { ownTask with status := "已完成" }], error := "" } :=
  ⟨by decide,
    (handleStatusUpdate_assignee_only acceptingStore sampleUser sampleTasks 1 "进行中"
      unclaimedTask (by decide)).1 (by decide),
    by decide,
    ((handleStatusUpdate_assignee_only acceptingStore sampleUser sampleTasks 2 "已完成"
      ownTask (by decide)).2 (by decide)).2 (some []) rfl⟩

/-! ## The CRUD functions -/

theorem passThrough_resolved {ρ : Type} (reply : Response ρ) :
    passThrough (Awaited.resolved reply) = reply := rfl

/-- Every CRUD call returns what the store answers to its query. -/
theorem run_eq_passThrough {ρ : Type} (store : Store ρ) (call : CrudCall) (q : Query)
    (hq : call.query = Except.ok q) : call.run store = passThrough (store q) := by
  cases call <;>
    first
    | (cases hq; rfl)
    | (simp only [CrudCall.query] at hq
       simp only [CrudCall.run, getAllTasks, hq])

theorem getAllTasksQuery_ok (filters : Obj)
    (h : ∀ v, getKey "search" filters = some v → (∃ s, v = Val.str s) ∨ truthy (some v) = false) :
    ∃ q, getAllTasksQuery filters = Except.ok q := by
  unfold getAllTasksQuery searchClause
  cases hs : getKey "search" filters with
  | none => exact ⟨_, rfl⟩
  | some v =>
    rcases h v hs with ⟨s, rfl⟩ | hf
    · simp only []
      split_ifs <;> exact ⟨_, rfl⟩
    · cases v with
      | str s => simp only []; split_ifs <;> exact ⟨_, rfl⟩
      | null => exact ⟨_, rfl⟩
      | bool b => simp only [hf]; exact ⟨_, rfl⟩
      | num n => simp only [hf]; exact ⟨_, rfl⟩

/-- C19: each of the fifteen CRUD functions (list, get by id, create, update,
delete, for users, categories and tasks) returns the store's answer to its
query: `{data: null, error: e}` with the store's `e` when the store reports an
error, `{data: d, error: null}` when it succeeds with `d`.  Every call sends a
query, `getAllTasks` whenever its `search` is a string, falsy or absent.
`getCategoryById` of an id without a row returns the store's error and no
data. -/
theorem crud_returns_store_answer {ρ : Type} (store : Store ρ) (call : CrudCall) :
    (∀ q, call.query = Except.ok q → call.run store = passThrough (store q)) ∧
    (∀ q e, call.query = Except.ok q →
      store q = Awaited.resolved { data := none, error := some e } →
      call.run store = { data := none, error := some e }) ∧
    (∀ q d, call.query = Except.ok q →
      store q = Awaited.resolved { data := some d, error := none } →
      call.run store = { data := some d, error := none }) ∧
    ((∀ filters, call = CrudCall.getAllTasks filters →
        ∀ v, getKey "search" filters = some v → (∃ s, v = Val.str s) ∨ truthy (some v) = false) →
      ∃ q, call.query = Except.ok q) ∧
    getCategoryById (fetchOne (fun _ _ => false) sampleCategories) (Val.num 99999)
      = { data := none
          error := some
            (Failure.store "JSON object requested, multiple (or no) rows returned") } := by
  refine ⟨fun q hq => run_eq_passThrough store call q hq, ?_, ?_, ?_, ?_⟩
  · intro q e hq hs
    rw [run_eq_passThrough store call q hq, hs]
    rfl
  · intro q d hq hs
    rw [run_eq_passThrough store call q hq, hs]
    rfl
  · intro h
    cases call with
    | getAllTasks filters => exact getAllTasksQuery_ok filters (h filters rfl)
    | _ => exact ⟨_, rfl⟩
  · rfl

/-! ## The shape of the results -/

theorem passThrough_exactlyOne {ρ : Type} (store : Store ρ) (hstore : store.wellFormed)
    (q : Query) : (passThrough (store q)).exactlyOne := by
  cases h : store q with
  | resolved reply => exact hstore q reply h
  | rejected reason => exact Or.inr ⟨rfl, by simp [passThrough]⟩

theorem run_exactlyOne {ρ : Type} (store : Store ρ) (hstore : store.wellFormed)
    (call : CrudCall) : (call.run store).exactlyOne := by
  cases hq : call.query with
  | ok q =>
    rw [run_eq_passThrough store call q hq]
    exact passThrough_exactlyOne store hstore q
  | error err =>
    cases call with
    | getAllTasks filters =>
      have hq2 : getAllTasksQuery filters = Except.error err := hq
      simp only [CrudCall.run, getAllTasks, hq2]
      exact Or.inr ⟨rfl, by simp⟩
    | _ => cases hq

theorem getTaskStatistics_shape (fetched : Response (List TaskRow)) :
    (getTaskStatistics fetched).exactlyOne ∧
    (∀ e, fetched.error = some e → getTaskStatistics fetched = { data := none, error := some e }) := by
  obtain ⟨d, e⟩ := fetched
  cases e <;> cases d <;> simp [getTaskStatistics, Response.exactlyOne]

theorem getUserStatistics_shape (monthKey : Int → String) (fetched : Response (List UserRow)) :
    (getUserStatistics monthKey fetched).exactlyOne ∧
    (∀ e, fetched.error = some e →
      getUserStatistics monthKey fetched = { data := none, error := some e }) := by
  obtain ⟨d, e⟩ := fetched
  cases e <;> cases d <;> simp [getUserStatistics, Response.exactlyOne]

theorem getTaskTrends_shape (days : Nat) (fetched : Response (List TaskRow)) :
    (getTaskTrends days fetched).exactlyOne ∧
    (∀ e, fetched.error = some e →
      getTaskTrends days fetched = { data := none, error := some e }) := by
  obtain ⟨d, e⟩ := fetched
  cases e <;> cases d <;> simp [getTaskTrends, Response.exactlyOne]

theorem getUserWorkloadStatistics_shape (fetched : Response (List TaskRow)) :
    (getUserWorkloadStatistics fetched).exactlyOne ∧
    (∀ e, fetched.error = some e →
      getUserWorkloadStatistics fetched = { data := none, error := some e }) := by
  obtain ⟨d, e⟩ := fetched
  cases e <;> cases d <;> simp [getUserWorkloadStatistics, Response.exactlyOne]

theorem getCategoryStatistics_shape (fetchedCategories : Response (List CategoryRow))
    (fetchedTasks : Response (List TaskRow)) :
    (getCategoryStatistics fetchedCategories fetchedTasks).exactlyOne ∧
    (∀ e, fetchedCategories.error = some e →
      getCategoryStatistics fetchedCategories fetchedTasks = { data := none, error := some e }) ∧
    (∀ e, fetchedCategories.error = none → fetchedTasks.error = some e →
      getCategoryStatistics fetchedCategories fetchedTasks
        = { data := none, error := some e }) := by
  obtain ⟨d1, e1⟩ := fetchedCategories
  obtain ⟨d2, e2⟩ := fetchedTasks
  cases e1 <;> cases e2 <;> cases d1 <;> cases d2 <;>
    simp [getCategoryStatistics, Response.exactlyOne]
  split_ifs <;> simp

theorem getUserPersonalStats_shape (now thirtyDaysAgo : Int)
    (fetchedAssigned fetchedCreated : Response (List TaskRow)) :
    (getUserPersonalStats now thirtyDaysAgo fetchedAssigned fetchedCreated).exactlyOne ∧
    (∀ e, fetchedAssigned.error = some e →
      getUserPersonalStats now thirtyDaysAgo fetchedAssigned fetchedCreated
        = { data := none, error := some e }) ∧
    (∀ e, fetchedAssigned.error = none → fetchedCreated.error = some e →
      getUserPersonalStats now thirtyDaysAgo fetchedAssigned fetchedCreated
        = { data := none, error := some e }) := by
  obtain ⟨d1, e1⟩ := fetchedAssigned
  obtain ⟨d2, e2⟩ := fetchedCreated
  cases e1 <;> cases e2 <;> cases d1 <;> cases d2 <;>
    simp [getUserPersonalStats, Response.exactlyOne]

theorem getSystemOverview_shape (monthKey : Int → String) (clock : Int)
    (fetchedUsers : Response (List UserRow)) (fetchedTasks : Response (List TaskRow))
    (fetchedCategories : Response (List CategoryRow))
    (fetchedCategoryTasks : Response (List TaskRow)) :
    (getSystemOverview monthKey clock fetchedUsers fetchedTasks fetchedCategories
      fetchedCategoryTasks).exactlyOne ∧
    (getSystemOverview monthKey clock fetchedUsers fetchedTasks fetchedCategories
        fetchedCategoryTasks).error
      = ((getUserStatistics monthKey fetchedUsers).error
          <|> (getTaskStatistics fetchedTasks).error
          <|> (getCategoryStatistics fetchedCategories fetchedCategoryTasks).error) := by
  unfold getSystemOverview
  simp only []
  cases h : ((getUserStatistics monthKey fetchedUsers).error
      <|> (getTaskStatistics fetchedTasks).error
      <|> (getCategoryStatistics fetchedCategories fetchedCategoryTasks).error) with
  | none => exact ⟨Or.inl ⟨by simp, rfl⟩, rfl⟩
  | some err => exact ⟨Or.inr ⟨rfl, by simp⟩, rfl⟩

theorem checkUsernameAvailability_shape (store : Store (List Obj)) (username : String)
    (currentUserId : Val) :
    (checkUsernameAvailability store username currentUserId).exactlyOne ∧
    (∀ d e, store (checkUsernameAvailabilityQuery username currentUserId)
        = Awaited.resolved { data := d, error := some e } →
      checkUsernameAvailability store username currentUserId
        = { data := none, error := some e }) := by
  unfold checkUsernameAvailability
  cases h : store (checkUsernameAvailabilityQuery username currentUserId) with
  | rejected reason => exact ⟨Or.inr ⟨rfl, by simp⟩, fun d e he => by cases he⟩
  | resolved reply =>
    obtain ⟨d, e⟩ := reply
    cases e <;> cases d <;>
      simp [Response.exactlyOne]

theorem changeUserPassword_shape (store : Store Obj) (hstore : store.wellFormed) (userId : Val)
    (currentPassword newPassword : String) :
    (changeUserPassword store userId currentPassword newPassword).exactlyOne ∧
    (∀ d e, store (currentPasswordQuery userId)
        = Awaited.resolved { data := d, error := some e } →
      changeUserPassword store userId currentPassword newPassword
        = { data := none, error := some e }) := by
  unfold changeUserPassword
  cases h : store (currentPasswordQuery userId) with
  | rejected reason => exact ⟨Or.inr ⟨rfl, by simp⟩, fun d e he => by cases he⟩
  | resolved reply =>
    obtain ⟨d, e⟩ := reply
    cases e with
    | some e => exact ⟨Or.inr ⟨rfl, by simp⟩, fun d2 e2 he => by cases he; rfl⟩
    | none =>
      refine ⟨?_, fun d2 e2 he => by cases he⟩
      cases d with
      | none => exact Or.inr ⟨rfl, by simp⟩
      | some user =>
        simp only []
        split_ifs
        · exact Or.inr ⟨rfl, by simp⟩
        · exact passThrough_exactlyOne store hstore _

theorem authenticateUser_shape (store : Store Obj) (username password : String) :
    ((authenticateUser store username password).success = true
      ↔ (authenticateUser store username password).data ≠ none) ∧
    ((authenticateUser store username password).success = true
      ↔ (authenticateUser store username password).error = none) ∧
    ((authenticateUser store username password).error = none ∨
      (authenticateUser store username password).error
        = some (Failure.text "用户名或密码错误") ∨
      (authenticateUser store username password).error
        = some (Failure.text "登录验证失败，请稍后重试")) := by
  unfold authenticateUser
  cases h : store (authenticateUserQuery username) with
  | rejected reason => simp
  | resolved reply =>
    obtain ⟨d, e⟩ := reply
    cases e <;> cases d <;> simp [wrongCredentials]
    split_ifs <;> simp

theorem testDatabaseConnection_shape {ρ : Type} (store : Store ρ) :
    ((testDatabaseConnection store).success = true
      ↔ (testDatabaseConnection store).error = none) ∧
    (∀ d e, store testDatabaseConnectionQuery = Awaited.resolved { data := d, error := some e } →
      testDatabaseConnection store = { success := false, error := some e }) ∧
    (∀ d, store testDatabaseConnectionQuery = Awaited.resolved { data := d, error := none } →
      testDatabaseConnection store = { success := true, error := none }) := by
  unfold testDatabaseConnection
  cases h : store testDatabaseConnectionQuery with
  | rejected reason => simp
  | resolved reply =>
    obtain ⟨d, e⟩ := reply
    cases e <;> simp

theorem acceptingStore_wellFormed : Store.wellFormed acceptingStore := by
  intro q reply h
  cases h
  exact Or.inl ⟨by simp, rfl⟩

theorem unreachableStore_wellFormed : Store.wellFormed unreachableStore := by
  intro q reply h
  cases h
  exact Or.inr ⟨rfl, by simp⟩

theorem passThrough_error {ρ : Type} (store : Store ρ) (hstore : store.wellFormed) (q : Query)
    (d : Option ρ) (e : Failure)
    (h : store q = Awaited.resolved { data := d, error := some e }) :
    passThrough (store q) = { data := none, error := some e } := by
  have hd : d = none := by
    rcases hstore q _ h with ⟨_, h2⟩ | ⟨h1, _⟩
    · cases h2
    · exact h1
  rw [h, hd]
  rfl

/-- C20 (counterexample): when the store reports the error `connection refused`,
`authenticateUser` returns an object of three fields whose error is the text
用户名或密码错误, not the store's error; and `testDatabaseConnection` on a store that
answers returns `{success: true, error: null}`, an object without `data` in
which nothing is non-null but `success`. -/
theorem authenticateUser_translates_store_error :
    unreachableStore (authenticateUserQuery "admin")
      = Awaited.resolved { data := none, error := some (Failure.store "connection refused") } ∧
    authenticateUser unreachableStore "admin" "admin123"
      = { data := none, error := some (Failure.text "用户名或密码错误"), success := false } ∧
    (authenticateUser unreachableStore "admin" "admin123").error
      ≠ some (Failure.store "connection refused") ∧
    testDatabaseConnection acceptingStore = { success := true, error := none } := by
  refine ⟨rfl, rfl, ?_, rfl⟩
  intro h
  have h2 : some (Failure.text "用户名或密码错误") = some (Failure.store "connection refused") := h
  cases h2

/-- C20 (amended): when the store's own replies have exactly one of `data` and
`error` non-null, then every operation exported by databaseService other than
`authenticateUser` and `testDatabaseConnection` returns `{data, error}` with
exactly one of the two non-null, and returns a store-reported error unchanged;
`authenticateUser` returns `{data, error, success}` with `success` true exactly
when `data` is non-null and exactly when `error` is null, and its error is one
of two fixed texts, the store's error being replaced by 用户名或密码错误;
`testDatabaseConnection` returns `{success, error}` with `success` true exactly
when `error` is null, and returns the store's error unchanged. -/
theorem databaseService_result_shape {ρ : Type} (store : Store ρ) (hstore : store.wellFormed)
    (rowStore : Store Obj) (hrow : rowStore.wellFormed) (listStore : Store (List Obj)) :
    (∀ call : CrudCall, (call.run store).exactlyOne ∧
      ∀ q d e, call.query = Except.ok q →
        store q = Awaited.resolved { data := d, error := some e } →
        call.run store = { data := none, error := some e }) ∧
    (∀ userId, (getUserProfile store userId).exactlyOne ∧
      ∀ d e, store (getUserProfileQuery userId) = Awaited.resolved { data := d, error := some e } →
        getUserProfile store userId = { data := none, error := some e }) ∧
    (∀ userId profileData, (updateUserProfile store userId profileData).exactlyOne ∧
      ∀ d e, store (updateUserProfileQuery userId profileData)
          = Awaited.resolved { data := d, error := some e } →
        updateUserProfile store userId profileData = { data := none, error := some e }) ∧
    (∀ userId currentPassword newPassword,
      (changeUserPassword rowStore userId currentPassword newPassword).exactlyOne ∧
      ∀ d e, rowStore (currentPasswordQuery userId)
          = Awaited.resolved { data := d, error := some e } →
        changeUserPassword rowStore userId currentPassword newPassword
          = { data := none, error := some e }) ∧
    (∀ username currentUserId,
      (checkUsernameAvailability listStore username currentUserId).exactlyOne ∧
      ∀ d e, listStore (checkUsernameAvailabilityQuery username currentUserId)
          = Awaited.resolved { data := d, error := some e } →
        checkUsernameAvailability listStore username currentUserId
          = { data := none, error := some e }) ∧
    (∀ fetched, (getTaskStatistics fetched).exactlyOne ∧
      ∀ e, fetched.error = some e → getTaskStatistics fetched = { data := none, error := some e }) ∧
    (∀ monthKey fetched, (getUserStatistics monthKey fetched).exactlyOne ∧
      ∀ e, fetched.error = some e →
        getUserStatistics monthKey fetched = { data := none, error := some e }) ∧
    (∀ fetchedCategories fetchedTasks,
      (getCategoryStatistics fetchedCategories fetchedTasks).exactlyOne ∧
      (∀ e, fetchedCategories.error = some e →
        getCategoryStatistics fetchedCategories fetchedTasks
          = { data := none, error := some e }) ∧
      (∀ e, fetchedCategories.error = none → fetchedTasks.error = some e →
        getCategoryStatistics fetchedCategories fetchedTasks
          = { data := none, error := some e })) ∧
    (∀ days fetched, (getTaskTrends days fetched).exactlyOne ∧
      ∀ e, fetched.error = some e →
        getTaskTrends days fetched = { data := none, error := some e }) ∧
    (∀ fetched, (getUserWorkloadStatistics fetched).exactlyOne ∧
      ∀ e, fetched.error = some e →
        getUserWorkloadStatistics fetched = { data := none, error := some e }) ∧
    (∀ monthKey clock fetchedUsers fetchedTasks fetchedCategories fetchedCategoryTasks,
      (getSystemOverview monthKey clock fetchedUsers fetchedTasks fetchedCategories
        fetchedCategoryTasks).exactlyOne ∧
      (getSystemOverview monthKey clock fetchedUsers fetchedTasks fetchedCategories
          fetchedCategoryTasks).error
        = ((getUserStatistics monthKey fetchedUsers).error
            <|> (getTaskStatistics fetchedTasks).error
            <|> (getCategoryStatistics fetchedCategories fetchedCategoryTasks).error)) ∧
    (∀ now thirtyDaysAgo fetchedAssigned fetchedCreated,
      (getUserPersonalStats now thirtyDaysAgo fetchedAssigned fetchedCreated).exactlyOne ∧
      (∀ e, fetchedAssigned.error = some e →
        getUserPersonalStats now thirtyDaysAgo fetchedAssigned fetchedCreated
          = { data := none, error := some e }) ∧
      (∀ e, fetchedAssigned.error = none → fetchedCreated.error = some e →
        getUserPersonalStats now thirtyDaysAgo fetchedAssigned fetchedCreated
          = { data := none, error := some e })) ∧
    (∀ username password,
      ((authenticateUser rowStore username password).success = true
        ↔ (authenticateUser rowStore username password).data ≠ none) ∧
      ((authenticateUser rowStore username password).success = true
        ↔ (authenticateUser rowStore username password).error = none) ∧
      ((authenticateUser rowStore username password).error = none ∨
        (authenticateUser rowStore username password).error
          = some (Failure.text "用户名或密码错误") ∨
        (authenticateUser rowStore username password).error
          = some (Failure.text "登录验证失败，请稍后重试")) ∧
      ∀ d e, rowStore (authenticateUserQuery username)
          = Awaited.resolved { data := d, error := some e } →
        authenticateUser rowStore username password
          = { data := none, error := some (Failure.text "用户名或密码错误"), success := false }) ∧
    (((testDatabaseConnection store).success = true
        ↔ (testDatabaseConnection store).error = none) ∧
      (∀ d e, store testDatabaseConnectionQuery
          = Awaited.resolved { data := d, error := some e } →
        testDatabaseConnection store = { success := false, error := some e }) ∧
      (∀ d, store testDatabaseConnectionQuery = Awaited.resolved { data := d, error := none } →
        testDatabaseConnection store = { success := true, error := none })) := by
  refine ⟨?_, ?_, ?_, ?_, ?_, ?_, ?_, ?_, ?_, ?_, ?_, ?_, ?_, ?_⟩
  · intro call
    refine ⟨run_exactlyOne store hstore call, ?_⟩
    intro q d e hq h
    rw [run_eq_passThrough store call q hq]
    exact passThrough_error store hstore q d e h
  · intro userId
    exact ⟨passThrough_exactlyOne store hstore _,
      fun d e h => passThrough_error store hstore _ d e h⟩
  · intro userId profileData
    exact ⟨passThrough_exactlyOne store hstore _,
      fun d e h => passThrough_error store hstore _ d e h⟩
  · intro userId currentPassword newPassword
    exact changeUserPassword_shape rowStore hrow userId currentPassword newPassword
  · intro username currentUserId
    exact checkUsernameAvailability_shape listStore username currentUserId
  · exact getTaskStatistics_shape
  · exact getUserStatistics_shape
  · exact getCategoryStatistics_shape
  · exact getTaskTrends_shape
  · exact getUserWorkloadStatistics_shape
  · exact getSystemOverview_shape
  · exact getUserPersonalStats_shape
  · intro username password
    obtain ⟨h1, h2, h3⟩ := authenticateUser_shape rowStore username password
    refine ⟨h1, h2, h3, ?_⟩
    intro d e h
    unfold authenticateUser
    rw [h]
    rfl
  · exact testDatabaseConnection_shape store

/-- C20 at the sample stores: the list store answers with no rows, the row
store is out of reach. -/
theorem databaseService_result_shape_witness :
    Store.wellFormed acceptingStore ∧ Store.wellFormed unreachableStore ∧
    getAllUsers acceptingStore = { data := some [], error := none } ∧
    (getAllUsers acceptingStore).exactlyOne ∧
    changeUserPassword unreachableStore (Val.num 1) "old" "new"
      = { data := none, error := some (Failure.store "connection refused") } ∧
    authenticateUser unreachableStore "admin" "admin123"
      = { data := none, error := some (Failure.text "用户名或密码错误"), success := false } ∧
    testDatabaseConnection acceptingStore = { success := true, error := none } :=
  ⟨acceptingStore_wellFormed, unreachableStore_wellFormed, rfl,
    ((databaseService_result_shape acceptingStore acceptingStore_wellFormed unreachableStore
      unreachableStore_wellFormed failingStore).1 CrudCall.getAllUsers).1,
    ((databaseService_result_shape acceptingStore acceptingStore_wellFormed unreachableStore
      unreachableStore_wellFormed failingStore).2.2.2.1 (Val.num 1) "old" "new").2 none _ rfl,
    ((databaseService_result_shape acceptingStore acceptingStore_wellFormed unreachableStore
      unreachableStore_wellFormed failingStore).2.2.2.2.2.2.2.2.2.2.2.2.1
        "admin" "admin123").2.2.2 none _ rfl,
    ((databaseService_result_shape acceptingStore acceptingStore_wellFormed unreachableStore
      unreachableStore_wellFormed failingStore).2.2.2.2.2.2.2.2.2.2.2.2.2).2.2 (some []) rfl⟩

/-! ## `getSystemOverview` -/

theorem getSystemOverview_error (monthKey : Int → String) (clock : Int)
    (fetchedUsers : Response (List UserRow)) (fetchedTasks : Response (List TaskRow))
    (fetchedCategories : Response (List CategoryRow))
    (fetchedCategoryTasks : Response (List TaskRow)) (e : Failure)
    (h : ((getUserStatistics monthKey fetchedUsers).error
        <|> (getTaskStatistics fetchedTasks).error
        <|> (getCategoryStatistics fetchedCategories fetchedCategoryTasks).error) = some e) :
    getSystemOverview monthKey clock fetchedUsers fetchedTasks fetchedCategories
      fetchedCategoryTasks = { data := none, error := some e } := by
  unfold getSystemOverview
  simp only [h]

theorem getSystemOverview_data (monthKey : Int → String) (clock : Int)
    (fetchedUsers : Response (List UserRow)) (fetchedTasks : Response (List TaskRow))
    (fetchedCategories : Response (List CategoryRow))
    (fetchedCategoryTasks : Response (List TaskRow))
    (h : ((getUserStatistics monthKey fetchedUsers).error
        <|> (getTaskStatistics fetchedTasks).error
        <|> (getCategoryStatistics fetchedCategories fetchedCategoryTasks).error) = none) :
    getSystemOverview monthKey clock fetchedUsers fetchedTasks fetchedCategories
        fetchedCategoryTasks
      = { data := some
            { users := (getUserStatistics monthKey fetchedUsers).data
              tasks := (getTaskStatistics fetchedTasks).data
              categories := (getCategoryStatistics fetchedCategories fetchedCategoryTasks).data
              lastUpdated := toISOString clock }
          error := none } := by
  unfold getSystemOverview
  simp only [h]

theorem exactlyOne_data {α : Type} (r : Response α) (h : r.exactlyOne) (he : r.error = none) :
    ∃ d, r.data = some d := by
  rcases h with ⟨hd, _⟩ | ⟨_, hne⟩
  · exact Option.ne_none_iff_exists'.mp hd
  · exact (hne he).elim

/-- C21: `getSystemOverview` returns `data: null` and the error of the first of
the user, task and category statistics that failed, in this order; when none
failed it returns `error: null` and data whose `users`, `tasks` and
`categories` are the data of the three statistics results, none of them
`null`, with `lastUpdated` the clock reading.  A statistics read fails with
the error the store reported for it, so of two failing reads the earlier one
decides. -/
theorem getSystemOverview_first_error_wins (monthKey : Int → String) (clock : Int)
    (fetchedUsers : Response (List UserRow)) (fetchedTasks : Response (List TaskRow))
    (fetchedCategories : Response (List CategoryRow))
    (fetchedCategoryTasks : Response (List TaskRow)) :
    (∀ e, (getUserStatistics monthKey fetchedUsers).error = some e →
      getSystemOverview monthKey clock fetchedUsers fetchedTasks fetchedCategories
        fetchedCategoryTasks = { data := none, error := some e }) ∧
    (∀ e, (getUserStatistics monthKey fetchedUsers).error = none →
      (getTaskStatistics fetchedTasks).error = some e →
      getSystemOverview monthKey clock fetchedUsers fetchedTasks fetchedCategories
        fetchedCategoryTasks = { data := none, error := some e }) ∧
    (∀ e, (getUserStatistics monthKey fetchedUsers).error = none →
      (getTaskStatistics fetchedTasks).error = none →
      (getCategoryStatistics fetchedCategories fetchedCategoryTasks).error = some e →
      getSystemOverview monthKey clock fetchedUsers fetchedTasks fetchedCategories
        fetchedCategoryTasks = { data := none, error := some e }) ∧
    ((getUserStatistics monthKey fetchedUsers).error = none →
      (getTaskStatistics fetchedTasks).error = none →
      (getCategoryStatistics fetchedCategories fetchedCategoryTasks).error = none →
      ∃ users tasks categories,
        getUserStatistics monthKey fetchedUsers = { data := some users, error := none } ∧
        getTaskStatistics fetchedTasks = { data := some tasks, error := none } ∧
        getCategoryStatistics fetchedCategories fetchedCategoryTasks
          = { data := some categories, error := none } ∧
        getSystemOverview monthKey clock fetchedUsers fetchedTasks fetchedCategories
            fetchedCategoryTasks
          = { data := some
                { users := some users, tasks := some tasks, categories := some categories
                  lastUpdated := toISOString clock }
              error := none }) ∧
    (∀ e1 e2 e3, fetchedUsers.error = some e1 → fetchedTasks.error = some e2 →
      fetchedCategories.error = some e3 →
      getSystemOverview monthKey clock fetchedUsers fetchedTasks fetchedCategories
        fetchedCategoryTasks = { data := none, error := some e1 }) ∧
    (∀ e2 e3, fetchedUsers.error = none → fetchedUsers.data ≠ none →
      fetchedTasks.error = some e2 → fetchedCategories.error = some e3 →
      getSystemOverview monthKey clock fetchedUsers fetchedTasks fetchedCategories
        fetchedCategoryTasks = { data := none, error := some e2 }) := by
  refine ⟨?_, ?_, ?_, ?_, ?_, ?_⟩
  · intro e h
    apply getSystemOverview_error
    rw [h]; rfl
  · intro e h1 h2
    apply getSystemOverview_error
    rw [h1, h2]; rfl
  · intro e h1 h2 h3
    apply getSystemOverview_error
    rw [h1, h2, h3]; rfl
  · intro h1 h2 h3
    obtain ⟨u, hu⟩ := exactlyOne_data _ (getUserStatistics_shape monthKey fetchedUsers).1 h1
    obtain ⟨t, ht⟩ := exactlyOne_data _ (getTaskStatistics_shape fetchedTasks).1 h2
    obtain ⟨c, hc⟩ := exactlyOne_data _
      (getCategoryStatistics_shape fetchedCategories fetchedCategoryTasks).1 h3
    have hov := getSystemOverview_data monthKey clock fetchedUsers fetchedTasks fetchedCategories
      fetchedCategoryTasks (by rw [h1, h2, h3]; rfl)
    refine ⟨u, t, c, ?_, ?_, ?_, ?_⟩
    · rw [← hu, ← h1]
    · rw [← ht, ← h2]
    · rw [← hc, ← h3]
    · rw [hov, hu, ht, hc]
  · intro e1 e2 e3 h1 _ _
    apply getSystemOverview_error
    rw [(getUserStatistics_shape monthKey fetchedUsers).2 e1 h1]; rfl
  · intro e2 e3 h1 hd h2 _
    apply getSystemOverview_error
    rw [(getTaskStatistics_shape fetchedTasks).2 e2 h2]
    have hu : (getUserStatistics monthKey fetchedUsers).error = none := by
      obtain ⟨d, e⟩ := fetchedUsers
      cases d with
      | none => exact (hd rfl).elim
      | some users =>
        have he : e = none := h1
        subst he
        rfl
    rw [hu]; rfl

/-! ## The predicates of `getAllTasks` -/

theorem jsTrim_empty : jsTrim "" = "" := by decide

theorem eqIfTruthy_eq (key : String) (filters : Obj) (q : Query) :
    eqIfTruthy key filters q = { q with filters := q.filters ++ equalityPredicate filters key } := by
  unfold eqIfTruthy equalityPredicate
  cases getKey key filters with
  | none => simp
  | some value =>
    simp only []
    split_ifs
    · rfl
    · simp

theorem searchClause_ok (filters : Obj) (q : Query)
    (h : ∀ v, getKey "search" filters = some v → (∃ s, v = Val.str s) ∨ truthy (some v) = false) :
    searchClause filters q
      = Except.ok { q with filters := q.filters ++ searchPredicate filters } := by
  unfold searchClause searchPredicate
  cases hs : getKey "search" filters with
  | none => simp
  | some v =>
    cases v with
    | str s =>
      simp only []
      by_cases he : s = ""
      · subst he
        simp [jsTrim_empty]
      · by_cases ht : jsTrim s = ""
        · simp [he, ht]
        · simp [he, ht, Query.or, searchConditions]
    | null => simp [truthy]
    | bool b =>
      rcases h _ hs with ⟨s, hv⟩ | hf
      · cases hv
      · simp [hf]
    | num n =>
      rcases h _ hs with ⟨s, hv⟩ | hf
      · cases hv
      · simp [hf]

theorem searchClause_raises (filters : Obj) (q : Query) (v : Val)
    (hv : getKey "search" filters = some v) (hs : ∀ s, v ≠ Val.str s)
    (ht : truthy (some v) = true) :
    searchClause filters q
      = Except.error (Failure.thrown "TypeError: filters.search.trim is not a function") := by
  unfold searchClause
  rw [hv]
  cases v with
  | str s => exact (hs s rfl).elim
  | null => cases ht
  | bool b => simp [ht]
  | num n => simp [ht]

/-- The query of `getAllTasks`, written out. -/
theorem getAllTasksQuery_eq (filters : Obj)
    (h : ∀ v, getKey "search" filters = some v → (∃ s, v = Val.str s) ∨ truthy (some v) = false) :
    getAllTasksQuery filters
      = Except.ok
          { table := "tasks", verb := Verb.select taskColumns
            filters := equalityPredicate filters "status" ++ equalityPredicate filters "priority"
              ++ equalityPredicate filters "category_id"
              ++ equalityPredicate filters "assignee_id" ++ searchPredicate filters
            returning := none, sortBy := some ("created_at", false), maxRows := none
            oneRow := false } := by
  unfold getAllTasksQuery
  rw [searchClause_ok filters _ h]
  simp only [eqIfTruthy_eq, fromTable, Query.order, List.nil_append, List.append_assoc]

theorem mem_equalityPredicate (filters : Obj) (key : String) (f : Filter) :
    f ∈ equalityPredicate filters key
      ↔ ∃ v, getKey key filters = some v ∧ truthy (some v) = true ∧ f = Filter.eq key v := by
  unfold equalityPredicate
  cases hk : getKey key filters with
  | none => simp
  | some value =>
    simp only []
    split_ifs with ht
    · simp only [List.mem_singleton, Option.some.injEq]
      constructor
      · intro hf; exact ⟨value, rfl, ht, hf⟩
      · rintro ⟨v, rfl, _, hf⟩; exact hf
    · simp only [List.not_mem_nil, false_iff]
      rintro ⟨v, hv, ht2, _⟩
      cases hv
      exact ht ht2

theorem mem_searchPredicate (filters : Obj) (f : Filter) :
    f ∈ searchPredicate filters
      ↔ ∃ s, getKey "search" filters = some (Val.str s) ∧ jsTrim s ≠ ""
          ∧ f = Filter.or (searchConditions (jsTrim s)) := by
  unfold searchPredicate
  cases hk : getKey "search" filters with
  | none => simp
  | some v =>
    cases v with
    | str s =>
      simp only []
      split_ifs with ht
      · simp only [List.mem_singleton, Option.some.injEq, Val.str.injEq]
        constructor
        · intro hf; exact ⟨s, rfl, ht, hf⟩
        · rintro ⟨s2, rfl, _, hf⟩; exact hf
      · simp only [List.not_mem_nil, false_iff]
        rintro ⟨s2, hs2, ht2, _⟩
        cases hs2
        exact ht ht2
    | null => simp
    | bool b => simp
    | num n => simp

theorem length_equalityPredicate (filters : Obj) (key : String) :
    (equalityPredicate filters key).length ≤ 1 := by
  unfold equalityPredicate
  cases getKey key filters with
  | none => simp
  | some value => simp only []; split_ifs <;> simp

theorem length_searchPredicate (filters : Obj) : (searchPredicate filters).length ≤ 1 := by
  unfold searchPredicate
  cases getKey "search" filters with
  | none => simp
  | some v =>
    cases v with
    | str s => simp only []; split_ifs <;> simp
    | null => simp
    | bool b => simp
    | num n => simp

theorem nodup_of_length_le_one {α : Type} (l : List α) (h : l.length ≤ 1) : l.Nodup := by
  cases l with
  | nil => exact List.nodup_nil
  | cons a rest =>
    cases rest with
    | nil => exact List.nodup_singleton a
    | cons b rest2 => simp at h

theorem disjoint_equalityPredicate (filters : Obj) (k1 k2 : String) (h : k1 ≠ k2) :
    (equalityPredicate filters k1).Disjoint (equalityPredicate filters k2) := by
  intro f h1 h2
  obtain ⟨v1, _, _, e1⟩ := (mem_equalityPredicate filters k1 f).mp h1
  obtain ⟨v2, _, _, e2⟩ := (mem_equalityPredicate filters k2 f).mp h2
  rw [e1] at e2
  cases e2
  exact h rfl

theorem disjoint_searchPredicate (filters : Obj) (key : String) :
    (equalityPredicate filters key).Disjoint (searchPredicate filters) := by
  intro f h1 h2
  obtain ⟨v1, _, _, e1⟩ := (mem_equalityPredicate filters key f).mp h1
  obtain ⟨s, _, _, e2⟩ := (mem_searchPredicate filters f).mp h2
  rw [e1] at e2
  cases e2

theorem nodup_predicates (filters : Obj) :
    (equalityPredicate filters "status" ++ equalityPredicate filters "priority"
      ++ equalityPredicate filters "category_id" ++ equalityPredicate filters "assignee_id"
      ++ searchPredicate filters).Nodup := by
  have n1 := nodup_of_length_le_one _ (length_equalityPredicate filters "status")
  have n2 := nodup_of_length_le_one _ (length_equalityPredicate filters "priority")
  have n3 := nodup_of_length_le_one _ (length_equalityPredicate filters "category_id")
  have n4 := nodup_of_length_le_one _ (length_equalityPredicate filters "assignee_id")
  have n5 := nodup_of_length_le_one _ (length_searchPredicate filters)
  have d12 := disjoint_equalityPredicate filters "status" "priority" (by decide)
  have d13 := disjoint_equalityPredicate filters "status" "category_id" (by decide)
  have d14 := disjoint_equalityPredicate filters "status" "assignee_id" (by decide)
  have d23 := disjoint_equalityPredicate filters "priority" "category_id" (by decide)
  have d24 := disjoint_equalityPredicate filters "priority" "assignee_id" (by decide)
  have d34 := disjoint_equalityPredicate filters "category_id" "assignee_id" (by decide)
  have d15 := disjoint_searchPredicate filters "status"
  have d25 := disjoint_searchPredicate filters "priority"
  have d35 := disjoint_searchPredicate filters "category_id"
  have d45 := disjoint_searchPredicate filters "assignee_id"
  have m12 := List.Nodup.append n1 n2 d12
  have m123 := List.Nodup.append m12 n3 (List.disjoint_append_left.mpr ⟨d13, d23⟩)
  have m1234 := List.Nodup.append m123 n4
    (List.disjoint_append_left.mpr ⟨List.disjoint_append_left.mpr ⟨d14, d24⟩, d34⟩)
  exact List.Nodup.append m1234 n5
    (List.disjoint_append_left.mpr
      ⟨List.disjoint_append_left.mpr ⟨List.disjoint_append_left.mpr ⟨d15, d25⟩, d35⟩, d45⟩)

/-- C22: for every `filters` object whose `search` is a string, falsy or
absent, `getAllTasks` sends one query on `tasks`, ordered by `created_at`
descending, whose predicates are, without repetition: `.eq(key, filters[key])`
exactly for those of `status`, `priority`, `category_id` and `assignee_id` that
are provided and non-empty (truthy: for a string, not `''`), and the `.or` that
matches `title` or `description` against `%term%` under `ilike` exactly when
`search` is not blank after trimming, `term` being the trimmed string; there is
no other predicate, and with no filters there is none.  A truthy `search` that
is not a string raises before a query is built. -/
theorem getAllTasks_predicates {ρ : Type} (store : Store ρ) (filters : Obj) :
    ((∀ v, getKey "search" filters = some v → (∃ s, v = Val.str s) ∨ truthy (some v) = false) →
      ∃ q, getAllTasksQuery filters = Except.ok q ∧
        getAllTasks store filters = passThrough (store q) ∧
        q.table = "tasks" ∧ q.verb = Verb.select taskColumns ∧
        q.sortBy = some ("created_at", false) ∧ q.maxRows = none ∧ q.oneRow = false ∧
        q.filters
          = equalityPredicate filters "status" ++ equalityPredicate filters "priority"
            ++ equalityPredicate filters "category_id"
            ++ equalityPredicate filters "assignee_id" ++ searchPredicate filters ∧
        q.filters.Nodup ∧
        (∀ key value, Filter.eq key value ∈ q.filters
          ↔ key ∈ equalityFilters ∧ getKey key filters = some value
              ∧ truthy (some value) = true) ∧
        (∀ conditions, Filter.or conditions ∈ q.filters
          ↔ ∃ s, getKey "search" filters = some (Val.str s) ∧ jsTrim s ≠ ""
              ∧ conditions = searchConditions (jsTrim s)) ∧
        (∀ key value, Filter.neq key value ∉ q.filters)) ∧
    (∀ v, getKey "search" filters = some v → (∀ s, v ≠ Val.str s) → truthy (some v) = true →
      getAllTasks store filters
        = { data := none
            error := some (Failure.thrown "TypeError: filters.search.trim is not a function") }) ∧
    (∀ s, truthy (some (Val.str s)) = true ↔ s ≠ "") ∧
    (∀ term, searchConditions term
      = "title.ilike.%" ++ term ++ "%,description.ilike.%" ++ term ++ "%") ∧
    getAllTasksQuery []
      = Except.ok
          { table := "tasks", verb := Verb.select taskColumns, filters := [], returning := none
            sortBy := some ("created_at", false), maxRows := none, oneRow := false } := by
  refine ⟨?_, ?_, ?_, fun _ => rfl, rfl⟩
  · intro h
    have hq := getAllTasksQuery_eq filters h
    refine ⟨_, hq, ?_, rfl, rfl, rfl, rfl, rfl, rfl, nodup_predicates filters, ?_, ?_, ?_⟩
    · unfold getAllTasks
      rw [hq]
    · intro key value
      simp only [List.mem_append, mem_equalityPredicate, mem_searchPredicate, equalityFilters,
        List.mem_cons, List.mem_singleton, List.not_mem_nil, or_false]
      constructor
      · rintro ((((⟨v, hv, ht, e⟩ | ⟨v, hv, ht, e⟩) | ⟨v, hv, ht, e⟩) | ⟨v, hv, ht, e⟩)
            | ⟨s, _, _, e⟩)
        · cases e; exact ⟨Or.inl rfl, hv, ht⟩
        · cases e; exact ⟨Or.inr (Or.inl rfl), hv, ht⟩
        · cases e; exact ⟨Or.inr (Or.inr (Or.inl rfl)), hv, ht⟩
        · cases e; exact ⟨Or.inr (Or.inr (Or.inr rfl)), hv, ht⟩
        · cases e
      · rintro ⟨hk | hk | hk | hk, hv, ht⟩
        · subst hk; exact Or.inl (Or.inl (Or.inl (Or.inl ⟨value, hv, ht, rfl⟩)))
        · subst hk; exact Or.inl (Or.inl (Or.inl (Or.inr ⟨value, hv, ht, rfl⟩)))
        · subst hk; exact Or.inl (Or.inl (Or.inr ⟨value, hv, ht, rfl⟩))
        · subst hk; exact Or.inl (Or.inr ⟨value, hv, ht, rfl⟩)
    · intro conditions
      simp only [List.mem_append, mem_equalityPredicate, mem_searchPredicate]
      constructor
      · rintro ((((⟨v, _, _, e⟩ | ⟨v, _, _, e⟩) | ⟨v, _, _, e⟩) | ⟨v, _, _, e⟩)
            | ⟨s, hs, ht, e⟩)
        · cases e
        · cases e
        · cases e
        · cases e
        · cases e; exact ⟨s, hs, ht, rfl⟩
      · rintro ⟨s, hs, ht, e⟩
        exact Or.inr ⟨s, hs, ht, by rw [e]⟩
    · intro key value
      simp only [List.mem_append, mem_equalityPredicate, mem_searchPredicate]
      rintro ((((⟨v, _, _, e⟩ | ⟨v, _, _, e⟩) | ⟨v, _, _, e⟩) | ⟨v, _, _, e⟩) | ⟨s, _, _, e⟩) <;>
        cases e
  · intro v hv hs ht
    unfold getAllTasks getAllTasksQuery
    rw [searchClause_raises filters _ v hv hs ht]
  · intro s
    simp [truthy]

set_option maxRecDepth 100000 in
/-- C23 at `{assigned_to: 5}`: the filter `assigned_to` of the docstring is not
read.  The query is the one of `getAllTasks({})`, without a predicate, and
against a table with a task of user 5 and a task of user 7 both rows come
back; the filter that restricts to user 5 is `assignee_id`. -/
theorem getAllTasks_ignores_assigned_to :
    (∀ u, getAllTasksQuery [("assigned_to", u)] = getAllTasksQuery []) ∧
    (∃ q, getAllTasksQuery [("assigned_to", Val.num 5)] = Except.ok q ∧ q.filters = []) ∧
    getAllTasks (fetchRows (fun _ _ => false) sampleTaskTable) [("assigned_to", Val.num 5)]
      = { data := some sampleTaskTable, error := none } ∧
    getAllTasks (fetchRows (fun _ _ => false) sampleTaskTable) [("assignee_id", Val.num 5)]
      = { data := some
            [[("task_id", Val.num 1), ("title", Val.str "write report"),
              ("status", Val.str "进行中"), ("assignee_id", Val.num 5)]]
          error := none } := by
  refine ⟨fun u => rfl, ⟨_, rfl, rfl⟩, ?_, ?_⟩
  · rfl
  · rfl

/-! ## `handlePasswordSubmit` and `changeUserPassword` -/

/-- The traced function returns what `changeUserPassword` returns. -/
theorem changeUserPasswordTraced_result (store : Store Obj) (userId : Val)
    (currentPassword newPassword : String) :
    (changeUserPasswordTraced store userId currentPassword newPassword).result
      = changeUserPassword store userId currentPassword newPassword := by
  unfold changeUserPasswordTraced changeUserPassword
  cases store (currentPasswordQuery userId) with
  | rejected err => rfl
  | resolved reply =>
    obtain ⟨d, e⟩ := reply
    cases e with
    | some e => rfl
    | none =>
      cases d with
      | none => rfl
      | some user =>
        simp only []
        split_ifs <;> rfl

/-- Every call of `changeUserPassword` starts with the query for the stored
password. -/
theorem changeUserPasswordTraced_sent (store : Store Obj) (userId : Val)
    (currentPassword newPassword : String) :
    (changeUserPasswordTraced store userId currentPassword newPassword).sent
        = [currentPasswordQuery userId] ∨
    (changeUserPasswordTraced store userId currentPassword newPassword).sent
        = [currentPasswordQuery userId, newPasswordQuery userId newPassword] := by
  unfold changeUserPasswordTraced
  cases store (currentPasswordQuery userId) with
  | rejected err => exact Or.inl rfl
  | resolved reply =>
    obtain ⟨d, e⟩ := reply
    cases e with
    | some e => exact Or.inl rfl
    | none =>
      cases d with
      | none => exact Or.inl rfl
      | some user =>
        simp only []
        split_ifs
        · exact Or.inl rfl
        · exact Or.inr rfl

theorem jsLength_empty : jsLength "" = 0 := rfl

theorem charUnits_length_pos (c : Char) : 0 < (charUnits c).length := by
  unfold charUnits
  split_ifs <;> simp

theorem jsLength_eq_zero (s : String) : jsLength s = 0 ↔ s = "" := by
  constructor
  · intro h
    unfold jsLength at h
    obtain ⟨l⟩ := s
    cases l with
    | nil => rfl
    | cons c cs =>
      have := charUnits_length_pos c
      simp only [codeUnits, List.length_append] at h
      omega
  · intro h
    rw [h]
    rfl

/-- For a string of characters of the basic plane, `length` is the number of
characters. -/
theorem codeUnits_length_basic (l : List Char) (h : ∀ c ∈ l, c.toNat < 65536) :
    (codeUnits l).length = l.length := by
  induction l with
  | nil => rfl
  | cons c cs ih =>
    have hc := h c (List.mem_cons_self c cs)
    have hcs := ih (fun d hd => h d (List.mem_cons_of_mem c hd))
    simp only [codeUnits, List.length_append, List.length_cons, hcs, charUnits, hc, if_true,
      List.length_nil]
    omega

/-- C24: `handlePasswordSubmit` calls `changeUserPassword` if and only if the
current password is not empty, the new password is not empty and has a
`length` of at least 6, the confirmation equals the new password and the new
password differs from the current one; then it calls it once, with the
current user's id and the two passwords.  In every other case it sets one of
five messages as the local error, leaves the form as it is, makes no call and
sends nothing to the store. -/
theorem handlePasswordSubmit_validates_first (store : Store Obj) (currentUser : CurrentUser)
    (s : SettingsState) :
    ((handlePasswordSubmit store currentUser s).calls ≠ []
      ↔ s.passwordForm.currentPassword ≠ "" ∧ s.passwordForm.newPassword ≠ ""
          ∧ 6 ≤ jsLength s.passwordForm.newPassword
          ∧ s.passwordForm.confirmPassword = s.passwordForm.newPassword
          ∧ s.passwordForm.newPassword ≠ s.passwordForm.currentPassword) ∧
    ((handlePasswordSubmit store currentUser s).calls ≠ [] →
      (handlePasswordSubmit store currentUser s).calls
          = [{ userId := Val.num currentUser.user_id
               currentPassword := s.passwordForm.currentPassword
               newPassword := s.passwordForm.newPassword }] ∧
        (handlePasswordSubmit store currentUser s).sent
          = (changeUserPasswordTraced store (Val.num currentUser.user_id)
              s.passwordForm.currentPassword s.passwordForm.newPassword).sent) ∧
    ((handlePasswordSubmit store currentUser s).calls = [] →
      (handlePasswordSubmit store currentUser s).sent = [] ∧
      (handlePasswordSubmit store currentUser s).state.passwordForm = s.passwordForm ∧
      (handlePasswordSubmit store currentUser s).state.success = s.success ∧
      (handlePasswordSubmit store currentUser s).state.error
        ∈ ["请输入当前密码", "请输入新密码", "新密码长度至少6位", "两次输入的新密码不一致",
            "新密码不能与当前密码相同"]) ∧
    (s.passwordForm.confirmPassword ≠ s.passwordForm.newPassword →
      (handlePasswordSubmit store currentUser s).calls = []) ∧
    (jsLength s.passwordForm.newPassword < 6 →
      (handlePasswordSubmit store currentUser s).calls = []) ∧
    ((∀ c ∈ s.passwordForm.newPassword.toList, c.toNat < 65536) →
      jsLength s.passwordForm.newPassword = s.passwordForm.newPassword.length) := by
  have key : (s.passwordForm.currentPassword ≠ "" ∧ s.passwordForm.newPassword ≠ ""
        ∧ 6 ≤ jsLength s.passwordForm.newPassword
        ∧ s.passwordForm.confirmPassword = s.passwordForm.newPassword
        ∧ s.passwordForm.newPassword ≠ s.passwordForm.currentPassword →
      (handlePasswordSubmit store currentUser s).calls
          = [{ userId := Val.num currentUser.user_id
               currentPassword := s.passwordForm.currentPassword
               newPassword := s.passwordForm.newPassword }] ∧
        (handlePasswordSubmit store currentUser s).sent
          = (changeUserPasswordTraced store (Val.num currentUser.user_id)
              s.passwordForm.currentPassword s.passwordForm.newPassword).sent) ∧
    (¬ (s.passwordForm.currentPassword ≠ "" ∧ s.passwordForm.newPassword ≠ ""
        ∧ 6 ≤ jsLength s.passwordForm.newPassword
        ∧ s.passwordForm.confirmPassword = s.passwordForm.newPassword
        ∧ s.passwordForm.newPassword ≠ s.passwordForm.currentPassword) →
      (handlePasswordSubmit store currentUser s).calls = [] ∧
      (handlePasswordSubmit store currentUser s).sent = [] ∧
      (handlePasswordSubmit store currentUser s).state.passwordForm = s.passwordForm ∧
      (handlePasswordSubmit store currentUser s).state.success = s.success ∧
      (handlePasswordSubmit store currentUser s).state.error
        ∈ ["请输入当前密码", "请输入新密码", "新密码长度至少6位", "两次输入的新密码不一致",
            "新密码不能与当前密码相同"]) := by
    unfold handlePasswordSubmit
    by_cases h1 : s.passwordForm.currentPassword = ""
    · rw [if_pos h1]
      exact ⟨fun h => (h.1 h1).elim, fun _ => ⟨rfl, rfl, rfl, rfl, by simp⟩⟩
    rw [if_neg h1]
    by_cases h2 : s.passwordForm.newPassword = ""
    · rw [if_pos h2]
      exact ⟨fun h => (h.2.1 h2).elim, fun _ => ⟨rfl, rfl, rfl, rfl, by simp⟩⟩
    rw [if_neg h2]
    by_cases h3 : jsLength s.passwordForm.newPassword < 6
    · rw [if_pos h3]
      exact ⟨fun h => (Nat.not_lt.mpr h.2.2.1 h3).elim, fun _ => ⟨rfl, rfl, rfl, rfl, by simp⟩⟩
    rw [if_neg h3]
    by_cases h4 : s.passwordForm.newPassword ≠ s.passwordForm.confirmPassword
    · rw [if_pos h4]
      exact ⟨fun h => (h4 h.2.2.2.1.symm).elim, fun _ => ⟨rfl, rfl, rfl, rfl, by simp⟩⟩
    rw [if_neg h4]
    by_cases h5 : s.passwordForm.currentPassword = s.passwordForm.newPassword
    · rw [if_pos h5]
      exact ⟨fun h => (h.2.2.2.2 h5.symm).elim, fun _ => ⟨rfl, rfl, rfl, rfl, by simp⟩⟩
    rw [if_neg h5]
    refine ⟨fun _ => ?_, fun hn => ?_⟩
    · simp only []
      cases (changeUserPasswordTraced store (Val.num currentUser.user_id)
        s.passwordForm.currentPassword s.passwordForm.newPassword).result.error <;>
        exact ⟨rfl, rfl⟩
    · exfalso
      exact hn ⟨h1, h2, Nat.not_lt.mp h3, (not_not.mp h4).symm, fun e => h5 e.symm⟩
  obtain ⟨kv, kn⟩ := key
  have iff : (handlePasswordSubmit store currentUser s).calls ≠ []
      ↔ s.passwordForm.currentPassword ≠ "" ∧ s.passwordForm.newPassword ≠ ""
          ∧ 6 ≤ jsLength s.passwordForm.newPassword
          ∧ s.passwordForm.confirmPassword = s.passwordForm.newPassword
          ∧ s.passwordForm.newPassword ≠ s.passwordForm.currentPassword := by
    constructor
    · intro hc
      by_contra hv
      exact hc (kn hv).1
    · intro hv hc
      rw [(kv hv).1] at hc
      cases hc
  refine ⟨iff, ?_, ?_, ?_, ?_, ?_⟩
  · intro hc
    exact kv (iff.mp hc)
  · intro hc
    have hv : ¬ _ := fun hv => (iff.mpr hv) hc
    exact (kn hv).2
  · intro hne
    exact (kn (fun hv => hne hv.2.2.2.1)).1
  · intro hlt
    exact (kn (fun hv => Nat.not_lt.mpr hv.2.2.1 hlt)).1
  · intro hb
    exact codeUnits_length_basic _ hb

theorem tableAfter_select (orHolds : String → Obj → Bool) (table : List Obj) (q : Query)
    (columns : String) (h : q.verb = Verb.select columns) : tableAfter orHolds table q = table := by
  unfold tableAfter
  rw [h]

theorem tableAfter_newPassword (orHolds : String → Obj → Bool) (table : List Obj) (userId : Val)
    (newPassword : String) :
    tableAfter orHolds table (newPasswordQuery userId newPassword)
      = table.map (fun row =>
          if Filter.holds orHolds row (Filter.eq "user_id" userId) then
            setKey "password" (Val.str newPassword) row
          else row) := by
  unfold tableAfter newPasswordQuery
  simp [fromTable, Query.eq, Query.select, Query.single, patchRow]

/-- C25: `changeUserPassword` first fetches the stored password.  If the row's
password is not `currentPassword` it returns `data: null` with an error whose
message is `当前密码不正确`, and if the fetch fails it returns that error; in both
cases the fetch is the only query it sends, and a fetch leaves the table as it
is.  Only when the stored password is `currentPassword` does it send a second
query, the update of the rows with that `user_id` with the values
`{ password: newPassword }`, which overwrites `password` and no other column,
and it returns the store's answer to it.  Against a table in which user 5 holds
the password `secret5`, a change with the current password `wrong` is refused
after the fetch. -/
theorem changeUserPassword_verifies_first (store : Store Obj) (userId : Val)
    (currentPassword newPassword : String) :
    (changeUserPasswordTraced store userId currentPassword newPassword).result
      = changeUserPassword store userId currentPassword newPassword ∧
    (∀ user, store (currentPasswordQuery userId)
        = Awaited.resolved { data := some user, error := none } →
      getKey "password" user ≠ some (Val.str currentPassword) →
      changeUserPasswordTraced store userId currentPassword newPassword
        = { result := { data := none, error := some (Failure.own "当前密码不正确") }
            sent := [currentPasswordQuery userId] }) ∧
    (Failure.own "当前密码不正确").message = "当前密码不正确" ∧
    (∀ d e, store (currentPasswordQuery userId)
        = Awaited.resolved { data := d, error := some e } →
      changeUserPasswordTraced store userId currentPassword newPassword
        = { result := { data := none, error := some e }, sent := [currentPasswordQuery userId] }) ∧
    (∀ reason, store (currentPasswordQuery userId) = Awaited.rejected reason →
      changeUserPasswordTraced store userId currentPassword newPassword
        = { result := { data := none, error := some reason }
            sent := [currentPasswordQuery userId] }) ∧
    (∀ user, store (currentPasswordQuery userId)
        = Awaited.resolved { data := some user, error := none } →
      getKey "password" user = some (Val.str currentPassword) →
      changeUserPasswordTraced store userId currentPassword newPassword
        = { result := passThrough (store (newPasswordQuery userId newPassword))
            sent := [currentPasswordQuery userId, newPasswordQuery userId newPassword] }) ∧
    ((∃ q ∈ (changeUserPasswordTraced store userId currentPassword newPassword).sent,
        ∃ values, q.verb = Verb.update values)
      ↔ ∃ user, store (currentPasswordQuery userId)
            = Awaited.resolved { data := some user, error := none } ∧
          getKey "password" user = some (Val.str currentPassword)) ∧
    ((currentPasswordQuery userId).table = "users" ∧
      (currentPasswordQuery userId).verb = Verb.select "password,username" ∧
      (currentPasswordQuery userId).filters = [Filter.eq "user_id" userId]) ∧
    ((newPasswordQuery userId newPassword).table = "users" ∧
      (newPasswordQuery userId newPassword).verb
        = Verb.update [("password", Val.str newPassword)] ∧
      (newPasswordQuery userId newPassword).filters = [Filter.eq "user_id" userId]) ∧
    (∀ orHolds table, tableAfter orHolds table (currentPasswordQuery userId) = table) ∧
    (∀ orHolds table, tableAfter orHolds table (newPasswordQuery userId newPassword)
      = table.map (fun row =>
          if Filter.holds orHolds row (Filter.eq "user_id" userId) then
            setKey "password" (Val.str newPassword) row
          else row)) ∧
    (∀ row : Obj, getKey "password" (setKey "password" (Val.str newPassword) row)
        = some (Val.str newPassword) ∧
      ∀ key, key ≠ "password" →
        getKey key (setKey "password" (Val.str newPassword) row) = getKey key row) ∧
    changeUserPasswordTraced (fetchOne (fun _ _ => false) (sampleUsers.map UserRecord.toObj))
        (Val.num 5) "wrong" "newsecret"
      = { result := { data := none, error := some (Failure.own "当前密码不正确") }
          sent := [currentPasswordQuery (Val.num 5)] } := by
  have hmis : ∀ user, store (currentPasswordQuery userId)
        = Awaited.resolved { data := some user, error := none } →
      getKey "password" user ≠ some (Val.str currentPassword) →
      changeUserPasswordTraced store userId currentPassword newPassword
        = { result := { data := none, error := some (Failure.own "当前密码不正确") }
            sent := [currentPasswordQuery userId] } := by
    intro user h hne
    unfold changeUserPasswordTraced
    rw [h]
    simp only []
    rw [if_pos hne]
  have herr : ∀ d e, store (currentPasswordQuery userId)
        = Awaited.resolved { data := d, error := some e } →
      changeUserPasswordTraced store userId currentPassword newPassword
        = { result := { data := none, error := some e }
            sent := [currentPasswordQuery userId] } := by
    intro d e h
    unfold changeUserPasswordTraced
    rw [h]
  have hrej : ∀ reason, store (currentPasswordQuery userId) = Awaited.rejected reason →
      changeUserPasswordTraced store userId currentPassword newPassword
        = { result := { data := none, error := some reason }
            sent := [currentPasswordQuery userId] } := by
    intro reason h
    unfold changeUserPasswordTraced
    rw [h]
  have hnull : store (currentPasswordQuery userId)
        = Awaited.resolved { data := none, error := none } →
      changeUserPasswordTraced store userId currentPassword newPassword
        = { result := { data := none, error := some nullRows }
            sent := [currentPasswordQuery userId] } := by
    intro h
    unfold changeUserPasswordTraced
    rw [h]
  have hok : ∀ user, store (currentPasswordQuery userId)
        = Awaited.resolved { data := some user, error := none } →
      getKey "password" user = some (Val.str currentPassword) →
      changeUserPasswordTraced store userId currentPassword newPassword
        = { result := passThrough (store (newPasswordQuery userId newPassword))
            sent := [currentPasswordQuery userId, newPasswordQuery userId newPassword] } := by
    intro user h heq
    unfold changeUserPasswordTraced
    rw [h]
    simp only []
    rw [if_neg (fun hne => hne heq)]
  have hsel : ∀ values, (currentPasswordQuery userId).verb ≠ Verb.update values := by
    intro values h
    cases h
  have hone : (∃ q ∈ [currentPasswordQuery userId], ∃ values, q.verb = Verb.update values)
      → False := by
    rintro ⟨q, hq, values, hv⟩
    rw [List.mem_singleton] at hq
    rw [hq] at hv
    exact hsel values hv
  refine ⟨changeUserPasswordTraced_result store userId currentPassword newPassword, hmis, rfl,
    herr, hrej, hok, ?_, ⟨rfl, rfl, rfl⟩, ⟨rfl, rfl, rfl⟩,
    fun orHolds table => tableAfter_select orHolds table _ _ rfl,
    fun orHolds table => tableAfter_newPassword orHolds table userId newPassword,
    fun row => ⟨by rw [getKey_setKey]; simp, fun key hk => by rw [getKey_setKey]; simp [hk]⟩,
    rfl⟩
  constructor
  · intro hsent
    cases hst : store (currentPasswordQuery userId) with
    | rejected reason => rw [hrej reason hst] at hsent; exact (hone hsent).elim
    | resolved reply =>
      obtain ⟨d, e⟩ := reply
      cases e with
      | some e => rw [herr d e hst] at hsent; exact (hone hsent).elim
      | none =>
        cases d with
        | none => rw [hnull hst] at hsent; exact (hone hsent).elim
        | some user =>
          by_cases hp : getKey "password" user = some (Val.str currentPassword)
          · exact ⟨user, rfl, hp⟩
          · rw [hmis user hst hp] at hsent; exact (hone hsent).elim
  · rintro ⟨user, hst, hp⟩
    rw [hok user hst hp]
    exact ⟨newPasswordQuery userId newPassword, by simp, _, rfl⟩

theorem getKey_patchRow_single (key column : String) (value : Val) (row : Obj)
    (h : key ≠ column) : getKey key (patchRow [(column, value)] row) = getKey key row := by
  simp only [patchRow, List.foldl_cons, List.foldl_nil]
  rw [getKey_setKey]
  simp [h]

theorem profileUpdateData_cases (profileData : Obj) :
    (∀ username, getKey "username" profileData = some username →
      profileUpdateData profileData = [("username", username)]) ∧
    (getKey "username" profileData = none → profileUpdateData profileData = []) := by
  unfold profileUpdateData
  constructor
  · intro username h
    rw [h]
  · intro h
    rw [h]

/-- C26: whatever properties `profileData` carries, `updateUserProfile` sends
one update of the rows of `users` with that `user_id` whose values are the
property `username` of `profileData` and nothing else, so that two objects
with the same `username` give the same query; the update overwrites `username`
in those rows and leaves `role` and every other column of every row
unchanged. -/
theorem updateUserProfile_username_only {ρ : Type} (store : Store ρ) (userId : Val)
    (profileData : Obj) :
    updateUserProfile store userId profileData
      = passThrough (store (updateUserProfileQuery userId profileData)) ∧
    (updateUserProfileQuery userId profileData).table = "users" ∧
    (updateUserProfileQuery userId profileData).verb
      = Verb.update (profileUpdateData profileData) ∧
    (updateUserProfileQuery userId profileData).filters = [Filter.eq "user_id" userId] ∧
    (∀ key value, (key, value) ∈ profileUpdateData profileData →
      key = "username" ∧ getKey "username" profileData = some value) ∧
    (∀ username, getKey "username" profileData = some username →
      profileUpdateData profileData = [("username", username)]) ∧
    (∀ other : Obj, getKey "username" other = getKey "username" profileData →
      updateUserProfileQuery userId other = updateUserProfileQuery userId profileData) ∧
    (∀ orHolds table, tableAfter orHolds table (updateUserProfileQuery userId profileData)
      = table.map (fun row =>
          if Filter.holds orHolds row (Filter.eq "user_id" userId) then
            patchRow (profileUpdateData profileData) row
          else row)) ∧
    (∀ (row : Obj) key, key ≠ "username" →
      getKey key (patchRow (profileUpdateData profileData) row) = getKey key row) ∧
    profileUpdateData
        [("username", Val.str "eve"), ("role", Val.str "admin"), ("password", Val.str "x"),
          ("user_id", Val.num 1)]
      = [("username", Val.str "eve")] := by
  obtain ⟨hsome, hnone⟩ := profileUpdateData_cases profileData
  refine ⟨rfl, rfl, rfl, rfl, ?_, hsome, ?_, ?_, ?_, rfl⟩
  · intro key value hmem
    cases hu : getKey "username" profileData with
    | none =>
      rw [hnone hu] at hmem
      cases hmem
    | some username =>
      rw [hsome username hu, List.mem_singleton] at hmem
      cases hmem
      exact ⟨rfl, rfl⟩
  · intro other h
    unfold updateUserProfileQuery profileUpdateData
    rw [h]
  · intro orHolds table
    unfold tableAfter updateUserProfileQuery
    simp [fromTable, Query.eq, Query.select, Query.single]
  · intro row key hk
    cases hu : getKey "username" profileData with
    | none =>
      rw [hnone hu]
      rfl
    | some username =>
      rw [hsome username hu]
      exact getKey_patchRow_single key "username" username row hk

/-! ## The groups of `getUserWorkloadStatistics` -/

/-- `Object.values` lists every value once. -/
theorem objectValues_perm {α : Type} (obj : List (Nat × α)) :
    (objectValues obj).Perm (obj.map Prod.snd) := by
  unfold objectValues
  have h1 : (((obj.filter (fun p => isArrayIndex p.1)).insertionSort
      (fun a b => a.1 ≤ b.1)).map Prod.snd).Perm
      ((obj.filter (fun p => isArrayIndex p.1)).map Prod.snd) :=
    (List.perm_insertionSort _ _).map _
  have h2 := (List.filter_append_perm (fun p : Nat × α => isArrayIndex p.1) obj).map Prod.snd
  rw [List.map_append] at h2
  exact (List.Perm.append_right _ h1).trans h2

/-- The `userId`s of the records are the keys of `userWorkload`. -/
theorem userIds_workload (tasks : List TaskRow) :
    (((objectValues (tasks.foldl workloadStep [])).map withRate).map
        (fun r => r.userId)).Perm
      ((tasks.foldl workloadStep []).map Prod.fst) := by
  have hn := keys_nodup_workload tasks [] List.nodup_nil
  have hp := ((objectValues_perm (tasks.foldl workloadStep [])).map withRate).map
    (fun r => r.userId)
  refine hp.trans (List.Perm.of_eq ?_)
  rw [List.map_map, List.map_map]
  apply List.map_congr_left
  intro p hp
  exact userId_workload tasks [] (fun k v h => by simp [getKey] at h) p.1 p.2
    (mem_getKey _ hn p hp)

/-- Rows that the grouping skips can be left out. -/
theorem foldl_workloadStep_filter (tasks : List TaskRow) :
    ∀ obj : List (Nat × UserWorkload),
    (tasks.filter (fun t => truthyId t.assignee_id)).foldl workloadStep obj
      = tasks.foldl workloadStep obj := by
  induction tasks with
  | nil => intro obj; rfl
  | cons t ts ih =>
    intro obj
    cases htr : truthyId t.assignee_id
    · rw [List.filter_cons_of_neg (by simp [htr]), List.foldl_cons, workloadStep_skip obj t htr]
      exact ih obj
    · rw [List.filter_cons_of_pos (by simp [htr]), List.foldl_cons, List.foldl_cons]
      exact ih _

/-- The totals of the groups add up to the number of assigned rows. -/
theorem sum_totals_workload (tasks : List TaskRow) :
    ((((objectValues (tasks.foldl workloadStep [])).map withRate).map
        (fun r => r.total))).sum
      = (tasks.filter (fun t => truthyId t.assignee_id)).length := by
  have hn := keys_nodup_workload tasks [] List.nodup_nil
  have hperm := userIds_workload tasks
  have h1 : ∀ records : List WorkloadRecord,
      (∀ r ∈ records, r ∈ (objectValues (tasks.foldl workloadStep [])).map withRate) →
      records.map (fun r => r.total)
        = (records.map (fun r => r.userId)).map
          (fun k => (tasks.filter
            (fun t => decide (t.assignee_id.getD 0 = k) && truthyId t.assignee_id)).length) := by
    intro records hrec
    rw [List.map_map]
    apply List.map_congr_left
    intro r hr
    obtain ⟨h0, htot, _⟩ := record_workload tasks r (hrec r hr)
    rw [htot]
    simp only [Function.comp]
    congr 1
    apply List.filter_congr
    intro t _
    cases ha : t.assignee_id with
    | none => simp [truthyId]
    | some id =>
      by_cases e : id = r.userId
      · subst e
        simp [truthyId, h0]
      · simp [e]
  rw [h1 _ (fun r hr => hr), (hperm.map _).sum_eq, sum_filter_by_key (fun t : TaskRow => t.assignee_id.getD 0)
    (fun t => truthyId t.assignee_id) tasks _ hn]
  congr 1
  apply List.filter_congr
  intro t ht
  cases htr : truthyId t.assignee_id
  · simp
  · obtain ⟨id, ha, h0⟩ := (truthyId_eq_true_iff _).mp htr
    have hmem : id ∈ (tasks.foldl workloadStep []).map Prod.fst :=
      (keys_mem_workload tasks id []).mpr (Or.inr ⟨h0, t, ht, ha⟩)
    simp [ha, hmem]

/-- C27: the records of `userWorkloads` correspond one-to-one to the distinct
assignee ids of the rows that pass the test `if (task.assignee_id)`: no two
records share a `userId`, a row is grouped exactly when its `assignee_id` is
truthy (an `assignee_id` of `null` never is), every record has `total >= 1`
and the totals add up to `summary.totalAssignedTasks`.  The rows that are
skipped count in `summary.unassignedTasks` only: without them the records,
`totalAssignedTasks` and the average are the same.  Where no row carries the
id 0, a row is skipped exactly when its `assignee_id` is `null`. -/
theorem workload_groups (tasks : List TaskRow) :
    ∃ s, getUserWorkloadStatistics { data := some tasks, error := none }
        = { data := some s, error := none } ∧
      (s.userWorkloads.map (fun r => r.userId)).Nodup ∧
      (∀ k, k ∈ s.userWorkloads.map (fun r => r.userId)
        ↔ k ≠ 0 ∧ ∃ t ∈ tasks, t.assignee_id = some k) ∧
      s.userWorkloads.length
        = ((tasks.filterMap (fun t => t.assignee_id)).filter (fun k => k ≠ 0)).dedup.length ∧
      (∀ t ∈ tasks, (∃ r ∈ s.userWorkloads, t.assignee_id = some r.userId)
        ↔ truthyId t.assignee_id = true) ∧
      (∀ t : TaskRow, t.assignee_id = none → truthyId t.assignee_id = false) ∧
      (∀ r ∈ s.userWorkloads, 1 ≤ r.total) ∧
      (s.userWorkloads.map (fun r => r.total)).sum = s.summary.totalAssignedTasks ∧
      s.summary.unassignedTasks = (tasks.filter (fun t => !truthyId t.assignee_id)).length ∧
      (∃ s2, getUserWorkloadStatistics
            { data := some (tasks.filter (fun t => truthyId t.assignee_id)), error := none }
          = { data := some s2, error := none } ∧
        s2.userWorkloads = s.userWorkloads ∧
        s2.summary.totalAssignedTasks = s.summary.totalAssignedTasks ∧
        s2.summary.averageTasksPerUser = s.summary.averageTasksPerUser ∧
        s2.summary.unassignedTasks = 0) ∧
      ((∀ t ∈ tasks, t.assignee_id ≠ some 0) →
        (∀ t ∈ tasks, (∃ r ∈ s.userWorkloads, t.assignee_id = some r.userId)
          ↔ t.assignee_id ≠ none) ∧
        (∀ k, k ∈ s.userWorkloads.map (fun r => r.userId)
          ↔ ∃ t ∈ tasks, t.assignee_id = some k) ∧
        s.summary.unassignedTasks
          = (tasks.filter (fun t => t.assignee_id = none)).length) := by
  have hperm := userIds_workload tasks
  have hn := keys_nodup_workload tasks [] List.nodup_nil
  have hmem : ∀ k, k ∈ ((objectValues (tasks.foldl workloadStep [])).map withRate).map
        (fun r => r.userId)
      ↔ k ≠ 0 ∧ ∃ t ∈ tasks, t.assignee_id = some k := by
    intro k
    rw [hperm.mem_iff, keys_mem_workload tasks k []]
    simp
  have hnodup : (((objectValues (tasks.foldl workloadStep [])).map withRate).map
      (fun r => r.userId)).Nodup := hperm.nodup_iff.mpr hn
  have hgrouped : ∀ t ∈ tasks,
      (∃ r ∈ (objectValues (tasks.foldl workloadStep [])).map withRate,
          t.assignee_id = some r.userId)
        ↔ truthyId t.assignee_id = true := by
    intro t ht
    constructor
    · rintro ⟨r, hr, ha⟩
      have h0 := ((hmem r.userId).mp (List.mem_map_of_mem (fun r => r.userId) hr)).1
      exact (truthyId_eq_true_iff _).mpr ⟨_, ha, h0⟩
    · intro htr
      obtain ⟨id, ha, h0⟩ := (truthyId_eq_true_iff _).mp htr
      obtain ⟨r, hr, hid⟩ := List.mem_map.mp ((hmem id).mpr ⟨h0, t, ht, ha⟩)
      exact ⟨r, hr, by rw [ha, hid]⟩
  refine ⟨_, getUserWorkloadStatistics_ok tasks, hnodup, hmem, ?_, hgrouped, ?_, ?_,
    sum_totals_workload tasks, rfl, ?_, ?_⟩
  · have hp : (((objectValues (tasks.foldl workloadStep [])).map withRate).map
        (fun r => r.userId)).Perm
        ((tasks.filterMap (fun t => t.assignee_id)).filter (fun k => k ≠ 0)).dedup := by
      rw [List.perm_ext_iff_of_nodup hnodup (List.nodup_dedup _)]
      intro k
      rw [hmem k, List.mem_dedup, List.mem_filter, List.mem_filterMap]
      simp only [ne_eq, decide_not, Bool.not_eq_true', decide_eq_false_iff_not]
      tauto
    have hl := hp.length_eq
    rw [List.length_map] at hl
    exact hl
  · intro t ha
    rw [ha]
    rfl
  · intro r hr
    obtain ⟨_, htot, _⟩ := record_workload tasks r hr
    obtain ⟨_, t, ht, ha⟩ := (hmem r.userId).mp (List.mem_map_of_mem (fun r => r.userId) hr)
    rw [htot]
    exact List.length_pos_of_mem (List.mem_filter.mpr ⟨ht, by simp [ha]⟩)
  · refine ⟨_, getUserWorkloadStatistics_ok _, ?_, ?_, ?_, ?_⟩
    · show (objectValues ((tasks.filter (fun t => truthyId t.assignee_id)).foldl
          workloadStep [])).map withRate = _
      rw [foldl_workloadStep_filter]
    · show ((tasks.filter (fun t => truthyId t.assignee_id)).filter
          (fun t => truthyId t.assignee_id)).length = _
      rw [List.filter_filter]
      simp
    · show (if ((objectValues ((tasks.filter (fun t => truthyId t.assignee_id)).foldl
          workloadStep [])).map withRate).length > 0 then
          mathRound (Dbl.div
            (Dbl.ofNat ((tasks.filter (fun t => truthyId t.assignee_id)).filter
              (fun t => truthyId t.assignee_id)).length)
            (Dbl.ofNat ((objectValues ((tasks.filter (fun t => truthyId t.assignee_id)).foldl
              workloadStep [])).map withRate).length))
          else 0) = _
      rw [foldl_workloadStep_filter, List.filter_filter]
      simp only [Bool.and_self]
    · show ((tasks.filter (fun t => truthyId t.assignee_id)).filter
          (fun t => !truthyId t.assignee_id)).length = 0
      rw [List.filter_filter, List.length_eq_zero, List.filter_eq_nil_iff]
      intro t _
      simp
  · intro hzero
    have htruthy : ∀ t ∈ tasks, (truthyId t.assignee_id = true ↔ t.assignee_id ≠ none) := by
      intro t ht
      rw [truthyId_eq_true_iff]
      constructor
      · rintro ⟨id, ha, _⟩ hnone
        rw [ha] at hnone
        cases hnone
      · intro hne
        cases ha : t.assignee_id with
        | none => exact (hne ha).elim
        | some id =>
          refine ⟨id, rfl, ?_⟩
          intro h0
          subst h0
          exact hzero t ht ha
    refine ⟨fun t ht => (hgrouped t ht).trans (htruthy t ht), ?_, ?_⟩
    · intro k
      rw [hmem k]
      constructor
      · rintro ⟨_, h⟩
        exact h
      · rintro ⟨t, ht, ha⟩
        refine ⟨?_, t, ht, ha⟩
        intro h0
        subst h0
        exact hzero t ht ha
    · show (tasks.filter (fun t => !truthyId t.assignee_id)).length = _
      congr 1
      apply List.filter_congr
      intro t ht
      have := htruthy t ht
      cases htr : truthyId t.assignee_id
      · have hnone : t.assignee_id = none := by
          by_contra hne
          have := this.mpr hne
          rw [htr] at this
          cases this
        simp [hnone]
      · have hne := this.mp htr
        simp [hne]

/-! ## Buckets and rows outside them -/

/-- The buckets of pairwise different values and the rows outside them count
every row once. -/
theorem buckets_and_rest {α : Type} (f : α → String) (keys : List String) (hn : keys.Nodup)
    (rows : List α) :
    (keys.map (fun k => (rows.filter (fun r => f r = k)).length)).sum
      + (rows.filter (fun r => f r ∉ keys)).length = rows.length := by
  have h := sum_filter_by_key f (fun _ => true) rows keys hn
  simp only [Bool.and_true] at h
  rw [h]
  have h2 := length_filter_not (fun r => decide (f r ∈ keys)) rows
  simp only [decide_not]
  exact h2

/-- C28: every bucket of `byStatus`, `byPriority` and `byRole` is the number of
rows whose field is exactly the bucket's value, and `total` is the number of
rows; the buckets together with the rows that hold none of the recognised
values count every row once, so a row with an unrecognised value is in no
bucket and in `total`. -/
theorem histogram_buckets_count (monthKey : Int → String) (tasks : List TaskRow)
    (users : List UserRow) :
    (∃ s, getTaskStatistics { data := some tasks, error := none }
          = { data := some s, error := none } ∧
        s.total = tasks.length ∧
        s.byStatus.pending = (tasks.filter (fun t => t.status = "待领取")).length ∧
        s.byStatus.inProgress = (tasks.filter (fun t => t.status = "进行中")).length ∧
        s.byStatus.completed = (tasks.filter (fun t => t.status = "已完成")).length ∧
        s.byStatus.overdue = (tasks.filter (fun t => t.status = "已逾期")).length ∧
        s.byPriority.low = (tasks.filter (fun t => t.priority = "low")).length ∧
        s.byPriority.medium = (tasks.filter (fun t => t.priority = "medium")).length ∧
        s.byPriority.high = (tasks.filter (fun t => t.priority = "high")).length ∧
        s.byStatus.pending + s.byStatus.inProgress + s.byStatus.completed + s.byStatus.overdue
          + (tasks.filter
              (fun t => t.status ∉ ["待领取", "进行中", "已完成", "已逾期"])).length = s.total ∧
        s.byPriority.low + s.byPriority.medium + s.byPriority.high
          + (tasks.filter (fun t => t.priority ∉ ["low", "medium", "high"])).length
          = s.total) ∧
    (∃ u, getUserStatistics monthKey { data := some users, error := none }
          = { data := some u, error := none } ∧
        u.total = users.length ∧
        u.byRole.admin = (users.filter (fun r => r.role = "admin")).length ∧
        u.byRole.user = (users.filter (fun r => r.role = "user")).length ∧
        u.byRole.admin + u.byRole.user
          + (users.filter (fun r => r.role ∉ ["admin", "user"])).length = u.total) := by
  refine ⟨⟨_, rfl, rfl, rfl, rfl, rfl, rfl, rfl, rfl, rfl, ?_, ?_⟩, ⟨_, rfl, rfl, rfl, rfl, ?_⟩⟩
  · have h := buckets_and_rest TaskRow.status ["待领取", "进行中", "已完成", "已逾期"]
      (by decide) tasks
    simp only [List.map_cons, List.map_nil, List.sum_cons, List.sum_nil] at h
    show (tasks.filter (fun t => t.status = "待领取")).length
      + (tasks.filter (fun t => t.status = "进行中")).length
      + (tasks.filter (fun t => t.status = "已完成")).length
      + (tasks.filter (fun t => t.status = "已逾期")).length
      + (tasks.filter
          (fun t => t.status ∉ ["待领取", "进行中", "已完成", "已逾期"])).length = tasks.length
    omega
  · have h := buckets_and_rest TaskRow.priority ["low", "medium", "high"] (by decide) tasks
    simp only [List.map_cons, List.map_nil, List.sum_cons, List.sum_nil] at h
    show (tasks.filter (fun t => t.priority = "low")).length
      + (tasks.filter (fun t => t.priority = "medium")).length
      + (tasks.filter (fun t => t.priority = "high")).length
      + (tasks.filter (fun t => t.priority ∉ ["low", "medium", "high"])).length = tasks.length
    omega
  · have h := buckets_and_rest UserRow.role ["admin", "user"] (by decide) users
    simp only [List.map_cons, List.map_nil, List.sum_cons, List.sum_nil] at h
    show (users.filter (fun r => r.role = "admin")).length
      + (users.filter (fun r => r.role = "user")).length
      + (users.filter (fun r => r.role ∉ ["admin", "user"])).length = users.length
    omega

/-! ## The assigned breakdown of `getUserPersonalStats` -/

/-- C29: the four counters of the assigned breakdown do not split the assigned
rows.  At the clock reading 1000, three rows due at 500 (one in progress, one
pending, one completed) give `completed + inProgress + pending + overdue = 5`
against `total = 3`, the two open rows being counted under their status and
under `overdue`; a row stored as `已逾期` without a due date and a completed row
give the sum 1 against `total = 2`. -/
theorem assigned_breakdown_not_partition :
    (∃ p, getUserPersonalStats 1000 0 { data := some lateRows, error := none }
          { data := some [], error := none } = { data := some p, error := none } ∧
        p.assigned.total = 3 ∧ p.assigned.completed = 1 ∧ p.assigned.inProgress = 1 ∧
        p.assigned.pending = 1 ∧ p.assigned.overdue = 2 ∧
        p.assigned.total
          < p.assigned.completed + p.assigned.inProgress + p.assigned.pending
            + p.assigned.overdue) ∧
    (∃ p, getUserPersonalStats 1000 0 { data := some staleRows, error := none }
          { data := some [], error := none } = { data := some p, error := none } ∧
        p.assigned.total = 2 ∧ p.assigned.completed = 1 ∧ p.assigned.inProgress = 0 ∧
        p.assigned.pending = 0 ∧ p.assigned.overdue = 0 ∧
        p.assigned.completed + p.assigned.inProgress + p.assigned.pending
            + p.assigned.overdue
          < p.assigned.total) := by
  refine ⟨⟨_, rfl, ?_, ?_, ?_, ?_, ?_, ?_⟩, ⟨_, rfl, ?_, ?_, ?_, ?_, ?_, ?_⟩⟩ <;> decide

/-! ## The order of the fetched rows -/

/-- Permuted rows give the same dates. -/
theorem keys_trend_perm (l1 l2 : List TaskRow) (h : l1.Perm l2) :
    ((l1.foldl trendStep []).map Prod.fst).Perm ((l2.foldl trendStep []).map Prod.fst) := by
  rw [List.perm_ext_iff_of_nodup (keys_nodup_trend l1 [] List.nodup_nil)
    (keys_nodup_trend l2 [] List.nodup_nil)]
  intro date
  rw [keys_mem_trend l1 date [], keys_mem_trend l2 date []]
  constructor
  · rintro (hm | ⟨t, ht, e⟩)
    · exact Or.inl hm
    · exact Or.inr ⟨t, h.mem_iff.mp ht, e⟩
  · rintro (hm | ⟨t, ht, e⟩)
    · exact Or.inl hm
    · exact Or.inr ⟨t, h.mem_iff.mpr ht, e⟩

theorem trendData_perm (l1 l2 : List TaskRow) (h : l1.Perm l2) :
    trendData (l1.foldl trendStep []) = trendData (l2.foldl trendStep []) := by
  rw [trendData_eq_map l1, trendData_eq_map l2, jsSort_eq_of_perm (keys_trend_perm l1 l2 h)]
  apply List.map_congr_left
  intro date _
  rw [(h.filter _).length_eq, (h.filter _).length_eq]

/-- C30: `getTaskTrends` gives the same result for two row lists that are
permutations of each other and the same `days`: the same `dailyTrends`, in the
same order, and the same summary. -/
theorem getTaskTrends_order_insensitive (days : Nat) (rows1 rows2 : List TaskRow)
    (h : rows1.Perm rows2) :
    getTaskTrends days { data := some rows1, error := none }
      = getTaskTrends days { data := some rows2, error := none } := by
  rw [getTaskTrends_ok, getTaskTrends_ok, trendData_perm rows1 rows2 h, h.length_eq,
    (h.filter _).length_eq]

/-- C30 at two rows of different days, in either order. -/
theorem getTaskTrends_order_insensitive_witness :
    [(⟨"已完成", "low", 86400000, none, none, none, none⟩ : TaskRow),
        ⟨"进行中", "low", 0, none, none, none, none⟩].Perm
      [⟨"进行中", "low", 0, none, none, none, none⟩,
        ⟨"已完成", "low", 86400000, none, none, none, none⟩] ∧
    getTaskTrends 7
        { data := some [⟨"已完成", "low", 86400000, none, none, none, none⟩,
            ⟨"进行中", "low", 0, none, none, none, none⟩]
          error := none }
      = getTaskTrends 7
        { data := some [⟨"进行中", "low", 0, none, none, none, none⟩,
            ⟨"已完成", "low", 86400000, none, none, none, none⟩]
          error := none } :=
  ⟨List.Perm.swap _ _ _, getTaskTrends_order_insensitive 7 _ _ (List.Perm.swap _ _ _)⟩

end TaskManage
